import Mathlib

/-!
# Architectural showcase portal: the submission form

A shallow embedding of `frontend/src/pages/SubmissionForm.js`.

The component keeps a working copy of one submission document (a JavaScript
object), edits it through three handlers, and schedules a `PUT` of the edited
copy through `autoSave`.  The handlers copy the document with an object spread
and then assign into the copy.  The spread is shallow, so the arrays and
objects inside the old and the new document are the same objects: they live
in an explicit heap and values refer to them by address.  A document itself
is only ever assigned to while it is the handler's fresh copy, before
`setSubmission` publishes it, so a document is represented by the list of its
own properties.

Scope of the model of JavaScript values:
* numbers are integers (no handler does arithmetic on them);
* an object is a finite list of string-keyed own properties, read in
  insertion order; its prototype is `Object.prototype`, an array's is
  `Array.prototype`, and a read that finds no own property continues there;
* the built-in objects are as the language defines them and stay so: a read
  that reaches one yields a value `builtin`, and an edit that would assign to
  a property of a built-in object is outside the model (`unmodelled`);
* an assignment to `__proto__` that reaches the setter of `Object.prototype`
  creates no own property; the prototype it would install for an object or
  `null` value is not recorded, the heap holding own properties only;
* an array is a list of elements plus its named own properties; a hole reads
  as `undefined`, which is also how it is stored;
* the file is an ES module, hence strict code: creating a property on a
  primitive value throws a `TypeError`.

The definitions of the form, of the aggregation, of the admin dashboard and
of the routes come first; the theorems follow in the same order.
-/

namespace SubmissionForm

/-! ## Values and the heap -/

/-- Address of an object or array in the heap. -/
abbrev Addr := Nat

/-- JavaScript values; objects and arrays are references. -/
inductive Val where
  | undefined
  | null
  | bool (b : Bool)
  | num (n : Int)
  | str (s : String)
  | ref (a : Addr)
  /-- a built-in object or function, named by its global path, such as
  `Object.prototype` or `Object.prototype.toString` -/
  | builtin (path : String)
  deriving DecidableEq, Repr

/-- Truthiness, as tested by `!x` and `if (x)`. -/
def Val.truthy : Val → Bool
  | .undefined => false
  | .null => false
  | .bool b => b
  | .num n => n != 0
  | .str s => s != ""
  | .ref _ => true
  | .builtin _ => true

/-- Own properties of an object, in insertion order. -/
abbrev Props := List (String × Val)

/-- Read of an own property; `undefined` when the key is absent. -/
def lookupProp : Props → String → Val
  | [], _ => .undefined
  | (k', v') :: ps, k => if k' = k then v' else lookupProp ps k

/-- Whether the key is an own property. -/
def hasProp : Props → String → Bool
  | [], _ => false
  | (k', _) :: ps, k => if k' = k then true else hasProp ps k

/-- The methods of `Object.prototype`. -/
def objectPrototypeMethods : List String :=
  ["__defineGetter__", "__defineSetter__", "__lookupGetter__", "__lookupSetter__",
   "hasOwnProperty", "isPrototypeOf", "propertyIsEnumerable", "toLocaleString", "toString",
   "valueOf"]

/-- What a plain object inherits under the key `k`: the getter of `__proto__`
yields its prototype, `constructor` is the function `Object`, the methods are
those of `Object.prototype`; it inherits nothing else. -/
def inherited (k : String) : Val :=
  if k = "__proto__" then .builtin "Object.prototype"
  else if k = "constructor" then .builtin "Object"
  else if k ∈ objectPrototypeMethods then .builtin ("Object.prototype." ++ k)
  else .undefined

/-- The methods of `Array.prototype` (ECMAScript 2023). -/
def arrayPrototypeMethods : List String :=
  ["at", "concat", "copyWithin", "entries", "every", "fill", "filter", "find", "findIndex",
   "findLast", "findLastIndex", "flat", "flatMap", "forEach", "includes", "indexOf", "join",
   "keys", "lastIndexOf", "map", "pop", "push", "reduce", "reduceRight", "reverse", "shift",
   "slice", "some", "sort", "splice", "toLocaleString", "toReversed", "toSorted", "toSpliced",
   "toString", "unshift", "values", "with"]

/-- What an array inherits under a key `k` that is neither an index nor
`length`: from `Array.prototype` first, from `Object.prototype` after it. -/
def inheritedByArray (k : String) : Val :=
  if k = "__proto__" then .builtin "Array.prototype"
  else if k = "constructor" then .builtin "Array"
  else if k ∈ arrayPrototypeMethods then .builtin ("Array.prototype." ++ k)
  else inherited k

/-- Read `o[k]` on a plain object whose own properties are `ps`: the own
property when there is one, what the object inherits otherwise. -/
def getProp (ps : Props) (k : String) : Val :=
  if hasProp ps k then lookupProp ps k else inherited k

/-- Assignment `o[k] = v` on the property list: an existing key keeps its
position, a new key is appended. -/
def setProp : Props → String → Val → Props
  | [], k, v => [(k, v)]
  | (k', v') :: ps, k, v => if k' = k then (k, v) :: ps else (k', v') :: setProp ps k v

/-- Heap cells: a plain object, or an array with its elements and its named
properties. -/
inductive Cell where
  | obj (props : Props)
  | arr (elems : List Val) (props : Props)
  deriving DecidableEq, Repr

/-- The heap: cell `a` is the object at address `a`. -/
abbrev Heap := List Cell

/-- Allocation of a fresh cell; its address is the next free one. -/
def alloc (h : Heap) (c : Cell) : Heap × Addr := (h ++ [c], h.length)

/-- Largest array length, `2^32 - 1`: a key is an array index when it is the
canonical decimal form of a number below it. -/
def maxArrayLength : Nat := 4294967295

/-- The array index a string key denotes, if any. -/
def keyIndex (k : String) : Option Nat :=
  match k.toNat? with
  | some n => if toString n = k ∧ n < maxArrayLength then some n else none
  | none => none

/-- Element assignment `a[i] = v` on the element list: in range it replaces the
element, past the end it extends the array with holes. -/
def setElem (es : List Val) (i : Nat) (v : Val) : List Val :=
  if i < es.length then es.set i v
  else es ++ List.replicate (i - es.length) Val.undefined ++ [v]

/-- A submission document: the own properties of the top-level object. -/
abbrev Doc := Props

/-- Read `x[k]` with a string key on the object at address `a`. -/
def readKey (h : Heap) (a : Addr) (k : String) : Val :=
  match h[a]? with
  | some (.obj ps) => getProp ps k
  | some (.arr es ps) =>
      match keyIndex k with
      | some i => es.getD i .undefined
      | none =>
          if k = "length" then .num es.length
          else if hasProp ps k then lookupProp ps k else inheritedByArray k
  | none => .undefined

/-- Read `x[i]` with a numeric index on the object at address `a`. -/
def readIdx (h : Heap) (a : Addr) (i : Nat) : Val :=
  match h[a]? with
  | some (.obj ps) => lookupProp ps (toString i)
  | some (.arr es ps) =>
      if i < maxArrayLength then es.getD i .undefined else lookupProp ps (toString i)
  | none => .undefined

/-- The own property `k` of the state value, which is `null` or a document:
the optional read `submission?.[k]` for every key that names no member of
`Object.prototype`. -/
def getField (d : Option Doc) (k : String) : Val :=
  match d with
  | some ps => lookupProp ps k
  | none => .undefined

/-- Why a handler did not run to its end: it threw a `TypeError`, or it
reached a statement outside the model (the assignment of the `length` of an
array, or an assignment to a property of a built-in object). -/
inductive JsError where
  | typeError
  | unmodelled
  deriving DecidableEq, Repr

/-- Assignment `x[i] = v` with a numeric index on the object at address `a`. -/
def writeIdx (h : Heap) (a : Addr) (i : Nat) (v : Val) : Heap :=
  match h[a]? with
  | some (.obj ps) => h.set a (.obj (setProp ps (toString i) v))
  | some (.arr es ps) =>
      if i < maxArrayLength then h.set a (.arr (setElem es i v) ps)
      else h.set a (.arr es (setProp ps (toString i) v))
  | none => h

/-- The named own properties after the assignment `o[k] = v` on an object or
array that has the own properties `ps`.  Every member an object inherits is
a writable data property, which the assignment shadows with an own property,
except `__proto__`: without an own property of that name the assignment runs
the setter of `Object.prototype`, which creates no property (a primitive `v`
is ignored; an object or `null` would become the prototype, which the heap
does not record). -/
def assignProp (ps : Props) (k : String) (v : Val) : Props :=
  if k = "__proto__" ∧ hasProp ps k = false then ps else setProp ps k v

/-- Assignment `x[k] = v` with a string key on the object at address `a`.
Assigning the `length` of an array converts `v` to a number and may throw a
`RangeError`; that conversion is outside this model. -/
def writeKey (h : Heap) (a : Addr) (k : String) (v : Val) : Except JsError Heap :=
  match h[a]? with
  | some (.obj ps) => .ok (h.set a (.obj (assignProp ps k v)))
  | some (.arr es ps) =>
      match keyIndex k with
      | some i => .ok (h.set a (.arr (setElem es i v) ps))
      | none =>
          if k = "length" then .error .unmodelled
          else .ok (h.set a (.arr es (assignProp ps k v)))
  | none => .ok h

/-- Assignment `p[k] = v` on a string, a number or a boolean `p`, in strict
code: the setter that `__proto__` reaches returns without doing anything,
every other key throws a `TypeError`. -/
def assignPrimitive (k : String) : Except JsError Unit :=
  if k = "__proto__" then .ok () else .error .typeError

/-- The `length` of a string: its number of UTF-16 code units. -/
def utf16Length (t : String) : Nat :=
  (t.toList.map (fun ch => if ch.toNat < 65536 then 1 else 2)).sum

/-- The properties copied by an object spread `{ ...submission }` of the state
value, which is `null` or a document: nothing for `null`. -/
def spread : Option Doc → Props
  | none => []
  | some ps => ps

/-! ## The component -/

/-- The three edit shapes the form issues. -/
inductive Edit where
  | field (field : String) (value : Val)
  | nested (sect : String) (index : Nat) (field : String) (value : Val)
  | manufacturer (category : String) (supplier : Val)
  deriving DecidableEq, Repr

/-- What a timer runs when it expires: the callback `autoSave` hands to
`setTimeout`, which closes over the `submission` of the render that made it
and over the argument `data`; or the `navigate` callback of `handleComplete`. -/
inductive TimerAction where
  | autoSave (submission : Option Doc) (data : Doc)
  | navigate (path : String)
  deriving DecidableEq, Repr

/-- A timer armed by `setTimeout`. -/
structure Timer where
  id : Nat
  due : Nat
  action : TimerAction
  deriving DecidableEq, Repr

/-- The HTTP calls of the component; `target` is the value of
`submission.id` interpolated into the URL. -/
inductive Call where
  | put (target : Val) (data : Doc)
  | complete (target : Val)
  deriving DecidableEq, Repr

/-- A request handed to axios.  The body of a `PUT` is serialised from `data`
when the request is issued, before any other handler runs. -/
structure Request where
  id : Nat
  call : Call
  issuedAt : Nat
  /-- the heap when the request was issued, from which its body is serialised -/
  heapAtIssue : Heap
  deriving DecidableEq, Repr

/-- The component together with its environment. -/
structure World where
  /-- the arrays and objects inside documents -/
  heap : Heap
  /-- state `submission`: `null` or the working document -/
  submission : Option Doc
  /-- state `saving` -/
  saving : Bool
  /-- state `error` -/
  error : String
  /-- state `success` -/
  success : String
  /-- `submission` as bound by the current render, read by its handlers -/
  rendered : Option Doc
  /-- `let autoSaveTimeout`, a binding of the current render -/
  autoSaveTimeout : Option Nat
  /-- clock, in milliseconds -/
  now : Nat
  /-- next timer id -/
  nextTimer : Nat
  /-- armed timers, in creation order -/
  timers : List Timer
  /-- next request id -/
  nextRequest : Nat
  /-- requests without a response yet -/
  unresolved : List Request
  /-- every request issued so far, in order -/
  sent : List Request
  /-- number of `console.error` calls -/
  consoleErrors : Nat
  /-- errors thrown out of an event handler -/
  uncaught : List JsError
  /-- calls of `navigate` -/
  navigations : List String
  deriving DecidableEq, Repr

/-- The debounce delay of `autoSave`, in milliseconds. -/
def autoSaveDelay : Nat := 1000

/-- The world once `loadSubmission` has stored the document `doc` (or has
failed, `doc = none`) and the form is shown. -/
def loaded (h : Heap) (doc : Option Doc) : World :=
  { heap := h, submission := doc, saving := false,
    error := if doc.isSome then "" else "Failed to load submission", success := "",
    rendered := doc, autoSaveTimeout := none, now := 0, nextTimer := 0, timers := [],
    nextRequest := 0, unresolved := [], sent := [], consoleErrors := 0, uncaught := [],
    navigations := [] }

/-- A render runs the function body again: it binds the current state and a
fresh, unassigned `autoSaveTimeout`. -/
def render (w : World) : World :=
  { w with rendered := w.submission, autoSaveTimeout := none }

/-- Source `autoSave(data)`: `setSaving(true)`, `clearTimeout(autoSaveTimeout)`,
then a new timer of 1000 ms stored in `autoSaveTimeout`. -/
def autoSave (w : World) (data : Doc) : World :=
  let kept := match w.autoSaveTimeout with
    | some t => w.timers.filter (fun x => x.id != t)
    | none => w.timers
  { w with
    saving := true
    timers := kept ++ [{ id := w.nextTimer, due := w.now + autoSaveDelay,
                         action := .autoSave w.rendered data }]
    autoSaveTimeout := some w.nextTimer
    nextTimer := w.nextTimer + 1 }

/-- Source `const updated = { ...submission, [field]: value }`. -/
def fieldUpdated (submission : Option Doc) (field : String) (value : Val) : Doc :=
  setProp (spread submission) field value

/-- Source `handleFieldChange(field, value)`. -/
def handleFieldChange (w : World) (field : String) (value : Val) : World :=
  let updated := fieldUpdated w.rendered field value
  autoSave { w with submission := some updated } updated

/-- The statement `if (!updated[key]) updated[key] = <fresh cell>` on the
handler's copy `updated`, a plain object.  Every inherited member is truthy,
so the assignment runs only when the key is no inherited name or is an own
property: it sets the own property. -/
def ensureKey (h : Heap) (updated : Doc) (key : String) (fresh : Cell) : Heap × Doc :=
  if (getProp updated key).truthy then (h, updated)
  else
    let r := alloc h fresh
    (r.1, setProp updated key (.ref r.2))

/-- The statement `if (!c[index]) c[index] = {}` on the object at `c`. -/
def ensureSlot (h : Heap) (c : Addr) (index : Nat) : Heap :=
  if (readIdx h c index).truthy then h
  else
    let r := alloc h (.obj [])
    writeIdx r.1 c index (.ref r.2)

/-- The copy and the assignments of `handleNestedChange`.  After the first
statement `updated[section]` is truthy.  When it is an object of the heap the
slot is ensured and assigned to; a slot that is a string, a number or a
boolean is assigned to as `assignPrimitive` has it, `undefined` and `null`
have no properties.  When `updated[section]` is a string,
`updated[section][index]` is a character of it (a truthy string) or
`undefined`, and a number or `true` has no slot: creating the slot throws.
A collection or slot that is a built-in object would be assigned to. -/
def nestedUpdated (h : Heap) (submission : Option Doc) (sect : String) (index : Nat)
    (field : String) (value : Val) : Except JsError (Heap × Doc) :=
  let r := ensureKey h (spread submission) sect (.arr [] [])
  match getProp r.2 sect with
  | .ref c =>
      let h2 := ensureSlot r.1 c index
      match readIdx h2 c index with
      | .ref s =>
          match writeKey h2 s field value with
          | .ok h3 => .ok (h3, r.2)
          | .error e => .error e
      | .builtin _ => .error .unmodelled
      | .undefined => .error .typeError
      | .null => .error .typeError
      | _ =>
          match assignPrimitive field with
          | .ok _ => .ok (h2, r.2)
          | .error e => .error e
  | .str t =>
      if index < utf16Length t then
        match assignPrimitive field with
        | .ok _ => .ok r
        | .error e => .error e
      else .error .typeError
  | .builtin _ => .error .unmodelled
  | _ => .error .typeError

/-- Source `handleNestedChange(section, index, field, value)`. -/
def handleNestedChange (w : World) (sect : String) (index : Nat) (field : String)
    (value : Val) : Except JsError World :=
  match nestedUpdated w.heap w.rendered sect index field value with
  | .ok r => .ok (autoSave { w with heap := r.1, submission := some r.2 } r.2)
  | .error e => .error e

/-- The copy and the assignments of `handleManufacturerChange`.  After the
first statement `updated.manufacturers_suppliers` is truthy: an object of the
heap, a string, a number or a boolean (`assignPrimitive`), or a built-in
object. -/
def manufacturerUpdated (h : Heap) (submission : Option Doc) (category : String)
    (supplier : Val) : Except JsError (Heap × Doc) :=
  let r := ensureKey h (spread submission) "manufacturers_suppliers" (.obj [])
  match getProp r.2 "manufacturers_suppliers" with
  | .ref m =>
      match writeKey r.1 m category supplier with
      | .ok h2 => .ok (h2, r.2)
      | .error e => .error e
  | .builtin _ => .error .unmodelled
  | .undefined => .error .typeError
  | .null => .error .typeError
  | _ =>
      match assignPrimitive category with
      | .ok _ => .ok r
      | .error e => .error e

/-- Source `handleManufacturerChange(category, supplier)`. -/
def handleManufacturerChange (w : World) (category : String) (supplier : Val) :
    Except JsError World :=
  match manufacturerUpdated w.heap w.rendered category supplier with
  | .ok r => .ok (autoSave { w with heap := r.1, submission := some r.2 } r.2)
  | .error e => .error e

/-- The handler an edit is dispatched to. -/
def applyEdit (w : World) : Edit → Except JsError World
  | .field f v => .ok (handleFieldChange w f v)
  | .nested s i f v => handleNestedChange w s i f v
  | .manufacturer c v => handleManufacturerChange w c v

/-- Issue of a request at time `t`. -/
def issue (w : World) (c : Call) (t : Nat) : World :=
  let r : Request := { id := w.nextRequest, call := c, issuedAt := t, heapAtIssue := w.heap }
  { w with unresolved := w.unresolved ++ [r], sent := w.sent ++ [r],
           nextRequest := w.nextRequest + 1 }

/-- Source `handleComplete()` up to its `await`: `submission.id` throws on a
`null` submission, which the `catch` and `finally` blocks handle at once. -/
def handleComplete (w : World) : World :=
  match w.rendered with
  | none => { w with error := "Failed to complete submission", saving := false }
  | some s => issue { w with saving := true } (.complete (lookupProp s "id")) w.now

/-- Expiry of a timer: the body of the `autoSave` callback up to its `await`
(a `null` submission throws inside the `try`), or the navigation. -/
def fireTimer (w : World) (t : Timer) : World :=
  match t.action with
  | .autoSave sub data =>
      match sub with
      | none => { w with consoleErrors := w.consoleErrors + 1, saving := false }
      | some s => issue w (.put (lookupProp s "id") data) t.due
  | .navigate path => { w with navigations := w.navigations ++ [path] }

/-- The message `handleComplete` shows on success. -/
def completedMessage : String :=
  "Submission completed! An admin will contact you if needed. Instructions for uploading images will be sent via email."

/-- Arrival of the response to request `id`: the code after the `await` of
the `autoSave` callback or of `handleComplete`. -/
def respond (w : World) (id : Nat) (ok : Bool) : World :=
  match w.unresolved.find? (fun r => r.id == id) with
  | none => w
  | some r =>
      let w1 := { w with unresolved := w.unresolved.filter (fun x => x.id != id) }
      match r.call with
      | .put _ _ =>
          if ok then { w1 with saving := false }
          else { w1 with consoleErrors := w1.consoleErrors + 1, saving := false }
      | .complete _ =>
          if ok then
            { w1 with
              success := completedMessage
              timers := w1.timers ++ [{ id := w1.nextTimer, due := w1.now + 3000,
                                        action := .navigate "/submission" }]
              nextTimer := w1.nextTimer + 1
              saving := false }
          else { w1 with error := "Failed to complete submission", saving := false }

/-- Passing of `ms` milliseconds: the timers due by then expire, earliest
first, each followed by the render its state change causes. -/
def advance (w : World) (ms : Nat) : World :=
  let t := w.now + ms
  let due := (w.timers.filter (fun x => x.due ≤ t)).insertionSort (fun a b => a.due ≤ b.due)
  let rest := w.timers.filter (fun x => ¬ x.due ≤ t)
  due.foldl (fun acc x => render (fireTimer acc x)) { w with timers := rest, now := t }

/-- What happens to the component. -/
inductive Event where
  | edit (e : Edit)
  | complete
  | wait (ms : Nat)
  | response (id : Nat) (ok : Bool)
  deriving DecidableEq, Repr

/-- One event and the render that follows it.  An edit always stores a new
object in `submission`, so a render follows every edit that returns; an edit
that throws changes no state, and an edit that leaves the model is recorded
the same way.  The Complete button is `disabled={saving}`. -/
def step (w : World) : Event → World
  | .edit e =>
      match applyEdit w e with
      | .ok w1 => render w1
      | .error err => { w with uncaught := w.uncaught ++ [err] }
  | .complete => if w.saving then w else render (handleComplete w)
  | .wait ms => advance w ms
  | .response id ok => render (respond w id ok)

/-- A run of events. -/
def run (w : World) (es : List Event) : World := es.foldl step w

/-- The `PUT` requests among a list of requests. -/
def puts (rs : List Request) : List Request :=
  rs.filter (fun r => match r.call with | .put _ _ => true | .complete _ => false)

/-- The top-level key an edit assigns to in its copy of the document. -/
def Edit.target : Edit → String
  | .field f _ => f
  | .nested s _ _ _ => s
  | .manufacturer _ _ => "manufacturers_suppliers"

/-- The value of the `status` field of the working document. -/
def statusOf (w : World) : Val := getField w.submission "status"

/-- Whether a timer is one armed by `autoSave`. -/
def Timer.isAutoSave (t : Timer) : Bool :=
  match t.action with
  | .autoSave _ _ => true
  | .navigate _ => false

/-- Whether an event is an edit. -/
def Event.isEdit : Event → Bool
  | .edit _ => true
  | _ => false

/-- Whether an event is an edit addressed to the top-level key `status`. -/
def Event.targetsStatus : Event → Bool
  | .edit e => e.target == "status"
  | _ => false

/-- The writes a world still owes or awaits: the unresolved `PUT`s and the
armed autosave timers. -/
def pendingWrites (w : World) : Nat :=
  (puts w.unresolved).length + (w.timers.filter Timer.isAutoSave).length

/-! ## Sample documents -/

/-- A heap holding one architects array with one slot, and one supplier map. -/
def sampleHeap : Heap :=
  [.arr [.ref 1] [], .obj [("firm_name", .str "Atelier")],
   .obj [("Pools - Heaters", .str "Acme")]]

/-- A document in progress. -/
def sampleDoc : Doc :=
  [("id", .num 7), ("status", .str "in_progress"), ("project_name", .str "Arena"),
   ("architects", .ref 0), ("manufacturers_suppliers", .ref 2)]

/-- A completed document. -/
def completedDoc : Doc :=
  [("id", .num 7), ("status", .str "completed"), ("project_name", .str "Arena")]

/-- The form showing `sampleDoc`. -/
def sampleWorld : World := loaded sampleHeap (some sampleDoc)

/-- The form showing `completedDoc`. -/
def completedWorld : World := loaded [] (some completedDoc)

/-- A document in draft. -/
def draftDoc : Doc := [("id", .num 7), ("status", .str "draft")]

/-- The form showing `draftDoc`. -/
def draftWorld : World := loaded [] (some draftDoc)

end SubmissionForm

/-!
# Architectural showcase portal: the admin dashboard

A shallow embedding of `frontend/src/pages/AdminDashboard.js`: the view of the
cumulative report, `handleExport`, and the polling of `loadData`.  The
aggregation that produces the report runs in the backend, whose code is not
among the sources; the namespace `Aggregation` models it from the
specification.
-/

namespace Aggregation

/-- A completed submission, as far as the aggregation reads it. -/
structure Completed where
  total_construction_cost : String
  project_category : String
  project_type : String
  manufacturers_suppliers : List (String × String)
  deriving DecidableEq, Repr

/-- The value of a string of decimal digits, most significant first, on top
of the value `acc` of the digits already read. -/
def digitsValue : List Char → Nat → Nat
  | [], acc => acc
  | c :: cs, acc => digitsValue cs (10 * acc + (c.toNat - 48))

/-- Modelled from the spec: the backend's parser of `total_construction_cost`
is missing from the sources.  "parse `total_construction_cost` as a numeric
amount, ignoring currency symbols/formatting": the currency symbols, commas
and blanks are dropped, and what is left parses when it is a non-empty string
of digits. -/
def parseCost (s : String) : Option Nat :=
  let cs := s.toList.filter
    (fun c => !(c == '$' || c == '€' || c == '£' || c == ',' || c == ' '))
  if cs ≠ [] ∧ cs.all Char.isDigit then some (digitsValue cs 0) else none

/-- The cost sub-result of the report. -/
structure CostAnalysis where
  projectsWithCost : Nat
  totalSpent : Nat
  averageCost : ℚ
  deriving DecidableEq, Repr

/-- The pass of the cost analysis: the count of the submissions whose cost
parses, and the sum of the parsed amounts. -/
def costTotals (subs : List Completed) : Nat × Nat :=
  subs.foldl
    (fun (acc : Nat × Nat) s =>
      match parseCost s.total_construction_cost with
      | some amount => (acc.1 + 1, acc.2 + amount)
      | none => acc)
    (0, 0)

/-- Modelled from the spec: the backend's cost analysis is missing from the
sources.  "count of projects with usable cost data, sum of parsed amounts,
arithmetic mean (sum / count-with-data; if count is zero, mean is reported as
zero/undefined rather than dividing by zero)", written as one pass that keeps
the count and the sum. -/
def costAnalysis (subs : List Completed) : CostAnalysis :=
  let acc := costTotals subs
  { projectsWithCost := acc.1
    totalSpent := acc.2
    averageCost := if acc.1 = 0 then 0 else (acc.2 : ℚ) / (acc.1 : ℚ) }

/-- One entry `{name, count}` of the supplier ranking. -/
structure Entry where
  name : String
  count : Nat
  deriving DecidableEq, Repr

/-- Modelled from the spec: "flatten every submission's
`manufacturers_suppliers` map values (ignoring empty strings)". -/
def supplierValues (subs : List Completed) : List String :=
  (subs.map (fun s => s.manufacturers_suppliers.map Prod.snd)).flatten.filter (fun v => v ≠ "")

/-- The tally after one more occurrence of `name`: its entry is incremented
where it stands, a name not seen before is appended. -/
def bump : List Entry → String → List Entry
  | [], name => [{ name := name, count := 1 }]
  | e :: es, name =>
      if e.name = name then { e with count := e.count + 1 } :: es else e :: bump es name

/-- Modelled from the spec: "count occurrences of each distinct non-empty
supplier name across all submissions and all categories", in one pass; the
entries stand in first-seen order. -/
def tally (values : List String) : List Entry := values.foldl bump []

/-- Modelled from the spec: the backend's supplier ranking is missing from
the sources.  "sort descending by count; ties broken by first-seen order":
a stable sort of the tally. -/
def supplierRanking (subs : List Completed) : List Entry :=
  (tally (supplierValues subs)).insertionSort (fun a b => a.count ≥ b.count)

/-- Modelled from the spec: "Top-N (reference: top 10) returned to the
caller". -/
def topSuppliers (subs : List Completed) : List Entry := (supplierRanking subs).take 10

/-- The four completed submissions of the cost example. -/
def costExample : List Completed :=
  [{ total_construction_cost := "1000000", project_category := "", project_type := "",
     manufacturers_suppliers := [] },
   { total_construction_cost := "2000000", project_category := "", project_type := "",
     manufacturers_suppliers := [] },
   { total_construction_cost := "bad", project_category := "", project_type := "",
     manufacturers_suppliers := [] },
   { total_construction_cost := "", project_category := "", project_type := "",
     manufacturers_suppliers := [] }]

/-- The three completed submissions of the supplier example. -/
def supplierExample : List Completed :=
  [{ total_construction_cost := "", project_category := "", project_type := "",
     manufacturers_suppliers := [("Pools - Heaters", "Acme")] },
   { total_construction_cost := "", project_category := "", project_type := "",
     manufacturers_suppliers := [("Pools - Heaters", "Acme")] },
   { total_construction_cost := "", project_category := "", project_type := "",
     manufacturers_suppliers := [("Pools - Heaters", "Acme"), ("Pools - Covers", "Zeta")] }]

/-- The names in the order in which they are first seen. -/
def firstSeen (values : List String) : List String :=
  values.foldl (fun acc v => if v ∈ acc then acc else acc ++ [v]) []

/-- The count the tally holds for a name, zero when it holds none. -/
def countOf : List Entry → String → Nat
  | [], _ => 0
  | e :: es, name => if e.name = name then e.count else countOf es name

end Aggregation

namespace AdminDashboard

/-! ## The cumulative report view -/

/-- The body of `GET /admin/reports/summary` as the view reads it; a field
the body lacks is `none`. -/
structure Report where
  total : Option Int
  costAnalysis : Option Aggregation.CostAnalysis
  byCategory : Option (List Aggregation.Entry)
  byType : Option (List Aggregation.Entry)
  topSuppliers : Option (List Aggregation.Entry)
  deriving DecidableEq, Repr

/-- What the sections of the cumulative report show.  A histogram or the
supplier table is `none` when its section is not rendered.  (The amounts are
shown through `toFixed`, which is not modelled.) -/
structure Sections where
  /-- `costAnalysis.totalSpent / 1000000` -/
  totalSpentMillions : ℚ
  /-- `costAnalysis.averageCost / 1000000` -/
  averageCostMillions : ℚ
  projectsWithCost : Nat
  byCategory : Option (List Aggregation.Entry)
  byType : Option (List Aggregation.Entry)
  topSuppliers : Option (List Aggregation.Entry)
  /-- `reportData.total` of the summary -/
  summaryTotal : Int
  /-- `reportData.byCategory.length` of the summary -/
  summaryCategories : Nat
  /-- `reportData.topSuppliers[0]?.count || 0` -/
  summaryTopCount : Nat
  /-- `reportData.topSuppliers[0]?.name || 'N/A'` -/
  summaryTopName : String
  deriving DecidableEq, Repr

/-- The two outcomes of the cumulative-reports tab. -/
inductive CumulativeView where
  | noData
  | report (s : Sections)
  deriving DecidableEq, Repr

/-- The sections a view shows, if it shows any. -/
def CumulativeView.sections : CumulativeView → Option Sections
  | .noData => none
  | .report s => some s

/-- A render that throws: a property read on `undefined`. -/
inductive RenderError where
  | typeError
  deriving DecidableEq, Repr

/-- The test `reportData && reportData.total > 0`. -/
def hasData (reportData : Option Report) : Bool :=
  match reportData with
  | none => false
  | some r =>
      match r.total with
      | some t => decide (t > 0)
      | none => false

/-- A section guarded by `list.length > 0 && (...)`. -/
def sectionOf (l : List Aggregation.Entry) : Option (List Aggregation.Entry) :=
  if l.length > 0 then some l else none

/-- The cumulative-reports tab, source lines 263 to 399: the sections when
`reportData && reportData.total > 0`, else the 'No completed submissions
yet' panel.  The sections read `costAnalysis`, `byCategory`, `byType` and
`topSuppliers`; reading a property of one that is missing throws. -/
def cumulativeView (reportData : Option Report) : Except RenderError CumulativeView :=
  match reportData with
  | none => .ok .noData
  | some r =>
      if hasData (some r) then
        match r.costAnalysis, r.byCategory, r.byType, r.topSuppliers with
        | some c, some cats, some tys, some sups =>
            .ok (.report
              { totalSpentMillions := (c.totalSpent : ℚ) / 1000000
                averageCostMillions := c.averageCost / 1000000
                projectsWithCost := c.projectsWithCost
                byCategory := sectionOf cats
                byType := sectionOf tys
                topSuppliers := sectionOf sups
                summaryTotal := r.total.getD 0
                summaryCategories := cats.length
                summaryTopCount := match sups.head? with
                  | some e => e.count
                  | none => 0
                summaryTopName := match sups.head? with
                  | some e => if e.name = "" then "N/A" else e.name
                  | none => "N/A" })
        | _, _, _, _ => .error .typeError
      else .ok .noData

/-! ## Export -/

/-- The instant `new Date()` reads, in UTC. -/
structure UtcTime where
  year : Nat
  month : Nat
  day : Nat
  hours : Nat
  minutes : Nat
  seconds : Nat
  millis : Nat
  deriving DecidableEq, Repr

/-- The decimal digit of the units of `n`. -/
def digit (n : Nat) : Char := Char.ofNat (48 + n % 10)

/-- Two digits, zero padded. -/
def pad2 (n : Nat) : List Char := [digit (n / 10), digit n]

/-- Three digits, zero padded. -/
def pad3 (n : Nat) : List Char := [digit (n / 100), digit (n / 10), digit n]

/-- Four digits, zero padded. -/
def pad4 (n : Nat) : List Char := [digit (n / 1000), digit (n / 100), digit (n / 10), digit n]

/-- Six digits, zero padded. -/
def pad6 (n : Nat) : List Char :=
  [digit (n / 100000), digit (n / 10000), digit (n / 1000), digit (n / 100), digit (n / 10),
   digit n]

/-- The year of `toISOString`: four digits up to 9999, a sign and six digits
beyond. -/
def yearChars (y : Nat) : List Char := if y ≤ 9999 then pad4 y else '+' :: pad6 y

/-- The date part `YYYY-MM-DD` of an instant. -/
def dateChars (d : UtcTime) : List Char :=
  yearChars d.year ++ '-' :: pad2 d.month ++ '-' :: pad2 d.day

/-- `Date.prototype.toISOString`: `YYYY-MM-DDTHH:mm:ss.sssZ`. -/
def toISOString (d : UtcTime) : List Char :=
  dateChars d ++ 'T' :: pad2 d.hours ++ ':' :: pad2 d.minutes ++ ':' :: pad2 d.seconds ++
    '.' :: pad3 d.millis ++ ['Z']

/-- The expression `new Date().toISOString().split('T')[0]`: what stands before
the first `T`. -/
def isoDay (d : UtcTime) : String :=
  String.mk ((toISOString d).takeWhile (fun c => c != 'T'))

/-- The `endpoint` of `handleExport`, without `API_URL`. -/
def exportEndpoint (type : String) : String :=
  if type = "cumulative" then "/admin/export-cumulative-report" else "/admin/export-excel"

/-- The `filename` of `handleExport`. -/
def exportFilename (type : String) (d : UtcTime) : String :=
  if type = "cumulative" then "cumulative-report-" ++ isoDay d ++ ".xlsx"
  else "submissions-" ++ isoDay d ++ ".xlsx"

/-! ## The component -/

/-- A row of `GET /admin/submissions`. -/
abbrev Row := List (String × String)

/-- The body of `GET /admin/stats`. -/
structure Stats where
  total : Int
  completed : Int
  inProgress : Int
  deriving DecidableEq, Repr

/-- Who called `loadData`. -/
inductive Origin where
  | mount
  | tick
  | refresh
  deriving DecidableEq, Repr

/-- A call of `loadData`. -/
structure Load where
  id : Nat
  startedAt : Nat
  origin : Origin
  deriving DecidableEq, Repr

/-- How the three fetches of one `loadData` end: the body of each, or `none`
for a fetch that failed. -/
structure LoadOutcome where
  submissions : Option (List Row)
  stats : Option Stats
  report : Option Report
  deriving DecidableEq, Repr

/-- A request of `handleExport`. -/
structure Export where
  id : Nat
  type : String
  endpoint : String
  deriving DecidableEq, Repr

/-- The dashboard and its environment. -/
structure Dash where
  /-- state `submissions` -/
  submissions : List Row
  /-- state `stats` -/
  stats : Option Stats
  /-- state `reportData` -/
  reportData : Option Report
  /-- state `loading` -/
  loading : Bool
  /-- state `exporting` -/
  exporting : Bool
  /-- state `error` -/
  error : String
  /-- state `activeTab` -/
  activeTab : String
  /-- whether the component is mounted -/
  mounted : Bool
  /-- clock, in milliseconds -/
  now : Nat
  /-- the next expiry of the interval, when one is set -/
  interval : Option Nat
  /-- next id of a load or an export -/
  nextId : Nat
  /-- every `loadData` started, in order -/
  started : List Load
  /-- the `loadData` calls whose fetches are unresolved -/
  pending : List Load
  /-- every export requested, in order -/
  exportsSent : List Export
  /-- the exports without a response yet -/
  exportsPending : List Export
  /-- the filenames of the downloads triggered, in order -/
  downloads : List String
  deriving DecidableEq, Repr

/-- The period of the polling, in milliseconds. -/
def pollInterval : Nat := 30000

/-- The component before it mounts, at time `t`. -/
def initial (t : Nat) : Dash :=
  { submissions := [], stats := none, reportData := none, loading := true, exporting := false,
    error := "", activeTab := "overview", mounted := false, now := t, interval := none,
    nextId := 0, started := [], pending := [], exportsSent := [], exportsPending := [],
    downloads := [] }

/-- Source `loadData()` up to its `await`, called at time `t`: the three
fetches are issued. -/
def loadData (w : Dash) (t : Nat) (origin : Origin) : Dash :=
  let l : Load := { id := w.nextId, startedAt := t, origin := origin }
  { w with started := w.started ++ [l], pending := w.pending ++ [l], nextId := w.nextId + 1 }

/-- The effect of `useEffect`: `loadData()`, then `setInterval(loadData, 30000)`. -/
def mount (w : Dash) : Dash :=
  { loadData { w with mounted := true } w.now .mount with
    interval := some (w.now + pollInterval) }

/-- The cleanup of the effect: `clearInterval(interval)`. -/
def unmount (w : Dash) : Dash :=
  { w with mounted := false, interval := none }

/-- How many expiries of an interval due next at `next` fall at or before
`t`. -/
def tickCount (next t : Nat) : Nat :=
  if next ≤ t then (t - next) / pollInterval + 1 else 0

/-- Passing of `ms` milliseconds: every expiry of the interval calls
`loadData`. -/
def advance (w : Dash) (ms : Nat) : Dash :=
  match w.interval with
  | none => { w with now := w.now + ms }
  | some next =>
      let n := tickCount next (w.now + ms)
      let w1 := (List.range n).foldl
        (fun acc k => loadData acc (next + pollInterval * k) .tick) w
      { w1 with now := w.now + ms, interval := some (next + pollInterval * n) }

/-- The code of `loadData` after its `await`, for the load `id`.  A
component that has unmounted has no state left to set. -/
def loadDone (w : Dash) (id : Nat) (o : LoadOutcome) : Dash :=
  match w.pending.find? (fun l => l.id == id) with
  | none => w
  | some _ =>
      let w1 := { w with pending := w.pending.filter (fun l => l.id != id) }
      if w1.mounted then
        match o.submissions, o.stats with
        | some ss, some st =>
            { w1 with
              submissions := ss
              stats := some st
              reportData := match o.report with
                | some r => some r
                | none => w1.reportData
              loading := false }
        | _, _ => { w1 with error := "Failed to load submissions", loading := false }
      else w1

/-- Source `handleExport(type = 'all')` up to its `await`. -/
def handleExport (w : Dash) (type : Option String) : Dash :=
  let t := type.getD "all"
  let x : Export := { id := w.nextId, type := t, endpoint := exportEndpoint t }
  { w with exporting := true, exportsSent := w.exportsSent ++ [x],
           exportsPending := w.exportsPending ++ [x], nextId := w.nextId + 1 }

/-- The code of `handleExport` after its `await`, for the export `id`: on a
response that arrives at the instant `d` the download is triggered, on a
failure `error` is set; `exporting` is reset in both cases. -/
def exportDone (w : Dash) (id : Nat) (result : Option UtcTime) : Dash :=
  match w.exportsPending.find? (fun x => x.id == id) with
  | none => w
  | some x =>
      let w1 := { w with exportsPending := w.exportsPending.filter (fun y => y.id != id) }
      match result with
      | some d =>
          { w1 with downloads := w1.downloads ++ [exportFilename x.type d],
                    exporting := if w1.mounted then false else w1.exporting }
      | none =>
          if w1.mounted then { w1 with error := "Failed to export Excel file", exporting := false }
          else w1

/-- What happens to the dashboard. -/
inductive Event where
  | mount
  | unmount
  | wait (ms : Nat)
  | refresh
  | loadDone (id : Nat) (o : LoadOutcome)
  | exportClick (type : String)
  | exportDone (id : Nat) (result : Option UtcTime)
  | selectTab (tab : String)
  deriving DecidableEq, Repr

/-- One event.  The buttons exist once the component is mounted and
`loading` is `false`; the export buttons are `disabled={exporting}`. -/
def step (w : Dash) : Event → Dash
  | .mount => if w.mounted then w else mount w
  | .unmount => if w.mounted then unmount w else w
  | .wait ms => advance w ms
  | .refresh => if w.mounted && !w.loading then loadData w w.now .refresh else w
  | .loadDone id o => loadDone w id o
  | .exportClick type =>
      if w.mounted && !w.loading && !w.exporting then handleExport w (some type) else w
  | .exportDone id result => exportDone w id result
  | .selectTab tab => if w.mounted && !w.loading then { w with activeTab := tab } else w

/-- A run of events. -/
def run (w : Dash) (es : List Event) : Dash := es.foldl step w

/-- The start times of the loads the interval started. -/
def tickStarts (w : Dash) : List Nat :=
  (w.started.filter (fun l => l.origin == .tick)).map Load.startedAt

/-- Whether an event mounts or unmounts the component. -/
def Event.isLifecycle : Event → Bool
  | .mount => true
  | .unmount => true
  | _ => false

/-- The time a run of events takes. -/
def elapsed : List Event → Nat
  | [] => 0
  | .wait ms :: es => ms + elapsed es
  | _ :: es => elapsed es

/-- A report of one completed submission whose histograms and supplier table
are empty. -/
def bareReport : Report :=
  { total := some 1
    costAnalysis := some { projectsWithCost := 0, totalSpent := 0, averageCost := 0 }
    byCategory := some [], byType := some [], topSuppliers := some [] }

/-- A report of three completed submissions. -/
def fullReport : Report :=
  { total := some 3
    costAnalysis := some { projectsWithCost := 2, totalSpent := 3000000, averageCost := 1500000 }
    byCategory := some [{ name := "Pools", count := 3 }]
    byType := some [{ name := "New", count := 3 }]
    topSuppliers := some [{ name := "Acme", count := 3 }, { name := "Zeta", count := 1 }] }

/-- The instant 2026-03-07T09:05:00.042Z. -/
def sampleInstant : UtcTime :=
  { year := 2026, month := 3, day := 7, hours := 9, minutes := 5, seconds := 0, millis := 42 }

end AdminDashboard

namespace SubmissionForm

/-! ## The architect section -/

/-- The roles the architect section lists, in the order of source line 513. -/
def architectSlotRoles : List String :=
  ["Architect of Record", "Associate Architect", "Design Architect"]

/-- The slot fields the section has an input for. -/
def architectSlotFields : List String := ["firm_name", "email", "phone", "website", "address"]

/-- An input of the architect section: the role and index of
`.map((role, idx) => ...)` and the slot field it edits. -/
structure ArchitectInput where
  role : String
  idx : Nat
  field : String
  deriving DecidableEq, Repr

/-- The inputs the architect section renders. -/
def architectInputs : List ArchitectInput :=
  (architectSlotRoles.enum.map
    (fun p => architectSlotFields.map
      (fun f => ({ role := p.2, idx := p.1, field := f } : ArchitectInput)))).flatten

/-- The `onChange` of an input of the architect section:
`handleNestedChange('architects', idx, field, e.target.value)`. -/
def architectEdit (x : ArchitectInput) (value : String) : Edit :=
  .nested "architects" x.idx x.field (.str value)

/-- The number of slots of the `architects` array of a document, when it has
one. -/
def architectCount (h : Heap) (d : Option Doc) : Option Nat :=
  match getField d "architects" with
  | .ref a =>
      match h[a]? with
      | some (.arr es _) => some es.length
      | _ => none
  | _ => none

end SubmissionForm

/-!
# Architectural showcase portal: the routes

A shallow embedding of `frontend/src/App.js`: the state `token` and `user`,
the two entries of `localStorage`, `handleLogin`, `handleLogout` and the
element each route renders.  Every render of `App` evaluates the arguments of
its two `useState` calls again, so every render parses the stored user text;
the value parsed is used by the first render only, a throw ends any render.
-/

namespace App

/-- The value of the state `user`: what `JSON.parse` returned at start or
what `handleLogin` received. -/
inductive UserVal where
  | null
  | undefined
  /-- a string, a boolean or a finite number -/
  | primitive
  /-- an object with its own properties -/
  | object (props : SubmissionForm.Props)
  deriving DecidableEq, Repr

/-- The expression `user?.is_admin`: a value without properties reads
`undefined`; no object inherits a member of that name. -/
def isAdmin : UserVal → SubmissionForm.Val
  | .object ps => SubmissionForm.lookupProp ps "is_admin"
  | _ => .undefined

/-- The text of the `localStorage` entry `user`, as far as `JSON.parse` tells
texts apart. -/
inductive UserText where
  /-- the empty string -/
  | empty
  /-- the JSON text `null` -/
  | jsonNull
  /-- the JSON text of a string, a boolean or a number -/
  | jsonPrimitive
  /-- the JSON text of an object with these properties -/
  | jsonObject (props : SubmissionForm.Props)
  /-- a text that is not JSON, such as `undefined` -/
  | malformed
  deriving DecidableEq, Repr

/-- What a render of `App` can throw. -/
inductive RenderError where
  | syntaxError
  deriving DecidableEq, Repr

/-- The properties `JSON.stringify` writes: it leaves out those whose value is
`undefined` or a function. -/
def jsonProps (ps : SubmissionForm.Props) : SubmissionForm.Props :=
  ps.filter (fun p =>
    match p.2 with
    | .undefined => false
    | .builtin _ => false
    | _ => true)

/-- The text `localStorage.setItem('user', JSON.stringify(userData))` stores:
`JSON.stringify(undefined)` is `undefined`, which `setItem` stores as the text
`undefined`. -/
def stringify : UserVal → UserText
  | .null => .jsonNull
  | .undefined => .malformed
  | .primitive => .jsonPrimitive
  | .object ps => .jsonObject (jsonProps ps)

/-- The expression `JSON.parse(localStorage.getItem('user') || 'null')` of
source line 11: an absent entry and the empty text are falsy and parse as
`null`; a text that is not JSON throws a `SyntaxError`. -/
def parseStored : Option UserText → Except RenderError UserVal
  | none => .ok .null
  | some .empty => .ok .null
  | some .jsonNull => .ok .null
  | some .jsonPrimitive => .ok .primitive
  | some (.jsonObject ps) => .ok (.object ps)
  | some .malformed => .error .syntaxError

/-- The state of `App` and the two entries of `localStorage` it keeps. -/
structure State where
  /-- state `token`: `null` or a string -/
  token : Option String
  /-- state `user` -/
  user : UserVal
  /-- `localStorage` entry `token` -/
  storedToken : Option String
  /-- `localStorage` entry `user` -/
  storedUser : Option UserText
  deriving DecidableEq, Repr

/-- The state after the first render, from `localStorage`: `token` is the
stored token and `user` is the stored user text parsed. -/
def start (storedToken : Option String) (storedUser : Option UserText) :
    Except RenderError State :=
  match parseStored storedUser with
  | .ok u =>
      .ok { token := storedToken, user := u, storedToken := storedToken,
            storedUser := storedUser }
  | .error e => .error e

/-- Source `handleLogin(newToken, userData)`. -/
def handleLogin (_st : State) (newToken : String) (userData : UserVal) : State :=
  { token := some newToken, user := userData, storedToken := some newToken,
    storedUser := some (stringify userData) }

/-- Source `handleLogout()`. -/
def handleLogout (_st : State) : State :=
  { token := none, user := .null, storedToken := none, storedUser := none }

/-- The test `token` of the routes: a string that is not empty. -/
def tokenPresent (st : State) : Bool :=
  match st.token with
  | some t => t != ""
  | none => false

/-- The test `user?.is_admin` of the routes. -/
def adminUser (st : State) : Bool := (isAdmin st.user).truthy

/-- The paths of the `Route`s. -/
inductive Path where
  | login
  | register
  | submission
  | admin
  | root
  deriving DecidableEq, Repr

/-- The `path` attribute of a route. -/
def Path.url : Path → String
  | .login => "/login"
  | .register => "/register"
  | .submission => "/submission"
  | .admin => "/admin"
  | .root => "/"

/-- What a route renders: a page, or `<Navigate to=... />`. -/
inductive Element where
  | loginPage
  | registerPage
  | submissionForm
  | adminDashboard
  | navigate (target : Path)
  deriving DecidableEq, Repr

/-- The `element` of each `Route`, source lines 31 to 42. -/
def routeElement (st : State) : Path → Element
  | .login => .loginPage
  | .register => .registerPage
  | .submission => if tokenPresent st then .submissionForm else .navigate .login
  | .admin => if tokenPresent st && adminUser st then .adminDashboard else .navigate .login
  | .root =>
      if tokenPresent st then .navigate (if adminUser st then .admin else .submission)
      else .navigate .login

/-- What a render of `App` yields at a path: source line 11 parses the stored
user text and may throw; the element of the route otherwise. -/
def route (st : State) (p : Path) : Except RenderError Element :=
  match parseStored st.storedUser with
  | .ok _ => .ok (routeElement st p)
  | .error e => .error e

/-- The page shown for a path once the redirects of a render that returned
are followed, at most `fuel` of them. -/
def settle (st : State) : Nat → Path → Option Element
  | 0, p =>
      match routeElement st p with
      | .navigate _ => none
      | e => some e
  | fuel + 1, p =>
      match routeElement st p with
      | .navigate q => settle st fuel q
      | e => some e

/-- `App` with nothing stored and nobody signed in. -/
def signedOut : State :=
  { token := none, user := .null, storedToken := none, storedUser := none }

/-- An administrator. -/
def adminVal : UserVal := .object [("id", .num 1), ("is_admin", .bool true)]

/-- A user who is not an administrator. -/
def memberVal : UserVal := .object [("id", .num 2), ("is_admin", .bool false)]

end App

namespace SubmissionForm

/-! ## Property lists -/

theorem lookupProp_setProp_same (ps : Props) (k : String) (v : Val) :
    lookupProp (setProp ps k v) k = v := by
  induction ps with
  | nil => simp [setProp, lookupProp]
  | cons p ps ih =>
      obtain ⟨k', v'⟩ := p
      by_cases hk : k' = k
      · simp [setProp, lookupProp, hk]
      · simp [setProp, lookupProp, hk, ih]

theorem lookupProp_setProp_other (ps : Props) (k g : String) (v : Val) (hg : g ≠ k) :
    lookupProp (setProp ps k v) g = lookupProp ps g := by
  induction ps with
  | nil =>
      have hk : ¬ k = g := fun h => hg h.symm
      simp [setProp, lookupProp, hk]
  | cons p ps ih =>
      obtain ⟨k', v'⟩ := p
      by_cases hk : k' = k
      · have hkg : ¬ k = g := fun h => hg h.symm
        have hk'g : ¬ k' = g := fun h => hkg (hk ▸ h)
        simp [setProp, lookupProp, hk, hkg]
      · by_cases hk' : k' = g
        · subst hk'
          simp [setProp, lookupProp, hg]
        · simp [setProp, lookupProp, hk, hk', ih]

theorem lookupProp_of_hasProp_false (ps : Props) (k : String) (h : hasProp ps k = false) :
    lookupProp ps k = .undefined := by
  induction ps with
  | nil => rfl
  | cons p ps ih =>
      obtain ⟨k', v'⟩ := p
      by_cases hk : k' = k
      · simp [hasProp, hk] at h
      · simp only [hasProp, hk, if_false] at h
        simp only [lookupProp, hk, if_false]
        exact ih h

theorem hasProp_setProp_same (ps : Props) (k : String) (v : Val) :
    hasProp (setProp ps k v) k = true := by
  induction ps with
  | nil => simp [setProp, hasProp]
  | cons p ps ih =>
      obtain ⟨k', v'⟩ := p
      by_cases hk : k' = k
      · simp [setProp, hasProp, hk]
      · simp [setProp, hasProp, hk, ih]

theorem hasProp_setProp_other (ps : Props) (k g : String) (v : Val) (hg : g ≠ k) :
    hasProp (setProp ps k v) g = hasProp ps g := by
  induction ps with
  | nil =>
      have hk : ¬ k = g := fun h => hg h.symm
      simp [setProp, hasProp, hk]
  | cons p ps ih =>
      obtain ⟨k', v'⟩ := p
      by_cases hk : k' = k
      · have hkg : ¬ k = g := fun h => hg h.symm
        have hk'g : ¬ k' = g := fun h => hkg (hk ▸ h)
        simp [setProp, hasProp, hk, hkg]
      · by_cases hk' : k' = g
        · subst hk'
          simp [setProp, hasProp, hg]
        · simp [setProp, hasProp, hk, hk', ih]

theorem getProp_setProp_same (ps : Props) (k : String) (v : Val) :
    getProp (setProp ps k v) k = v := by
  simp only [getProp, hasProp_setProp_same, if_true]
  exact lookupProp_setProp_same _ _ _

theorem getProp_setProp_other (ps : Props) (k g : String) (v : Val) (hg : g ≠ k) :
    getProp (setProp ps k v) g = getProp ps g := by
  simp only [getProp, hasProp_setProp_other _ _ _ _ hg, lookupProp_setProp_other _ _ _ _ hg]

/-- A key that names no inherited member reads as the own property. -/
theorem getProp_eq_lookup (ps : Props) (k : String) (hk : inherited k = .undefined) :
    getProp ps k = lookupProp ps k := by
  unfold getProp
  cases h : hasProp ps k
  · simp only [Bool.false_eq_true, if_false, hk]
    exact (lookupProp_of_hasProp_false _ _ h).symm
  · simp

theorem assignProp_of_ne (ps : Props) (k : String) (v : Val) (hk : k ≠ "__proto__") :
    assignProp ps k v = setProp ps k v := by
  simp [assignProp, hk]

/-! ## Scalar edits -/

/-- C8. `handleFieldChange(f, v)` stores as working copy a document `s'` with
`s'[f] = v` and `s'[g] = s[g]` for every other field `g` of the document `s`
the handler sees, and calls `autoSave` with that same `s'`: the timer it arms
carries `s'`. -/
theorem handleFieldChange_scalar_edit (w : World) (f : String) (v : Val) :
    ∃ s' : Doc,
      (handleFieldChange w f v).submission = some s' ∧
      lookupProp s' f = v ∧
      (∀ g, g ≠ f → lookupProp s' g = getField w.rendered g) ∧
      handleFieldChange w f v = autoSave { w with submission := some s' } s' ∧
      (handleFieldChange w f v).timers.getLast? =
        some { id := w.nextTimer, due := w.now + autoSaveDelay,
               action := .autoSave w.rendered s' } := by
  refine ⟨fieldUpdated w.rendered f v, rfl, ?_, ?_, rfl, ?_⟩
  · exact lookupProp_setProp_same _ _ _
  · intro g hg
    unfold fieldUpdated
    rw [lookupProp_setProp_other _ _ _ _ hg]
    cases w.rendered <;> rfl
  · simp [handleFieldChange, autoSave]

/-! ## Keyed-map edits -/

theorem getField_eq_lookup (d : Option Doc) (k : String) :
    getField d k = lookupProp (spread d) k := by
  cases d <;> rfl

theorem getElem?_alloc_new (h : Heap) (c : Cell) : (h ++ [c])[h.length]? = some c := by
  simp

theorem set_alloc_new (h : Heap) (c d : Cell) : (h ++ [c]).set h.length d = h ++ [d] := by
  simp [List.set_append]

theorem ensureKey_truthy (h : Heap) (d : Doc) (key : String) (c : Cell)
    (ht : (getProp d key).truthy = true) : ensureKey h d key c = (h, d) := by
  simp [ensureKey, ht]

theorem ensureKey_falsy (h : Heap) (d : Doc) (key : String) (c : Cell)
    (hf : (getProp d key).truthy = false) :
    ensureKey h d key c = (h ++ [c], setProp d key (.ref h.length)) := by
  simp [ensureKey, hf, alloc]

theorem autoSave_heap (w : World) (d : Doc) : (autoSave w d).heap = w.heap := rfl

theorem autoSave_submission (w : World) (d : Doc) :
    (autoSave w d).submission = w.submission := rfl

theorem lt_length_of_getElem? {h : Heap} {a : Addr} {c : Cell} (hc : h[a]? = some c) :
    a < h.length := by
  rcases Nat.lt_or_ge a h.length with hlt | hge
  · exact hlt
  · rw [List.getElem?_eq_none hge] at hc
    cases hc

/-- The key `manufacturers_suppliers` names no inherited member: the read of
it is the read of the own property. -/
theorem getProp_manufacturers (d : Doc) :
    getProp d "manufacturers_suppliers" = lookupProp d "manufacturers_suppliers" :=
  getProp_eq_lookup _ _ (by decide)

theorem manufacturerUpdated_absent (h : Heap) (s : Option Doc) (k : String) (v : Val)
    (hf : (lookupProp (spread s) "manufacturers_suppliers").truthy = false) :
    manufacturerUpdated h s k v =
      .ok (h ++ [.obj (assignProp [] k v)],
           setProp (spread s) "manufacturers_suppliers" (.ref h.length)) := by
  unfold manufacturerUpdated
  rw [ensureKey_falsy _ _ _ _ (by rw [getProp_manufacturers]; exact hf)]
  simp only [getProp_setProp_same, writeKey, getElem?_alloc_new, set_alloc_new]

theorem manufacturerUpdated_map (h : Heap) (s : Option Doc) (k : String) (v : Val)
    (m : Addr) (ps : Props)
    (hm : lookupProp (spread s) "manufacturers_suppliers" = .ref m)
    (hcell : h[m]? = some (.obj ps)) :
    manufacturerUpdated h s k v = .ok (h.set m (.obj (assignProp ps k v)), spread s) := by
  have ht : (getProp (spread s) "manufacturers_suppliers").truthy = true := by
    rw [getProp_manufacturers, hm]; rfl
  unfold manufacturerUpdated
  rw [ensureKey_truthy _ _ _ _ ht]
  simp only [getProp_manufacturers, hm, writeKey, hcell]

theorem readKey_set_obj (h : Heap) (a : Addr) (ps : Props) (k : String)
    (ha : a < h.length) : readKey (h.set a (.obj ps)) a k = getProp ps k := by
  simp [readKey, ha]

theorem readKey_obj (h : Heap) (a : Addr) (ps : Props) (k : String)
    (hc : h[a]? = some (.obj ps)) : readKey h a k = getProp ps k := by
  simp [readKey, hc]

/-- C9, as the code has it.  Let `manufacturers_suppliers` of the document `s`
the handler sees be absent (falsy) or a map, and let the key `k` be any
string other than `__proto__`.  Then `handleManufacturerChange(k, v)` returns
and stores a document `s'` whose map holds `v` at `k`.  Every other top-level
field of `s'` is that of `s`, and no object of the heap other than the map
changes.  A map that was absent is created as exactly `{k: v}` at a new
address, and `s'` is `s` with that map set.  A map that existed is the same
object with `k` set: every other key reads as before, and `s'` has the own
properties of `s`. -/
theorem handleManufacturerChange_keyed_edit (w : World) (k : String) (v : Val)
    (hk : k ≠ "__proto__")
    (hshape : (getField w.rendered "manufacturers_suppliers").truthy = false ∨
      ∃ m ps, getField w.rendered "manufacturers_suppliers" = .ref m ∧
        w.heap[m]? = some (.obj ps)) :
    ∃ (w' : World) (s' : Doc) (m : Addr),
      handleManufacturerChange w k v = .ok w' ∧
      w'.submission = some s' ∧
      getProp s' "manufacturers_suppliers" = .ref m ∧
      readKey w'.heap m k = v ∧
      (∀ g, g ≠ "manufacturers_suppliers" → lookupProp s' g = getField w.rendered g) ∧
      (∀ x, x ≠ m → x < w.heap.length → w'.heap[x]? = w.heap[x]?) ∧
      ((getField w.rendered "manufacturers_suppliers").truthy = false →
          m = w.heap.length ∧ w'.heap = w.heap ++ [.obj [(k, v)]] ∧
          s' = setProp (spread w.rendered) "manufacturers_suppliers" (.ref m)) ∧
      (∀ m0 ps, getField w.rendered "manufacturers_suppliers" = .ref m0 →
          w.heap[m0]? = some (.obj ps) →
          m = m0 ∧ s' = spread w.rendered ∧
          w'.heap = w.heap.set m (.obj (setProp ps k v)) ∧
          ∀ k', k' ≠ k → readKey w'.heap m k' = readKey w.heap m0 k') := by
  rw [getField_eq_lookup] at hshape ⊢
  rcases hshape with hf | ⟨m, ps, hm, hcell⟩
  · have hres := manufacturerUpdated_absent w.heap w.rendered k v hf
    rw [assignProp_of_ne _ _ _ hk] at hres
    have hok : handleManufacturerChange w k v = .ok (autoSave { w with
        heap := w.heap ++ [.obj [(k, v)]]
        submission := some (setProp (spread w.rendered) "manufacturers_suppliers"
          (.ref w.heap.length)) }
        (setProp (spread w.rendered) "manufacturers_suppliers" (.ref w.heap.length))) := by
      unfold handleManufacturerChange
      rw [hres]
      rfl
    refine ⟨_, setProp (spread w.rendered) "manufacturers_suppliers" (.ref w.heap.length),
      w.heap.length, hok, rfl, ?_, ?_, ?_, ?_, ?_, ?_⟩
    · exact getProp_setProp_same _ _ _
    · rw [autoSave_heap]
      simp [readKey, getProp, hasProp, lookupProp]
    · intro g hg
      rw [lookupProp_setProp_other _ _ _ _ hg, getField_eq_lookup]
    · intro x _ hx
      rw [autoSave_heap]
      exact List.getElem?_append_left hx
    · intro _
      exact ⟨rfl, rfl, rfl⟩
    · intro m0 ps hm0 _
      rw [hm0] at hf
      cases hf
  · have hlt : m < w.heap.length := lt_length_of_getElem? hcell
    have hres := manufacturerUpdated_map w.heap w.rendered k v m ps hm hcell
    rw [assignProp_of_ne _ _ _ hk] at hres
    have hok : handleManufacturerChange w k v = .ok (autoSave { w with
        heap := w.heap.set m (.obj (setProp ps k v))
        submission := some (spread w.rendered) } (spread w.rendered)) := by
      unfold handleManufacturerChange
      rw [hres]
    refine ⟨_, spread w.rendered, m, hok, rfl, ?_, ?_, ?_, ?_, ?_, ?_⟩
    · rw [getProp_manufacturers]; exact hm
    · rw [autoSave_heap]
      simp only [readKey_set_obj _ _ _ _ hlt, getProp_setProp_same]
    · intro g _
      rw [getField_eq_lookup]
    · intro x hx _
      rw [autoSave_heap]
      exact List.getElem?_set_ne (Ne.symm hx)
    · intro hf
      rw [hm] at hf
      cases hf
    · intro m0 ps0 hm0 hcell0
      rw [hm] at hm0
      cases hm0
      rw [hcell] at hcell0
      cases hcell0
      refine ⟨rfl, rfl, rfl, ?_⟩
      intro k' hk'
      rw [autoSave_heap]
      simp only [readKey_set_obj _ _ _ _ hlt, readKey_obj _ _ _ _ hcell,
        getProp_setProp_other _ _ _ _ hk']

/-- C9, counterexample.  The key `__proto__` is not stored.  On the sample
document, whose map is at address 2, `handleManufacturerChange('__proto__',
'Acme')` returns and throws nothing, the map is what it was, and the read
`manufacturers_suppliers['__proto__']` yields `Object.prototype`, not
`'Acme'`.  On the draft document, which has no map, the map that the same
call creates is `{}`, not `{__proto__: 'Acme'}`. -/
theorem proto_key_is_not_stored :
    getField sampleWorld.rendered "manufacturers_suppliers" = .ref 2 ∧
    sampleWorld.heap[2]? = some (.obj [("Pools - Heaters", .str "Acme")]) ∧
    (handleManufacturerChange sampleWorld "__proto__" (.str "Acme")).toOption.map
        (fun w' => (w'.uncaught, w'.heap[2]?, readKey w'.heap 2 "__proto__")) =
      some ([], some (.obj [("Pools - Heaters", .str "Acme")]),
            .builtin "Object.prototype") ∧
    getField draftWorld.rendered "manufacturers_suppliers" = .undefined ∧
    (handleManufacturerChange draftWorld "__proto__" (.str "Acme")).toOption.map
        (fun w' => (getField w'.submission "manufacturers_suppliers", w'.heap)) =
      some (.ref 0, [.obj []]) := by
  decide

/-! ## Nested-array edits -/

theorem getD_setElem_same (es : List Val) (i : Nat) (v d : Val) :
    (setElem es i v).getD i d = v := by
  unfold setElem
  split
  · rename_i h
    simp [List.getD_eq_getElem?_getD, h]
  · rename_i h
    have hlen : (es ++ List.replicate (i - es.length) Val.undefined).length = i := by
      simp; omega
    rw [List.getD_eq_getElem?_getD, List.getElem?_append_right (by omega)]
    simp [hlen]

theorem getD_setElem_other (es : List Val) (i j : Nat) (v : Val) (hj : j ≠ i) :
    (setElem es i v).getD j .undefined = es.getD j .undefined := by
  unfold setElem
  split
  · simp [List.getD_eq_getElem?_getD, List.getElem?_set_ne (Ne.symm hj)]
  · rename_i h
    simp only [List.getD_eq_getElem?_getD]
    rcases Nat.lt_or_ge j es.length with h1 | h1
    · rw [List.append_assoc, List.getElem?_append_left h1]
    · rw [List.getElem?_eq_none h1]
      rcases Nat.lt_or_ge j i with h2 | h2
      · rw [List.getElem?_append_left (by simp; omega), List.getElem?_append_right h1,
          List.getElem?_replicate]
        split <;> rfl
      · rw [List.getElem?_eq_none (by simp; omega)]

theorem readIdx_arr (h : Heap) (a : Addr) (es : List Val) (ps : Props) (i : Nat)
    (hc : h[a]? = some (.arr es ps)) (hi : i < maxArrayLength) :
    readIdx h a i = es.getD i .undefined := by
  simp [readIdx, hc, hi]

theorem readIdx_arr_far (h : Heap) (a : Addr) (es : List Val) (ps : Props) (i : Nat)
    (hc : h[a]? = some (.arr es ps)) (hi : ¬ i < maxArrayLength) :
    readIdx h a i = lookupProp ps (toString i) := by
  simp [readIdx, hc, hi]

theorem getElem?_alloc_at (h : Heap) (c : Cell) (n : Nat) (hn : h.length = n) :
    (h ++ [c])[n]? = some c := by
  subst hn; simp

theorem set_alloc_at (h : Heap) (c d : Cell) (n : Nat) (hn : h.length = n) :
    (h ++ [c]).set n d = h ++ [d] := by
  subst hn; simp [List.set_append]

theorem getElem?_two_fst (h : Heap) (c d : Cell) : (h ++ [c, d])[h.length]? = some c := by
  rw [List.getElem?_append_right (Nat.le_refl _)]
  simp

theorem getElem?_two_snd (h : Heap) (c d : Cell) : (h ++ [c, d])[h.length + 1]? = some d := by
  rw [List.getElem?_append_right (Nat.le_succ _)]
  simp

theorem set_two_fst (h : Heap) (c d x : Cell) : (h ++ [c, d]).set h.length x = h ++ [x, d] := by
  simp [List.set_append]

theorem set_two_snd (h : Heap) (c d x : Cell) :
    (h ++ [c, d]).set (h.length + 1) x = h ++ [c, x] := by
  simp [List.set_append]

theorem writeIdx_arr (h : Heap) (a : Addr) (es : List Val) (ps : Props) (i : Nat) (v : Val)
    (hc : h[a]? = some (.arr es ps)) (hi : i < maxArrayLength) :
    writeIdx h a i v = h.set a (.arr (setElem es i v) ps) := by
  simp only [writeIdx, hc, hi, if_true]

theorem writeKey_obj (h : Heap) (a : Addr) (ps : Props) (k : String) (v : Val)
    (hc : h[a]? = some (.obj ps)) :
    writeKey h a k v = .ok (h.set a (.obj (assignProp ps k v))) := by
  simp only [writeKey, hc]

theorem ensureSlot_falsy (h : Heap) (c : Addr) (i : Nat)
    (hf : (readIdx h c i).truthy = false) :
    ensureSlot h c i = writeIdx (h ++ [.obj []]) c i (.ref h.length) := by
  simp [ensureSlot, hf, alloc]

theorem ensureSlot_truthy (h : Heap) (c : Addr) (i : Nat)
    (ht : (readIdx h c i).truthy = true) : ensureSlot h c i = h := by
  simp [ensureSlot, ht]

/-- The result of `nestedUpdated` when the collection is absent: a new array
holding a new slot at `index`, and the slot holding `field` only. -/
theorem nestedUpdated_absent (h : Heap) (s : Option Doc) (c : String) (i : Nat) (f : String)
    (v : Val) (hi : i < maxArrayLength) (hf : (getProp (spread s) c).truthy = false) :
    nestedUpdated h s c i f v =
      .ok (h ++ [.arr (setElem [] i (.ref (h.length + 1))) [], .obj (assignProp [] f v)],
           setProp (spread s) c (.ref h.length)) := by
  unfold nestedUpdated
  rw [ensureKey_falsy _ _ _ _ hf]
  have h1 : (readIdx (h ++ [Cell.arr [] []]) h.length i).truthy = false := by
    rw [readIdx_arr _ _ [] [] _ (getElem?_alloc_new _ _) hi]
    rfl
  have h2 : ensureSlot (h ++ [Cell.arr [] []]) h.length i =
      h ++ [.arr (setElem [] i (.ref (h.length + 1))) [], .obj []] := by
    rw [ensureSlot_falsy _ _ _ h1]
    have hl : (h ++ [Cell.arr [] []]).length = h.length + 1 := by simp
    rw [hl, List.append_assoc, List.singleton_append]
    rw [writeIdx_arr _ _ [] [] _ _ (getElem?_two_fst _ _ _) hi]
    exact set_two_fst _ _ _ _
  have h3 : readIdx (h ++ [.arr (setElem [] i (.ref (h.length + 1))) [], .obj []]) h.length i
      = .ref (h.length + 1) := by
    rw [readIdx_arr _ _ _ _ _ (getElem?_two_fst _ _ _) hi]
    exact getD_setElem_same _ _ _ _
  simp only [getProp_setProp_same, h2, h3]
  rw [writeKey_obj _ _ [] _ _ (getElem?_two_snd _ _ _), set_two_snd]

/-- The result of `nestedUpdated` when the collection is an array whose slot
is absent: the slot is created in that same array and holds `field` only. -/
theorem nestedUpdated_new_slot (h : Heap) (s : Option Doc) (c : String) (i : Nat)
    (f : String) (v : Val) (a : Addr) (es : List Val) (ps : Props)
    (hi : i < maxArrayLength)
    (ha : getProp (spread s) c = .ref a) (hcell : h[a]? = some (.arr es ps))
    (hf : (es.getD i .undefined).truthy = false) :
    nestedUpdated h s c i f v =
      .ok ((h.set a (.arr (setElem es i (.ref h.length)) ps)) ++ [.obj (assignProp [] f v)],
           spread s) := by
  have ht : (getProp (spread s) c).truthy = true := by rw [ha]; rfl
  have hlt : a < h.length := lt_length_of_getElem? hcell
  unfold nestedUpdated
  rw [ensureKey_truthy _ _ _ _ ht]
  have h1 : (readIdx h a i).truthy = false := by
    rw [readIdx_arr _ _ _ _ _ hcell hi]; exact hf
  have hcell' : (h ++ [Cell.obj []])[a]? = some (.arr es ps) := by
    rw [List.getElem?_append_left hlt]; exact hcell
  have h2 : ensureSlot h a i =
      (h.set a (.arr (setElem es i (.ref h.length)) ps)) ++ [.obj []] := by
    rw [ensureSlot_falsy _ _ _ h1, writeIdx_arr _ _ _ _ _ _ hcell' hi,
      List.set_append_left _ _ hlt]
  have hlen : (h.set a (.arr (setElem es i (.ref h.length)) ps)).length = h.length := by simp
  have h3 : readIdx ((h.set a (.arr (setElem es i (.ref h.length)) ps)) ++ [.obj []]) a i
      = .ref h.length := by
    rw [readIdx_arr _ _ (setElem es i (.ref h.length)) ps _ _ hi]
    · exact getD_setElem_same _ _ _ _
    · rw [List.getElem?_append_left (by rw [hlen]; exact hlt)]
      simp [hlt]
  simp only [ha, h2, h3]
  have h4 : ((h.set a (.arr (setElem es i (.ref h.length)) ps)) ++ [.obj []])[h.length]?
      = some (.obj []) := by
    exact getElem?_alloc_at _ _ _ hlen
  rw [writeKey_obj _ _ [] _ _ h4]
  have h5 : ((h.set a (.arr (setElem es i (.ref h.length)) ps)) ++ [Cell.obj []]).set h.length
      (.obj (assignProp [] f v)) = (h.set a (.arr (setElem es i (.ref h.length)) ps)) ++
        [.obj (assignProp [] f v)] := by
    exact set_alloc_at _ _ _ _ hlen
  rw [h5]

/-- The result of `nestedUpdated` when the collection is an array whose slot
is a record: the field is assigned in that same record. -/
theorem nestedUpdated_slot (h : Heap) (s : Option Doc) (c : String) (i : Nat)
    (f : String) (v : Val) (a : Addr) (es : List Val) (ps : Props) (b : Addr) (qs : Props)
    (hi : i < maxArrayLength)
    (ha : getProp (spread s) c = .ref a) (hcell : h[a]? = some (.arr es ps))
    (hb : es.getD i .undefined = .ref b) (hslot : h[b]? = some (.obj qs)) :
    nestedUpdated h s c i f v = .ok (h.set b (.obj (assignProp qs f v)), spread s) := by
  have ht : (getProp (spread s) c).truthy = true := by rw [ha]; rfl
  unfold nestedUpdated
  rw [ensureKey_truthy _ _ _ _ ht]
  have h1 : readIdx h a i = .ref b := by
    rw [readIdx_arr _ _ _ _ _ hcell hi]; exact hb
  have h2 : ensureSlot h a i = h := by
    apply ensureSlot_truthy; rw [h1]; rfl
  simp only [ha, h2, h1]
  rw [writeKey_obj _ _ _ _ _ hslot]

theorem readIdx_other_of_arr (h h' : Heap) (a : Addr) (es : List Val) (ps : Props) (i j : Nat)
    (x : Val) (hc : h[a]? = some (.arr es ps))
    (hc' : h'[a]? = some (.arr (setElem es i x) ps)) (hj : j ≠ i) :
    readIdx h' a j = readIdx h a j := by
  by_cases hm : j < maxArrayLength
  · rw [readIdx_arr _ _ _ _ _ hc' hm, readIdx_arr _ _ _ _ _ hc hm]
    exact getD_setElem_other _ _ _ _ hj
  · rw [readIdx_arr_far _ _ _ _ _ hc' hm, readIdx_arr_far _ _ _ _ _ hc hm]

/-- C10, as the code has it.  Let the read `s[c]` on the document `s` the
handler sees be falsy (absent) or an array whose slot `i` is absent (falsy) or
a record, let `i` be in 0..2 and let the slot field `f` be any string other
than `__proto__`.  Then `handleNestedChange(c, i, f, v)` returns and stores a
document `s'` with `s'[c][i][f] = v`.  Every other top-level field of `s'` is
that of `s`, and no object of the heap other than the array and the slot
changes.  An absent `s[c]` is created as an empty array at a new address,
which then receives a new slot holding `f` only, and `s'` is `s` with that
array set.  An array that existed is the same object, `s'` has the own
properties of `s`, and every other slot reads as before; an absent slot is
created in it as a record holding `f` only; a slot that existed is the same
object with `f` set, and every other field of it reads as before. -/
theorem handleNestedChange_nested_edit (w : World) (c : String) (i : Nat) (f : String)
    (v : Val) (hi : i < 3) (hfield : f ≠ "__proto__")
    (hshape : (getProp (spread w.rendered) c).truthy = false ∨
      ∃ a es ps, getProp (spread w.rendered) c = .ref a ∧ w.heap[a]? = some (.arr es ps) ∧
        ((es.getD i .undefined).truthy = false ∨
          ∃ b qs, es.getD i .undefined = .ref b ∧ w.heap[b]? = some (.obj qs))) :
    ∃ (w' : World) (s' : Doc) (a b : Addr),
      handleNestedChange w c i f v = .ok w' ∧
      w'.submission = some s' ∧
      getProp s' c = .ref a ∧ readIdx w'.heap a i = .ref b ∧ readKey w'.heap b f = v ∧
      (∀ g, g ≠ c → lookupProp s' g = getField w.rendered g) ∧
      (∀ x, x ≠ a → x ≠ b → x < w.heap.length → w'.heap[x]? = w.heap[x]?) ∧
      ((getProp (spread w.rendered) c).truthy = false →
        a = w.heap.length ∧ b = w.heap.length + 1 ∧
        s' = setProp (spread w.rendered) c (.ref a) ∧
        w'.heap = w.heap ++ [.arr (setElem [] i (.ref b)) [], .obj [(f, v)]]) ∧
      (∀ a0 es ps, getProp (spread w.rendered) c = .ref a0 →
        w.heap[a0]? = some (.arr es ps) →
        a = a0 ∧ s' = spread w.rendered ∧
        (∀ j, j ≠ i → readIdx w'.heap a j = readIdx w.heap a0 j) ∧
        ((es.getD i .undefined).truthy = false →
          b = w.heap.length ∧
          w'.heap = w.heap.set a (.arr (setElem es i (.ref b)) ps) ++ [.obj [(f, v)]]) ∧
        (∀ b0 qs, es.getD i .undefined = .ref b0 → w.heap[b0]? = some (.obj qs) →
          b = b0 ∧ w'.heap = w.heap.set b (.obj (setProp qs f v)) ∧
          ∀ g, g ≠ f → readKey w'.heap b g = readKey w.heap b0 g)) := by
  have hi' : i < maxArrayLength := Nat.lt_trans hi (by decide)
  rcases hshape with hf | ⟨a, es, ps, ha, hcell, hslot⟩
  · -- the collection is absent
    have hres := nestedUpdated_absent w.heap w.rendered c i f v hi' hf
    rw [assignProp_of_ne _ _ _ hfield] at hres
    have hok : handleNestedChange w c i f v = .ok (autoSave { w with
        heap := w.heap ++ [.arr (setElem [] i (.ref (w.heap.length + 1))) [], .obj [(f, v)]]
        submission := some (setProp (spread w.rendered) c (.ref w.heap.length)) }
        (setProp (spread w.rendered) c (.ref w.heap.length))) := by
      unfold handleNestedChange
      rw [hres]
      rfl
    refine ⟨_, _, w.heap.length, w.heap.length + 1, hok, rfl, ?_, ?_, ?_, ?_, ?_, ?_, ?_⟩
    · exact getProp_setProp_same _ _ _
    · rw [autoSave_heap]
      rw [readIdx_arr _ _ _ _ _ (getElem?_two_fst _ _ _) hi']
      exact getD_setElem_same _ _ _ _
    · rw [autoSave_heap]
      rw [readKey_obj _ _ _ _ (getElem?_two_snd _ _ _)]
      simp [getProp, hasProp, lookupProp]
    · intro g hg
      rw [lookupProp_setProp_other _ _ _ _ hg, getField_eq_lookup]
    · intro x _ _ hx
      rw [autoSave_heap]
      exact List.getElem?_append_left hx
    · intro _
      exact ⟨rfl, rfl, rfl, rfl⟩
    · intro a0 es ps ha0 _
      rw [ha0] at hf
      cases hf
  · have hlt : a < w.heap.length := lt_length_of_getElem? hcell
    rcases hslot with hsf | ⟨b, qs, hb, hbcell⟩
    · -- the collection exists, the slot is absent
      have hres := nestedUpdated_new_slot w.heap w.rendered c i f v a es ps hi' ha hcell hsf
      rw [assignProp_of_ne _ _ _ hfield] at hres
      have hok : handleNestedChange w c i f v = .ok (autoSave { w with
          heap := (w.heap.set a (.arr (setElem es i (.ref w.heap.length)) ps)) ++
            [.obj [(f, v)]]
          submission := some (spread w.rendered) } (spread w.rendered)) := by
        unfold handleNestedChange
        rw [hres]
        rfl
      have hlen : (w.heap.set a (.arr (setElem es i (.ref w.heap.length)) ps)).length
          = w.heap.length := by simp
      have hcella : ((w.heap.set a (.arr (setElem es i (.ref w.heap.length)) ps)) ++
          [Cell.obj [(f, v)]])[a]? = some (.arr (setElem es i (.ref w.heap.length)) ps) := by
        rw [List.getElem?_append_left (by rw [hlen]; exact hlt)]
        simp [hlt]
      have hcellb : ((w.heap.set a (.arr (setElem es i (.ref w.heap.length)) ps)) ++
          [Cell.obj [(f, v)]])[w.heap.length]? = some (.obj [(f, v)]) :=
        getElem?_alloc_at _ _ _ hlen
      refine ⟨_, _, a, w.heap.length, hok, rfl, ha, ?_, ?_, ?_, ?_, ?_, ?_⟩
      · rw [autoSave_heap, readIdx_arr _ _ _ _ _ hcella hi']
        exact getD_setElem_same _ _ _ _
      · rw [autoSave_heap, readKey_obj _ _ _ _ hcellb]
        simp [getProp, hasProp, lookupProp]
      · intro g _
        rw [getField_eq_lookup]
      · intro x hxa _ hx
        rw [autoSave_heap, List.getElem?_append_left (by rw [hlen]; exact hx)]
        exact List.getElem?_set_ne (Ne.symm hxa)
      · intro hf
        rw [ha] at hf
        cases hf
      · intro a0 es0 ps0 ha0 hcell0
        rw [ha] at ha0
        cases ha0
        rw [hcell] at hcell0
        cases hcell0
        refine ⟨rfl, rfl, ?_, ?_, ?_⟩
        · intro j hj
          rw [autoSave_heap]
          exact readIdx_other_of_arr _ _ _ _ _ _ _ _ hcell hcella hj
        · intro _
          exact ⟨rfl, rfl⟩
        · intro b0 qs hb0 _
          rw [hb0] at hsf
          cases hsf
    · -- the collection and the slot exist
      have hres := nestedUpdated_slot w.heap w.rendered c i f v a es ps b qs hi' ha hcell hb
        hbcell
      rw [assignProp_of_ne _ _ _ hfield] at hres
      have hok : handleNestedChange w c i f v = .ok (autoSave { w with
          heap := w.heap.set b (.obj (setProp qs f v))
          submission := some (spread w.rendered) } (spread w.rendered)) := by
        unfold handleNestedChange
        rw [hres]
      have hblt : b < w.heap.length := lt_length_of_getElem? hbcell
      have hab : b ≠ a := by
        intro h; rw [h, hcell] at hbcell; cases hbcell
      have hcella : (w.heap.set b (.obj (setProp qs f v)))[a]? = some (.arr es ps) := by
        rw [List.getElem?_set_ne hab]; exact hcell
      refine ⟨_, _, a, b, hok, rfl, ha, ?_, ?_, ?_, ?_, ?_, ?_⟩
      · rw [autoSave_heap, readIdx_arr _ _ _ _ _ hcella hi']
        exact hb
      · rw [autoSave_heap, readKey_set_obj _ _ _ _ hblt]
        exact getProp_setProp_same _ _ _
      · intro g _
        rw [getField_eq_lookup]
      · intro x _ hxb _
        rw [autoSave_heap]
        exact List.getElem?_set_ne (Ne.symm hxb)
      · intro hf
        rw [ha] at hf
        cases hf
      · intro a0 es0 ps0 ha0 hcell0
        rw [ha] at ha0
        cases ha0
        rw [hcell] at hcell0
        cases hcell0
        refine ⟨rfl, rfl, ?_, ?_, ?_⟩
        · intro j _
          rw [autoSave_heap]
          by_cases hm : j < maxArrayLength
          · rw [readIdx_arr _ _ _ _ _ hcella hm, readIdx_arr _ _ _ _ _ hcell hm]
          · rw [readIdx_arr_far _ _ _ _ _ hcella hm, readIdx_arr_far _ _ _ _ _ hcell hm]
        · intro hf
          rw [hb] at hf
          cases hf
        · intro b0 qs0 hb0 hbcell0
          rw [hb] at hb0
          cases hb0
          rw [hbcell] at hbcell0
          cases hbcell0
          refine ⟨rfl, rfl, ?_⟩
          intro g hg
          rw [autoSave_heap, readKey_set_obj _ _ _ _ hblt, readKey_obj _ _ _ _ hbcell]
          exact getProp_setProp_other _ _ _ _ hg

/-- C10, counterexample.  The slot field `__proto__` is not stored.  On the
sample document, whose `architects` array is at address 0 with its slot 0 at
address 1, `handleNestedChange('architects', 0, '__proto__', 'x')` returns and
throws nothing, the slot is what it was, and the read
`architects[0]['__proto__']` yields `Object.prototype`, not `'x'`; the same
edit at the absent slot 1 creates the slot as `{}`.  And the collection name
`constructor`, which the document does not have as a property, reads as the
function `Object`, so the first statement of the handler creates no array. -/
theorem proto_slot_field_is_not_stored :
    getField sampleWorld.rendered "architects" = .ref 0 ∧
    readIdx sampleWorld.heap 0 0 = .ref 1 ∧
    sampleWorld.heap[1]? = some (.obj [("firm_name", .str "Atelier")]) ∧
    (handleNestedChange sampleWorld "architects" 0 "__proto__" (.str "x")).toOption.map
        (fun w' => (w'.uncaught, readIdx w'.heap 0 0, w'.heap[1]?,
          readKey w'.heap 1 "__proto__")) =
      some ([], .ref 1, some (.obj [("firm_name", .str "Atelier")]),
            .builtin "Object.prototype") ∧
    readIdx sampleWorld.heap 0 1 = .undefined ∧
    (handleNestedChange sampleWorld "architects" 1 "__proto__" (.str "x")).toOption.map
        (fun w' => (readIdx w'.heap 0 1, w'.heap[3]?)) = some (.ref 3, some (.obj [])) ∧
    getField sampleWorld.rendered "constructor" = .undefined ∧
    getProp sampleDoc "constructor" = .builtin "Object" ∧
    ensureKey sampleWorld.heap sampleDoc "constructor" (.arr [] []) =
      (sampleWorld.heap, sampleDoc) := by
  decide

/-- Witness of C9's theorem on the sample document, whose supplier map
exists: the key `Pools - Covers` is added and `Pools - Heaters` is kept. -/
theorem handleManufacturerChange_keyed_edit_witness :
    "Pools - Covers" ≠ "__proto__" ∧
    (∃ m ps, getField sampleWorld.rendered "manufacturers_suppliers" = .ref m ∧
        sampleWorld.heap[m]? = some (.obj ps)) ∧
    ∃ w', handleManufacturerChange sampleWorld "Pools - Covers" (.str "Zeta") = .ok w' ∧
      w'.heap = sampleHeap.set 2
        (.obj [("Pools - Heaters", .str "Acme"), ("Pools - Covers", .str "Zeta")]) ∧
      readKey w'.heap 2 "Pools - Covers" = .str "Zeta" ∧
      readKey w'.heap 2 "Pools - Heaters" = .str "Acme" := by
  have hyp : ∃ m ps, getField sampleWorld.rendered "manufacturers_suppliers" = .ref m ∧
      sampleWorld.heap[m]? = some (.obj ps) := ⟨2, _, rfl, rfl⟩
  refine ⟨by decide, hyp, ?_⟩
  obtain ⟨w', _, m, hok, _, _, hk, _, _, _, hold⟩ :=
    handleManufacturerChange_keyed_edit sampleWorld "Pools - Covers" (.str "Zeta")
      (by decide) (Or.inr hyp)
  obtain ⟨hm2, _, hheap, hother⟩ := hold 2 _ rfl rfl
  subst hm2
  exact ⟨w', hok, hheap, hk, (hother "Pools - Heaters" (by decide)).trans rfl⟩

/-- Witness of C10's theorem on the sample document: slot 0 exists, slot 1
does not; the edit of slot 1 creates it and leaves slot 0 and its record. -/
theorem handleNestedChange_nested_edit_witness :
    "email" ≠ "__proto__" ∧
    (∃ a es ps, getProp (spread sampleWorld.rendered) "architects" = .ref a ∧
        sampleWorld.heap[a]? = some (.arr es ps) ∧
        ((es.getD 1 .undefined).truthy = false ∨
          ∃ b qs, es.getD 1 .undefined = .ref b ∧ sampleWorld.heap[b]? = some (.obj qs))) ∧
    ∃ w' b, handleNestedChange sampleWorld "architects" 1 "email" (.str "a@b.c") = .ok w' ∧
      readIdx w'.heap 0 1 = .ref b ∧ readKey w'.heap b "email" = .str "a@b.c" ∧
      readIdx w'.heap 0 0 = .ref 1 ∧
      w'.heap[1]? = some (.obj [("firm_name", .str "Atelier")]) := by
  have hyp : ∃ a es ps, getProp (spread sampleWorld.rendered) "architects" = .ref a ∧
      sampleWorld.heap[a]? = some (.arr es ps) ∧
      ((es.getD 1 .undefined).truthy = false ∨
        ∃ b qs, es.getD 1 .undefined = .ref b ∧ sampleWorld.heap[b]? = some (.obj qs)) :=
    ⟨0, _, _, by decide, rfl, Or.inl rfl⟩
  refine ⟨by decide, hyp, ?_⟩
  obtain ⟨w', _, a, b, hok, _, _, hslot, hfield, _, hframe, _, hold⟩ :=
    handleNestedChange_nested_edit sampleWorld "architects" 1 "email" (.str "a@b.c")
      (by decide) (by decide) (Or.inr hyp)
  obtain ⟨ha, _, hother, hnew, _⟩ := hold 0 _ _ (by decide) rfl
  subst ha
  obtain ⟨hb, _⟩ := hnew rfl
  subst hb
  exact ⟨w', _, hok, hslot, hfield, (hother 0 (by decide)).trans rfl,
    (hframe 1 (by decide) (by decide) (by decide)).trans rfl⟩

/-! ## The prior document after an edit -/

/-- C2, evaluated.  The sample document `s` has `s.manufacturers_suppliers`
at address 2 and the slot `s.architects[0]` at address 1.  After
`handleManufacturerChange('Pools - Heaters', 'Zeta')` the map of `s` itself
reads `'Zeta'` where it read `'Acme'`, and after
`handleNestedChange('architects', 0, 'firm_name', 'Bureau')` the slot of `s`
itself reads `'Bureau'` where it read `'Atelier'`: both handlers assign into
the objects the prior document still holds. -/
theorem nested_edits_mutate_prior_document :
    getField sampleWorld.rendered "manufacturers_suppliers" = .ref 2 ∧
    readKey sampleWorld.heap 2 "Pools - Heaters" = .str "Acme" ∧
    (handleManufacturerChange sampleWorld "Pools - Heaters" (.str "Zeta")).toOption.map
        (fun w' => readKey w'.heap 2 "Pools - Heaters") = some (.str "Zeta") ∧
    getField sampleWorld.rendered "architects" = .ref 0 ∧
    readIdx sampleWorld.heap 0 0 = .ref 1 ∧
    readKey sampleWorld.heap 1 "firm_name" = .str "Atelier" ∧
    (handleNestedChange sampleWorld "architects" 0 "firm_name" (.str "Bureau")).toOption.map
        (fun w' => readKey w'.heap 1 "firm_name") = some (.str "Bureau") := by
  decide

/-! ## The autosave scheduler -/

/-- C1, evaluated.  Two scalar edits 500 ms apart, then 1000 ms of quiet.
The render after the first edit binds a new, unassigned `autoSaveTimeout`,
so the second `autoSave` clears nothing: both timers expire and two `PUT`s
are issued, at 1000 ms and at 1500 ms, the first carrying the first edit's
document. -/
theorem edits_across_renders_are_not_coalesced :
    (step sampleWorld (.edit (.field "project_name" (.str "A")))).autoSaveTimeout = none ∧
    (puts (run sampleWorld
        [.edit (.field "project_name" (.str "A")), .wait 500,
         .edit (.field "project_name" (.str "AB")), .wait 1000]).sent).map
      (fun r => (r.call, r.issuedAt)) =
      [(.put (.num 7) (setProp sampleDoc "project_name" (.str "A")), 1000),
       (.put (.num 7) (setProp sampleDoc "project_name" (.str "AB")), 1500)] := by
  decide

/-! ## Edits are accepted whatever the document holds -/

theorem autoSave_fires_put (w : World) (s d : Doc) (hs : w.rendered = some s) :
    ∃ t, t ∈ (autoSave w d).timers ∧ t.due = w.now + autoSaveDelay ∧
      (fireTimer (autoSave w d) t).sent = (autoSave w d).sent ++
        [{ id := (autoSave w d).nextRequest, call := .put (lookupProp s "id") d,
           issuedAt := w.now + autoSaveDelay, heapAtIssue := (autoSave w d).heap }] := by
  refine ⟨{ id := w.nextTimer, due := w.now + autoSaveDelay, action := .autoSave w.rendered d },
    ?_, rfl, ?_⟩
  · simp [autoSave]
  · simp [fireTimer, hs, issue]

theorem applyEdit_ok_shape (w w' : World) (e : Edit) (h : applyEdit w e = .ok w') :
    ∃ (hp : Heap) (d : Doc), w' = autoSave { w with heap := hp, submission := some d } d := by
  cases e with
  | field f v =>
      simp only [applyEdit, Except.ok.injEq] at h
      exact ⟨w.heap, fieldUpdated w.rendered f v, h.symm⟩
  | nested c i f v =>
      simp only [applyEdit, handleNestedChange] at h
      split at h
      · rename_i r _
        simp only [Except.ok.injEq] at h
        exact ⟨r.1, r.2, h.symm⟩
      · cases h
  | manufacturer k v =>
      simp only [applyEdit, handleManufacturerChange] at h
      split at h
      · rename_i r _
        simp only [Except.ok.injEq] at h
        exact ⟨r.1, r.2, h.symm⟩
      · cases h

/-- C3, counterexample.  On a document whose status is `completed` the edit
`handleFieldChange('project_name', 'Dome')` throws nothing, sets no error,
replaces the working document, and after 1000 ms its `PUT` is issued. -/
theorem completed_document_is_edited :
    statusOf completedWorld = .str "completed" ∧
    (step completedWorld (.edit (.field "project_name" (.str "Dome")))).uncaught = [] ∧
    (step completedWorld (.edit (.field "project_name" (.str "Dome")))).error = "" ∧
    (step completedWorld (.edit (.field "project_name" (.str "Dome")))).submission =
      some [("id", .num 7), ("status", .str "completed"), ("project_name", .str "Dome")] ∧
    (run completedWorld [.edit (.field "project_name" (.str "Dome")), .wait 1000]).sent.map
        (fun r => r.call) =
      [.put (.num 7)
        [("id", .num 7), ("status", .str "completed"), ("project_name", .str "Dome")]] := by
  decide

/-- C3, as the code has it.  A document whose status is `completed` is edited
like any other: a scalar edit always returns and stores the edited copy, and
an edit of any shape that returns leaves `error` as it was, throws nothing,
stores its copy as the working document and arms a timer of 1000 ms whose
expiry issues the `PUT` carrying that copy. -/
theorem completed_edit_is_accepted (w : World) (s : Doc) (hs : w.rendered = some s)
    (_hc : lookupProp s "status" = .str "completed") :
    (∀ f v, ∃ w', applyEdit w (.field f v) = .ok w' ∧
        w'.submission = some (setProp s f v)) ∧
    (∀ e w', applyEdit w e = .ok w' →
      w'.error = w.error ∧ w'.uncaught = w.uncaught ∧
      ∃ d t, w'.submission = some d ∧ t ∈ w'.timers ∧ t.due = w.now + autoSaveDelay ∧
        (fireTimer w' t).sent = w'.sent ++
          [{ id := w'.nextRequest, call := .put (lookupProp s "id") d,
             issuedAt := w.now + autoSaveDelay, heapAtIssue := w'.heap }]) := by
  constructor
  · intro f v
    refine ⟨handleFieldChange w f v, rfl, ?_⟩
    simp [handleFieldChange, autoSave, fieldUpdated, hs, spread]
  · intro e w' h
    obtain ⟨hp, d, rfl⟩ := applyEdit_ok_shape w w' e h
    refine ⟨rfl, rfl, d, ?_⟩
    obtain ⟨t, ht, hdue, hsent⟩ :=
      autoSave_fires_put { w with heap := hp, submission := some d } s d hs
    exact ⟨t, rfl, ht, hdue, hsent⟩

/-- Witness of C3's theorem on the completed sample document. -/
theorem completed_edit_is_accepted_witness :
    completedWorld.rendered = some completedDoc ∧
    lookupProp completedDoc "status" = .str "completed" ∧
    ∃ w', applyEdit completedWorld (.field "project_name" (.str "Dome")) = .ok w' ∧
      w'.submission = some (setProp completedDoc "project_name" (.str "Dome")) :=
  ⟨rfl, rfl,
    (completed_edit_is_accepted completedWorld completedDoc rfl rfl).1
      "project_name" (.str "Dome")⟩

/-- C7, counterexample.  A scalar edit of the undeclared field `no_such_field`
and a nested edit of the undeclared collection `no_such_collection` are both
stored in the working document, throw nothing, set no error, and arm the
autosave timer. -/
theorem undeclared_names_are_stored :
    (step sampleWorld (.edit (.field "no_such_field" (.str "x")))).uncaught = [] ∧
    (step sampleWorld (.edit (.field "no_such_field" (.str "x")))).error = "" ∧
    getField (step sampleWorld (.edit (.field "no_such_field" (.str "x")))).submission
      "no_such_field" = .str "x" ∧
    (step sampleWorld (.edit (.field "no_such_field" (.str "x")))).timers.map
      (fun t => t.isAutoSave) = [true] ∧
    (step sampleWorld
      (.edit (.nested "no_such_collection" 0 "no_such_slot_field" (.str "y")))).uncaught = [] ∧
    getField (step sampleWorld
      (.edit (.nested "no_such_collection" 0 "no_such_slot_field" (.str "y")))).submission
      "no_such_collection" = .ref 3 ∧
    (step sampleWorld
      (.edit (.nested "no_such_collection" 0 "no_such_slot_field" (.str "y")))).heap[3]? =
      some (.arr [.ref 4] []) ∧
    (step sampleWorld
      (.edit (.nested "no_such_collection" 0 "no_such_slot_field" (.str "y")))).heap[4]? =
      some (.obj [("no_such_slot_field", .str "y")]) ∧
    (step sampleWorld
      (.edit (.nested "no_such_collection" 0 "no_such_slot_field" (.str "y")))).timers.map
      (fun t => t.isAutoSave) = [true] := by
  decide

/-- C7, as the code has it.  No name is checked.  For every field name `f`,
`handleFieldChange(f, v)` throws nothing, leaves `error` as it was, stores a
working document with `f` set to `v` and arms the autosave timer with it.
For every collection name `c` whose read `s[c]` on the document is falsy,
every index `i` below the largest array length and every slot field `f`
other than `__proto__`, `handleNestedChange(c, i, f, v)` returns likewise,
having created the array `c`, its slot `i` and the field. -/
theorem any_name_is_accepted (w : World) (f : String) (v : Val) :
    (step w (.edit (.field f v))).uncaught = w.uncaught ∧
    (step w (.edit (.field f v))).error = w.error ∧
    getField (step w (.edit (.field f v))).submission f = v ∧
    (step w (.edit (.field f v))).timers.getLast? =
      some { id := w.nextTimer, due := w.now + autoSaveDelay,
             action := .autoSave w.rendered (setProp (spread w.rendered) f v) } ∧
    (∀ c i, i < maxArrayLength → (getProp (spread w.rendered) c).truthy = false →
      f ≠ "__proto__" →
      (step w (.edit (.nested c i f v))).uncaught = w.uncaught ∧
      (step w (.edit (.nested c i f v))).error = w.error ∧
      getField (step w (.edit (.nested c i f v))).submission c = .ref w.heap.length ∧
      (step w (.edit (.nested c i f v))).heap =
        w.heap ++ [.arr (setElem [] i (.ref (w.heap.length + 1))) [], .obj [(f, v)]] ∧
      readIdx (step w (.edit (.nested c i f v))).heap w.heap.length i =
        .ref (w.heap.length + 1) ∧
      readKey (step w (.edit (.nested c i f v))).heap (w.heap.length + 1) f = v ∧
      (step w (.edit (.nested c i f v))).timers.getLast? =
        some { id := w.nextTimer, due := w.now + autoSaveDelay,
               action := .autoSave w.rendered
                 (setProp (spread w.rendered) c (.ref w.heap.length)) }) := by
  refine ⟨rfl, rfl, ?_, ?_, ?_⟩
  · simp only [step, applyEdit, render, handleFieldChange, autoSave, getField, fieldUpdated]
    exact lookupProp_setProp_same _ _ _
  · simp [step, applyEdit, render, handleFieldChange, autoSave, fieldUpdated]
  · intro c i hi hf hfield
    have hres := nestedUpdated_absent w.heap w.rendered c i f v hi hf
    rw [assignProp_of_ne _ _ _ hfield] at hres
    have hstep : step w (.edit (.nested c i f v)) = render (autoSave { w with
        heap := w.heap ++ [.arr (setElem [] i (.ref (w.heap.length + 1))) [], .obj [(f, v)]]
        submission := some (setProp (spread w.rendered) c (.ref w.heap.length)) }
        (setProp (spread w.rendered) c (.ref w.heap.length))) := by
      simp only [step, applyEdit, handleNestedChange, hres]
      rfl
    rw [hstep]
    refine ⟨rfl, rfl, ?_, rfl, ?_, ?_, ?_⟩
    · simp only [render, autoSave, getField]
      exact lookupProp_setProp_same _ _ _
    · show readIdx (w.heap ++ [.arr (setElem [] i (.ref (w.heap.length + 1))) [],
        .obj [(f, v)]]) w.heap.length i = _
      rw [readIdx_arr _ _ _ _ _ (getElem?_two_fst _ _ _) hi]
      exact getD_setElem_same _ _ _ _
    · show readKey (w.heap ++ [.arr (setElem [] i (.ref (w.heap.length + 1))) [],
        .obj [(f, v)]]) (w.heap.length + 1) f = _
      rw [readKey_obj _ _ _ _ (getElem?_two_snd _ _ _)]
      simp [getProp, hasProp, lookupProp]
    · simp [render, autoSave]

/-- Witness of C7's theorem: the read of `no_such_collection` on the sample
document is falsy. -/
theorem any_name_is_accepted_witness :
    (2 < maxArrayLength ∧
      (getProp (spread sampleWorld.rendered) "no_such_collection").truthy = false ∧
      "no_such_slot_field" ≠ "__proto__") ∧
    readKey (step sampleWorld
      (.edit (.nested "no_such_collection" 2 "no_such_slot_field" (.str "y")))).heap
      (sampleWorld.heap.length + 1) "no_such_slot_field" = .str "y" :=
  ⟨⟨by decide, by decide, by decide⟩,
    ((any_name_is_accepted sampleWorld "no_such_slot_field" (.str "y")).2.2.2.2
      "no_such_collection" 2 (by decide) (by decide) (by decide)).2.2.2.2.2.1⟩

/-! ## Completing -/

/-- C6, counterexample.  An edit at 0 ms is written at 1000 ms; a second edit
at 1200 ms arms a timer for 2200 ms; the response to the first write at
1300 ms resets `saving`, so the Complete button is enabled; the click at
1400 ms issues the complete request at once, and the `PUT` of the second
edit is issued only at 2200 ms, after it. -/
theorem complete_is_sent_before_pending_edit :
    (run sampleWorld
      [.edit (.field "project_name" (.str "A")), .wait 1200,
       .edit (.field "project_name" (.str "AB")), .wait 100, .response 0 true,
       .wait 100]).saving = false ∧
    (run sampleWorld
      [.edit (.field "project_name" (.str "A")), .wait 1200,
       .edit (.field "project_name" (.str "AB")), .wait 100, .response 0 true,
       .wait 100]).timers.map (fun t => (t.isAutoSave, t.due)) = [(true, 2200)] ∧
    (run sampleWorld
      [.edit (.field "project_name" (.str "A")), .wait 1200,
       .edit (.field "project_name" (.str "AB")), .wait 100, .response 0 true,
       .wait 100, .complete, .wait 1000]).sent.map (fun r => (r.call, r.issuedAt)) =
      [(.put (.num 7) (setProp sampleDoc "project_name" (.str "A")), 1000),
       (.complete (.num 7), 1400),
       (.put (.num 7) (setProp sampleDoc "project_name" (.str "AB")), 2200)] := by
  decide

/-- C6, as the code has it.  `handleComplete` does not flush: it cancels no
timer, issues no `PUT` and leaves the working document and the heap as they
are; on a loaded document the one request it issues is the complete request,
at once.  An autosave timer armed before it therefore expires after it, and
its `PUT` is appended to the requests sent after the complete request. -/
theorem handleComplete_does_not_flush (w : World) :
    (handleComplete w).timers = w.timers ∧
    puts (handleComplete w).sent = puts w.sent ∧
    (handleComplete w).sent =
      (match w.rendered with
        | none => w.sent
        | some s => w.sent ++ [{ id := w.nextRequest, call := .complete (lookupProp s "id"),
                                 issuedAt := w.now, heapAtIssue := w.heap }]) ∧
    (handleComplete w).submission = w.submission ∧
    (handleComplete w).heap = w.heap ∧
    (∀ (id due : Nat) (s d : Doc),
      (fireTimer (handleComplete w) { id := id, due := due, action := .autoSave (some s) d }).sent
        = (handleComplete w).sent ++
          [{ id := (handleComplete w).nextRequest, call := .put (lookupProp s "id") d,
             issuedAt := due, heapAtIssue := w.heap }]) := by
  unfold handleComplete
  cases w.rendered with
  | none => exact ⟨rfl, rfl, rfl, rfl, rfl, fun _ _ _ _ => rfl⟩
  | some s =>
      refine ⟨rfl, ?_, rfl, rfl, rfl, fun _ _ _ _ => rfl⟩
      simp [issue, puts, List.filter_append]

/-! ## The status field -/

theorem fireTimer_submission (w : World) (t : Timer) :
    (fireTimer w t).submission = w.submission := by
  unfold fireTimer
  cases t.action with
  | autoSave sub data => cases sub <;> rfl
  | navigate path => rfl

theorem fire_all_submission (l : List Timer) (acc : World) :
    (l.foldl (fun acc x => render (fireTimer acc x)) acc).submission = acc.submission := by
  induction l generalizing acc with
  | nil => rfl
  | cons t l ih =>
      rw [List.foldl_cons, ih]
      exact fireTimer_submission acc t

theorem fire_all_rendered (l : List Timer) (acc : World)
    (h : acc.rendered = acc.submission) :
    (l.foldl (fun acc x => render (fireTimer acc x)) acc).rendered = acc.submission := by
  induction l generalizing acc with
  | nil => exact h
  | cons t l ih =>
      rw [List.foldl_cons, ih (render (fireTimer acc t)) rfl]
      exact fireTimer_submission acc t

theorem advance_submission (w : World) (ms : Nat) :
    (advance w ms).submission = w.submission := by
  unfold advance
  exact fire_all_submission _ _

theorem advance_rendered (w : World) (ms : Nat) (h : w.rendered = w.submission) :
    (advance w ms).rendered = w.submission := by
  unfold advance
  exact fire_all_rendered _ _ h

theorem respond_submission (w : World) (id : Nat) (ok : Bool) :
    (respond w id ok).submission = w.submission := by
  unfold respond
  cases w.unresolved.find? (fun r => r.id == id) with
  | none => rfl
  | some r =>
      cases hc : r.call with
      | put t d => cases ok <;> simp [hc]
      | complete t => cases ok <;> simp [hc]

theorem handleComplete_submission (w : World) :
    (handleComplete w).submission = w.submission := by
  unfold handleComplete
  cases w.rendered <;> rfl

theorem ensureKey_lookup_other (h : Heap) (d : Doc) (key g : String) (c : Cell)
    (hg : g ≠ key) : lookupProp (ensureKey h d key c).2 g = lookupProp d g := by
  unfold ensureKey
  split
  · rfl
  · exact lookupProp_setProp_other _ _ _ _ hg

theorem nestedUpdated_doc (h : Heap) (s : Option Doc) (c : String) (i : Nat) (f : String)
    (v : Val) (r : Heap × Doc) (hr : nestedUpdated h s c i f v = .ok r) :
    r.2 = (ensureKey h (spread s) c (.arr [] [])).2 := by
  unfold nestedUpdated at hr
  dsimp only at hr
  repeat' split at hr
  all_goals first
    | (simp only [Except.ok.injEq] at hr; rw [← hr])
    | cases hr

theorem manufacturerUpdated_doc (h : Heap) (s : Option Doc) (k : String) (v : Val)
    (r : Heap × Doc) (hr : manufacturerUpdated h s k v = .ok r) :
    r.2 = (ensureKey h (spread s) "manufacturers_suppliers" (.obj [])).2 := by
  unfold manufacturerUpdated at hr
  dsimp only at hr
  repeat' split at hr
  all_goals first
    | (simp only [Except.ok.injEq] at hr; rw [← hr])
    | cases hr

/-- An edit that returns keeps every top-level field other than its target. -/
theorem applyEdit_other_field (w w' : World) (e : Edit) (g : String)
    (h : applyEdit w e = .ok w') (hg : g ≠ e.target) :
    getField w'.submission g = getField w.rendered g := by
  rw [getField_eq_lookup w.rendered]
  cases e with
  | field f v =>
      simp only [applyEdit, Except.ok.injEq] at h
      subst h
      exact lookupProp_setProp_other _ _ _ _ hg
  | nested c i f v =>
      simp only [applyEdit, handleNestedChange] at h
      split at h
      · rename_i r hr
        simp only [Except.ok.injEq] at h
        subst h
        show lookupProp r.2 g = _
        rw [nestedUpdated_doc _ _ _ _ _ _ _ hr]
        exact ensureKey_lookup_other _ _ _ _ _ hg
      · cases h
  | manufacturer k v =>
      simp only [applyEdit, handleManufacturerChange] at h
      split at h
      · rename_i r hr
        simp only [Except.ok.injEq] at h
        subst h
        show lookupProp r.2 g = _
        rw [manufacturerUpdated_doc _ _ _ _ _ hr]
        exact ensureKey_lookup_other _ _ _ _ _ hg
      · cases h

theorem step_rendered (w : World) (ev : Event) (h : w.rendered = w.submission) :
    (step w ev).rendered = (step w ev).submission := by
  cases ev with
  | edit e =>
      simp only [step]
      split
      · rfl
      · exact h
  | complete =>
      simp only [step]
      split
      · exact h
      · rfl
  | wait ms =>
      simp only [step]
      rw [advance_rendered w ms h, advance_submission]
  | response id ok => rfl

theorem step_status (w : World) (ev : Event) (h : w.rendered = w.submission)
    (hev : ev.targetsStatus = false) : statusOf (step w ev) = statusOf w := by
  unfold statusOf
  cases ev with
  | edit e =>
      simp only [step]
      split
      · rename_i w1 hw1
        have hne : "status" ≠ e.target := by
          intro hcontra
          simp [Event.targetsStatus, ← hcontra] at hev
        show getField w1.submission "status" = _
        rw [applyEdit_other_field w w1 e "status" hw1 hne, h]
      · rfl
  | complete =>
      simp only [step]
      split
      · rfl
      · show getField (handleComplete w).submission "status" = _
        rw [handleComplete_submission]
  | wait ms =>
      simp only [step]
      rw [advance_submission]
  | response id ok =>
      show getField (respond w id ok).submission "status" = _
      rw [respond_submission]

/-- C4, counterexample.  On a document whose status is `completed`,
`handleFieldChange('status', 'draft')` stores a working document whose status
is `draft`. -/
theorem status_edit_moves_backward :
    statusOf completedWorld = .str "completed" ∧
    statusOf (step completedWorld (.edit (.field "status" (.str "draft")))) = .str "draft" := by
  decide

/-- C4, as the code has it.  The status of the working document changes only
through an edit addressed to the key `status` itself.  Over every run of
edits, Complete clicks, timer expiries and responses in which no edit is
addressed to `status`, the status at the end is the status at the start, so
it never moves backward; `handleFieldChange('status', v)` stores any `v`. -/
theorem status_changes_only_when_addressed (w : World) (es : List Event)
    (hw : w.rendered = w.submission) (hes : ∀ ev ∈ es, ev.targetsStatus = false) :
    statusOf (run w es) = statusOf w ∧
    ∀ v, statusOf (step (run w es) (.edit (.field "status" v))) = v := by
  constructor
  · induction es generalizing w with
    | nil => rfl
    | cons ev es ih =>
        have hev : ev.targetsStatus = false := hes ev (List.mem_cons_self _ _)
        have hrest : ∀ x ∈ es, x.targetsStatus = false :=
          fun x hx => hes x (List.mem_cons_of_mem _ hx)
        show statusOf (run (step w ev) es) = _
        rw [ih (step w ev) (step_rendered w ev hw) hrest, step_status w ev hw hev]
  · intro v
    show lookupProp (fieldUpdated (run w es).rendered "status" v) "status" = v
    exact lookupProp_setProp_same _ _ _

/-- Witness of C4's theorem: a run on the completed document with a scalar
edit, a wait, a write response and a Complete click. -/
theorem status_changes_only_when_addressed_witness :
    completedWorld.rendered = completedWorld.submission ∧
    statusOf (run completedWorld
      [.edit (.field "project_name" (.str "Dome")), .wait 1000, .response 0 true,
       .complete]) = .str "completed" :=
  ⟨rfl,
    ((status_changes_only_when_addressed completedWorld
      [.edit (.field "project_name" (.str "Dome")), .wait 1000, .response 0 true, .complete]
      rfl (by decide)).1).trans rfl⟩

/-! ## Writes in flight -/

theorem puts_append (l r : List Request) : puts (l ++ r) = puts l ++ puts r := by
  simp [puts, List.filter_append]

theorem autoSave_pendingWrites (w : World) (d : Doc) :
    pendingWrites (autoSave w d) ≤ pendingWrites w + 1 := by
  unfold pendingWrites autoSave
  cases w.autoSaveTimeout with
  | none =>
      simp only [List.filter_append, List.length_append]
      have hone : (List.filter Timer.isAutoSave
          [{ id := w.nextTimer, due := w.now + autoSaveDelay,
             action := TimerAction.autoSave w.rendered d }]).length ≤ 1 :=
        List.length_filter_le _ _
      omega
  | some t =>
      simp only [List.filter_append, List.length_append]
      have hle : (List.filter Timer.isAutoSave
          (List.filter (fun x => x.id != t) w.timers)).length ≤
          (List.filter Timer.isAutoSave w.timers).length := by
        rw [List.filter_comm]
        exact List.length_filter_le _ _
      have hone : (List.filter Timer.isAutoSave
          [{ id := w.nextTimer, due := w.now + autoSaveDelay,
             action := TimerAction.autoSave w.rendered d }]).length ≤ 1 :=
        List.length_filter_le _ _
      omega

theorem applyEdit_pendingWrites (w w' : World) (e : Edit) (h : applyEdit w e = .ok w') :
    pendingWrites w' ≤ pendingWrites w + 1 := by
  obtain ⟨hp, d, rfl⟩ := applyEdit_ok_shape w w' e h
  exact autoSave_pendingWrites _ d

theorem handleComplete_pendingWrites (w : World) :
    pendingWrites (handleComplete w) = pendingWrites w := by
  unfold handleComplete pendingWrites
  cases w.rendered with
  | none => rfl
  | some s => simp [issue, puts_append, puts]

theorem respond_pendingWrites (w : World) (id : Nat) (ok : Bool) :
    pendingWrites (respond w id ok) ≤ pendingWrites w := by
  unfold respond
  cases w.unresolved.find? (fun r => r.id == id) with
  | none => exact Nat.le_refl _
  | some r =>
      have hle : (puts (w.unresolved.filter (fun x => x.id != id))).length ≤
          (puts w.unresolved).length := by
        unfold puts
        rw [List.filter_comm]
        exact List.length_filter_le _ _
      cases hc : r.call with
      | put t d =>
          cases ok <;> simp only [hc, pendingWrites] <;> simp <;> omega
      | complete t =>
          cases ok <;> simp only [hc, pendingWrites] <;>
            simp [List.filter_append, Timer.isAutoSave] <;> omega

theorem fireTimer_pendingWrites (w : World) (t : Timer) :
    (puts (fireTimer w t).unresolved).length ≤
        (puts w.unresolved).length + (if t.isAutoSave then 1 else 0) ∧
      (fireTimer w t).timers = w.timers := by
  unfold fireTimer Timer.isAutoSave
  cases t.action with
  | autoSave sub data =>
      cases sub with
      | none => simp
      | some s => simp [issue, puts_append, puts]
  | navigate path => simp

theorem fire_all_pendingWrites (l : List Timer) (acc : World) :
    (puts (l.foldl (fun acc x => render (fireTimer acc x)) acc).unresolved).length ≤
        (puts acc.unresolved).length + (l.filter Timer.isAutoSave).length ∧
      (l.foldl (fun acc x => render (fireTimer acc x)) acc).timers = acc.timers := by
  induction l generalizing acc with
  | nil => exact ⟨Nat.le_refl _, rfl⟩
  | cons t l ih =>
      rw [List.foldl_cons]
      obtain ⟨h1, h2⟩ := ih (render (fireTimer acc t))
      obtain ⟨h3, h4⟩ := fireTimer_pendingWrites acc t
      have h3' : (puts (render (fireTimer acc t)).unresolved).length ≤
          (puts acc.unresolved).length + (if t.isAutoSave then 1 else 0) := h3
      have h4' : (render (fireTimer acc t)).timers = acc.timers := h4
      refine ⟨?_, h2.trans h4'⟩
      cases ht : t.isAutoSave
      · simp only [ht, Bool.false_eq_true, if_false, Nat.add_zero] at h3'
        simp only [List.filter_cons, ht, Bool.false_eq_true, if_false]
        omega
      · simp only [ht, if_true] at h3'
        simp only [List.filter_cons, ht, if_true, List.length_cons]
        omega

theorem filter_split_length (l : List Timer) (p : Timer → Bool) :
    ((l.filter p).filter Timer.isAutoSave).length +
        ((l.filter (fun x => !p x)).filter Timer.isAutoSave).length =
      (l.filter Timer.isAutoSave).length := by
  induction l with
  | nil => rfl
  | cons t l ih =>
      cases hp : p t <;> cases ha : t.isAutoSave <;>
        simp only [List.filter_cons, hp, ha, Bool.not_true, Bool.not_false, if_true,
          Bool.false_eq_true, if_false, List.length_cons] <;> omega

theorem advance_pendingWrites (w : World) (ms : Nat) :
    pendingWrites (advance w ms) ≤ pendingWrites w := by
  unfold advance pendingWrites
  obtain ⟨h1, h2⟩ := fire_all_pendingWrites
    ((w.timers.filter (fun x => x.due ≤ w.now + ms)).insertionSort (fun a b => a.due ≤ b.due))
    { w with timers := w.timers.filter (fun x => ¬ x.due ≤ w.now + ms), now := w.now + ms }
  have hperm : (((w.timers.filter (fun x => x.due ≤ w.now + ms)).insertionSort
      (fun a b => a.due ≤ b.due)).filter Timer.isAutoSave).length =
      ((w.timers.filter (fun x => x.due ≤ w.now + ms)).filter Timer.isAutoSave).length :=
    ((List.perm_insertionSort _ _).filter _).length_eq
  have hsplit := filter_split_length w.timers (fun x => decide (x.due ≤ w.now + ms))
  simp only [decide_not] at h1 h2 ⊢
  rw [h2]
  rw [hperm] at h1
  simp only at h1 hsplit ⊢
  omega

theorem step_pendingWrites (w : World) (ev : Event) :
    pendingWrites (step w ev) ≤ pendingWrites w + (if ev.isEdit then 1 else 0) := by
  cases ev with
  | edit e =>
      simp only [step, Event.isEdit, if_true]
      split
      · rename_i w1 hw1
        exact applyEdit_pendingWrites w w1 e hw1
      · exact Nat.le_succ _
  | complete =>
      simp only [step, Event.isEdit]
      split
      · exact Nat.le_refl _
      · exact Nat.le_of_eq (handleComplete_pendingWrites w)
  | wait ms => exact advance_pendingWrites w ms
  | response id ok => exact respond_pendingWrites w id ok

theorem run_pendingWrites (w : World) (es : List Event) :
    pendingWrites (run w es) ≤ pendingWrites w + (es.filter Event.isEdit).length := by
  induction es generalizing w with
  | nil => exact Nat.le_refl _
  | cons ev es ih =>
      have h1 := ih (step w ev)
      have h2 := step_pendingWrites w ev
      show pendingWrites (run (step w ev) es) ≤ _
      cases he : ev.isEdit
      · simp only [he, Bool.false_eq_true, if_false, Nat.add_zero] at h2
        simp only [List.filter_cons, he, Bool.false_eq_true, if_false]
        omega
      · simp only [he, if_true] at h2
        simp only [List.filter_cons, he, if_true, List.length_cons]
        omega

/-- C5, counterexample.  An edit at 0 ms is written at 1000 ms and its write
takes long; an edit at 1000 ms is written at 2000 ms.  At 2000 ms both `PUT`s
are unresolved. -/
theorem two_writes_in_flight :
    (puts (run sampleWorld
      [.edit (.field "project_name" (.str "A")), .wait 1000,
       .edit (.field "project_name" (.str "AB")), .wait 1000]).unresolved).map
      (fun r => (r.id, r.issuedAt)) = [(0, 1000), (1, 2000)] := by
  decide

/-- C5, as the code has it.  Nothing gates a write on the writes in flight:
the expiry of an autosave timer issues its `PUT` at once, whatever is
unresolved.  In every run of edits, Complete clicks, timer expiries and
responses from a freshly loaded form, the unresolved `PUT`s together with the
armed autosave timers never outnumber the edits made; so at most as many
`PUT`s are unresolved at one time as edits were made, and two or more can
be. -/
theorem unresolved_writes_bounded_by_edits (h : Heap) (doc : Option Doc) (es : List Event) :
    (puts (run (loaded h doc) es).unresolved).length +
        ((run (loaded h doc) es).timers.filter Timer.isAutoSave).length ≤
      (es.filter Event.isEdit).length ∧
    (∀ (w : World) (id due : Nat) (s d : Doc),
      (fireTimer w { id := id, due := due, action := .autoSave (some s) d }).unresolved =
        w.unresolved ++ [{ id := w.nextRequest, call := .put (lookupProp s "id") d,
                           issuedAt := due, heapAtIssue := w.heap }]) := by
  refine ⟨?_, fun _ _ _ _ _ => rfl⟩
  have hrun := run_pendingWrites (loaded h doc) es
  have hzero : pendingWrites (loaded h doc) = 0 := rfl
  rw [hzero] at hrun
  simpa [pendingWrites] using hrun

/-! ## Draft documents -/

theorem run_rendered (w : World) (es : List Event) (h : w.rendered = w.submission) :
    (run w es).rendered = (run w es).submission := by
  induction es generalizing w with
  | nil => exact h
  | cons ev es ih => exact ih (step w ev) (step_rendered w ev h)

theorem run_status (w : World) (es : List Event) (h : w.rendered = w.submission)
    (hes : ∀ ev ∈ es, ev.targetsStatus = false) : statusOf (run w es) = statusOf w := by
  induction es generalizing w with
  | nil => rfl
  | cons ev es ih =>
      show statusOf (run (step w ev) es) = _
      rw [ih (step w ev) (step_rendered w ev h) (fun x hx => hes x (List.mem_cons_of_mem _ hx)),
        step_status w ev h (hes ev (List.mem_cons_self _ _))]

theorem autoSave_last_timer (w : World) (d : Doc) :
    (autoSave w d).timers.getLast? =
      some { id := w.nextTimer, due := w.now + autoSaveDelay,
             action := .autoSave w.rendered d } := by
  simp [autoSave]

/-- C11, counterexample.  On a document whose status is `draft`, a first
scalar edit, the expiry of its timer and the successful response to its `PUT`
leave the working document's status `draft`; the `PUT` itself carried a
document whose status is `draft`. -/
theorem draft_stays_draft_after_first_edit :
    statusOf draftWorld = .str "draft" ∧
    statusOf (run draftWorld
      [.edit (.field "project_name" (.str "Arena")), .wait 1000, .response 0 true]) =
      .str "draft" ∧
    (run draftWorld
      [.edit (.field "project_name" (.str "Arena")), .wait 1000, .response 0 true]).saving =
      false ∧
    (run draftWorld
      [.edit (.field "project_name" (.str "Arena")), .wait 1000, .response 0 true]).sent.map
      (fun r => r.call) =
      [.put (.num 7)
        [("id", .num 7), ("status", .str "draft"), ("project_name", .str "Arena")]] := by
  decide

/-- C11, as the code has it.  The form does not promote a draft.  From a
working document whose status is `draft`, over every run of edits not
addressed to `status`, Complete clicks, timer expiries and responses
(successful or not), the status of the working document is still `draft`;
and the document a further such edit stores and hands to `autoSave`, the one
its `PUT` carries, has status `draft` too. -/
theorem draft_is_not_promoted (w : World) (es : List Event)
    (hw : w.rendered = w.submission) (hd : statusOf w = .str "draft")
    (hes : ∀ ev ∈ es, ev.targetsStatus = false) :
    statusOf (run w es) = .str "draft" ∧
    ∀ e w1, e.target ≠ "status" → applyEdit (run w es) e = .ok w1 →
      ∃ d, w1.submission = some d ∧ lookupProp d "status" = .str "draft" ∧
        w1.timers.getLast? =
          some { id := (run w es).nextTimer, due := (run w es).now + autoSaveDelay,
                 action := .autoSave (run w es).rendered d } := by
  have hst : statusOf (run w es) = .str "draft" := by
    rw [run_status w es hw hes, hd]
  refine ⟨hst, ?_⟩
  intro e w1 he hok
  have hkeep := applyEdit_other_field (run w es) w1 e "status" hok (Ne.symm he)
  obtain ⟨hp, d, rfl⟩ := applyEdit_ok_shape (run w es) w1 e hok
  refine ⟨d, rfl, ?_, ?_⟩
  · have h1 : getField (some d) "status" = getField (run w es).rendered "status" := hkeep
    rw [run_rendered w es hw] at h1
    exact h1.trans hst
  · exact autoSave_last_timer _ d

/-- Witness of C11's theorem on the draft sample document. -/
theorem draft_is_not_promoted_witness :
    draftWorld.rendered = draftWorld.submission ∧
    statusOf draftWorld = .str "draft" ∧
    statusOf (run draftWorld
      [.edit (.field "project_name" (.str "Arena")), .wait 1000, .response 0 false,
       .edit (.manufacturer "Pools - Heaters" (.str "Acme")), .wait 1000,
       .response 1 true]) = .str "draft" :=
  ⟨rfl, rfl,
    (draft_is_not_promoted draftWorld
      [.edit (.field "project_name" (.str "Arena")), .wait 1000, .response 0 false,
       .edit (.manufacturer "Pools - Heaters" (.str "Acme")), .wait 1000, .response 1 true]
      rfl rfl (by decide)).1⟩

/-! ## Edits while a write is in flight -/

/-- C12, counterexample.  The edit `A` at 0 ms is written at 1000 ms and its
write stays unresolved.  The edits `B` at 1000 ms and `C` at 1500 ms arrive
while it is in flight.  At 2000 ms the `PUT` of `B` is issued although the
first `PUT` is still unresolved, and it carries the document of `B` although
the working document is that of `C`. -/
theorem followup_write_overlaps_and_is_not_latest :
    (run sampleWorld
      [.edit (.field "project_name" (.str "A")), .wait 1000,
       .edit (.field "project_name" (.str "B")), .wait 500,
       .edit (.field "project_name" (.str "C")), .wait 500]).sent.map
      (fun r => (r.id, r.call, r.issuedAt)) =
      [(0, .put (.num 7) (setProp sampleDoc "project_name" (.str "A")), 1000),
       (1, .put (.num 7) (setProp sampleDoc "project_name" (.str "B")), 2000)] ∧
    (run sampleWorld
      [.edit (.field "project_name" (.str "A")), .wait 1000,
       .edit (.field "project_name" (.str "B")), .wait 500,
       .edit (.field "project_name" (.str "C")), .wait 500]).unresolved.map
      (fun r => r.id) = [0, 1] ∧
    (run sampleWorld
      [.edit (.field "project_name" (.str "A")), .wait 1000,
       .edit (.field "project_name" (.str "B")), .wait 500,
       .edit (.field "project_name" (.str "C")), .wait 500]).submission =
      some (setProp sampleDoc "project_name" (.str "C")) := by
  decide

/-- C12, as the code has it.  An edit that arrives on a loaded document while
a `PUT` is in flight issues nothing itself and arms one timer of 1000 ms for
the document it stores (after a render, when `autoSaveTimeout` is unassigned,
the timers are the earlier ones and this one).  The expiry of that timer
issues one `PUT` carrying that document, in whatever world it happens: the
requests in flight are neither waited for nor touched. -/
theorem edit_during_write_arms_its_own_write (w : World) (s : Doc) (r : Request)
    (hs : w.rendered = some s) (_hr : r ∈ puts w.unresolved)
    (e : Edit) (w1 : World) (hok : applyEdit w e = .ok w1) :
    ∃ d : Doc,
      w1.submission = some d ∧
      w1.unresolved = w.unresolved ∧ w1.sent = w.sent ∧
      w1.timers.getLast? =
        some { id := w.nextTimer, due := w.now + autoSaveDelay,
               action := .autoSave (some s) d } ∧
      (w.autoSaveTimeout = none →
        w1.timers = w.timers ++ [{ id := w.nextTimer, due := w.now + autoSaveDelay,
                                   action := .autoSave (some s) d }]) ∧
      ∀ w2 : World,
        (fireTimer w2 { id := w.nextTimer, due := w.now + autoSaveDelay,
                        action := .autoSave (some s) d }).sent =
          w2.sent ++ [{ id := w2.nextRequest, call := .put (lookupProp s "id") d,
                        issuedAt := w.now + autoSaveDelay, heapAtIssue := w2.heap }] ∧
        (fireTimer w2 { id := w.nextTimer, due := w.now + autoSaveDelay,
                        action := .autoSave (some s) d }).unresolved =
          w2.unresolved ++ [{ id := w2.nextRequest, call := .put (lookupProp s "id") d,
                              issuedAt := w.now + autoSaveDelay, heapAtIssue := w2.heap }] := by
  obtain ⟨hp, d, rfl⟩ := applyEdit_ok_shape w w1 e hok
  refine ⟨d, rfl, rfl, rfl, ?_, ?_, fun w2 => ⟨rfl, rfl⟩⟩
  · rw [autoSave_last_timer]
    simp [hs]
  · intro hnone
    simp [autoSave, hnone, hs]

/-- Witness of C12's theorem: the sample form one second after a first edit,
its `PUT` in flight, and a second edit. -/
theorem edit_during_write_arms_its_own_write_witness :
    (run sampleWorld [.edit (.field "project_name" (.str "A")), .wait 1000]).rendered =
      some (setProp sampleDoc "project_name" (.str "A")) ∧
    (puts (run sampleWorld
      [.edit (.field "project_name" (.str "A")), .wait 1000]).unresolved).length = 1 ∧
    ∃ d : Doc,
      (handleFieldChange (run sampleWorld
        [.edit (.field "project_name" (.str "A")), .wait 1000])
        "project_name" (.str "B")).submission = some d ∧
      (handleFieldChange (run sampleWorld
        [.edit (.field "project_name" (.str "A")), .wait 1000])
        "project_name" (.str "B")).timers.getLast? =
        some { id := 1, due := 2000,
               action := .autoSave (some (setProp sampleDoc "project_name" (.str "A"))) d } := by
  refine ⟨by decide, by decide, ?_⟩
  obtain ⟨d, hd, _, _, ht, _, _⟩ :=
    edit_during_write_arms_its_own_write
      (run sampleWorld [.edit (.field "project_name" (.str "A")), .wait 1000])
      (setProp sampleDoc "project_name" (.str "A"))
      { id := 0, call := .put (.num 7) (setProp sampleDoc "project_name" (.str "A")),
        issuedAt := 1000, heapAtIssue := sampleHeap }
      (by decide) (by decide) (.field "project_name" (.str "B")) _ rfl
  exact ⟨d, hd, ht⟩

/-! ## Failed writes -/

/-- C13. When the `PUT` with the unresolved request `id` fails, the working
document and the heap are what they were, the failure is logged with
`console.error`, `error` is not set, nothing is thrown and `saving` is
`false`.  An edit made afterwards sees the document as it was before the
failure: a scalar edit always returns, and every edit that returns stores a
document that agrees with it on every field but the edit's target and arms
the autosave timer carrying the stored document. -/
theorem failed_autosave_is_not_fatal (w : World) (id : Nat) (r : Request) (t : Val) (d : Doc)
    (hfind : w.unresolved.find? (fun x => x.id == id) = some r)
    (hcall : r.call = .put t d) :
    (step w (.response id false)).submission = w.submission ∧
    (step w (.response id false)).heap = w.heap ∧
    (step w (.response id false)).consoleErrors = w.consoleErrors + 1 ∧
    (step w (.response id false)).error = w.error ∧
    (step w (.response id false)).uncaught = w.uncaught ∧
    (step w (.response id false)).saving = false ∧
    (∀ f v, applyEdit (step w (.response id false)) (.field f v) =
        .ok (handleFieldChange (step w (.response id false)) f v)) ∧
    (∀ e w2, applyEdit (step w (.response id false)) e = .ok w2 →
      ∃ d2, w2.submission = some d2 ∧
        (∀ g, g ≠ e.target → lookupProp d2 g = getField w.submission g) ∧
        w2.timers.getLast? =
          some { id := w.nextTimer, due := w.now + autoSaveDelay,
                 action := .autoSave w.submission d2 }) := by
  have hstep : step w (.response id false) = render { w with
      unresolved := w.unresolved.filter (fun x => x.id != id)
      consoleErrors := w.consoleErrors + 1
      saving := false } := by
    simp only [step, respond, hfind, hcall]
    rfl
  rw [hstep]
  refine ⟨rfl, rfl, rfl, rfl, rfl, rfl, fun _ _ => rfl, ?_⟩
  intro e w2 hok
  have hkeep := fun g hg => applyEdit_other_field _ w2 e g hok hg
  obtain ⟨hp, d2, rfl⟩ := applyEdit_ok_shape _ w2 e hok
  exact ⟨d2, rfl, hkeep, autoSave_last_timer _ d2⟩

/-- Witness of C13's theorem: the first write of the sample form fails. -/
theorem failed_autosave_is_not_fatal_witness :
    (run sampleWorld [.edit (.field "project_name" (.str "A")), .wait 1000]).unresolved.find?
      (fun x => x.id == 0) =
      some { id := 0, call := .put (.num 7) (setProp sampleDoc "project_name" (.str "A")),
             issuedAt := 1000, heapAtIssue := sampleHeap } ∧
    (step (run sampleWorld [.edit (.field "project_name" (.str "A")), .wait 1000])
      (.response 0 false)).submission = some (setProp sampleDoc "project_name" (.str "A")) ∧
    (step (run sampleWorld [.edit (.field "project_name" (.str "A")), .wait 1000])
      (.response 0 false)).consoleErrors = 1 := by
  have hfind : (run sampleWorld
      [.edit (.field "project_name" (.str "A")), .wait 1000]).unresolved.find?
      (fun x => x.id == 0) =
      some { id := 0, call := .put (.num 7) (setProp sampleDoc "project_name" (.str "A")),
             issuedAt := 1000, heapAtIssue := sampleHeap } := by decide
  have hthm := failed_autosave_is_not_fatal
    (run sampleWorld [.edit (.field "project_name" (.str "A")), .wait 1000]) 0 _ _ _ hfind rfl
  exact ⟨hfind, hthm.1.trans (by decide), hthm.2.2.1.trans (by decide)⟩

/-! ## The save status -/

/-- C14, counterexample.  Two reachable states in which `saving` is `false`,
shown as 'Saved'.  In the first the timer of the second edit is still armed:
the response to the first write has reset `saving`.  In the second the
`PUT` of the second edit is still unresolved. -/
theorem saved_is_shown_while_work_is_pending :
    (run sampleWorld
      [.edit (.field "project_name" (.str "A")), .wait 1200,
       .edit (.field "project_name" (.str "AB")), .wait 100, .response 0 true]).saving =
      false ∧
    (run sampleWorld
      [.edit (.field "project_name" (.str "A")), .wait 1200,
       .edit (.field "project_name" (.str "AB")), .wait 100, .response 0 true]).timers.map
      (fun t => (t.isAutoSave, t.due)) = [(true, 2200)] ∧
    (run sampleWorld
      [.edit (.field "project_name" (.str "A")), .wait 1000,
       .edit (.field "project_name" (.str "AB")), .wait 1000, .response 0 true]).saving =
      false ∧
    (puts (run sampleWorld
      [.edit (.field "project_name" (.str "A")), .wait 1000,
       .edit (.field "project_name" (.str "AB")), .wait 1000,
       .response 0 true]).unresolved).map (fun r => r.id) = [1] := by
  decide

/-- C14, as the code has it.  The save status is the boolean `saving`; it
reads the same, `true`, while an edit awaits its timer and while its write is
in flight.  Starting from a loaded form with no timer armed and no request
unresolved, for one edit that returns: `saving` is `true` after the edit and
as long as fewer than 1000 ms have passed, with the timer armed and nothing
in flight; once 1000 ms have passed the timer is gone, the one `PUT` is
unresolved and `saving` is still `true`; and after the response to that
`PUT`, successful or not, `saving` is `false` with no timer armed and no
request unresolved. -/
theorem save_status_over_one_edit (w : World) (s : Doc) (e : Edit) (w1 : World)
    (hs : w.rendered = some s) (ht : w.timers = []) (hu : w.unresolved = [])
    (hok : applyEdit w e = .ok w1) :
    (step w (.edit e)).saving = true ∧
    (step w (.edit e)).timers.map Timer.isAutoSave = [true] ∧
    (step w (.edit e)).unresolved = [] ∧
    (∀ ms, ms < autoSaveDelay →
      (step (step w (.edit e)) (.wait ms)).saving = true ∧
      (step (step w (.edit e)) (.wait ms)).timers.map Timer.isAutoSave = [true] ∧
      (step (step w (.edit e)) (.wait ms)).unresolved = []) ∧
    (∀ ms, autoSaveDelay ≤ ms →
      (step (step w (.edit e)) (.wait ms)).saving = true ∧
      (step (step w (.edit e)) (.wait ms)).timers = [] ∧
      (puts (step (step w (.edit e)) (.wait ms)).unresolved).map (fun r => r.id) =
        [w.nextRequest] ∧
      ∀ ok,
        (step (step (step w (.edit e)) (.wait ms)) (.response w.nextRequest ok)).saving =
          false ∧
        (step (step (step w (.edit e)) (.wait ms)) (.response w.nextRequest ok)).timers =
          [] ∧
        (step (step (step w (.edit e)) (.wait ms)) (.response w.nextRequest ok)).unresolved =
          []) := by
  obtain ⟨hp, d, rfl⟩ := applyEdit_ok_shape w _ e hok
  have hstep : step w (.edit e) =
      render (autoSave { w with heap := hp, submission := some d } d) := by
    simp only [step, hok]
  have htimers : (render (autoSave { w with heap := hp, submission := some d } d)).timers =
      [{ id := w.nextTimer, due := w.now + autoSaveDelay, action := .autoSave (some s) d }] := by
    simp only [render, autoSave, ht, hs]
    cases w.autoSaveTimeout <;> rfl
  rw [hstep]
  refine ⟨rfl, ?_, hu, ?_, ?_⟩
  · rw [htimers]; rfl
  · intro ms hms
    have hnot : ¬ (w.now + autoSaveDelay ≤ w.now + ms) := by omega
    have hlt : w.now + ms < w.now + autoSaveDelay := by omega
    simp only [step, advance, htimers]
    simp [render, autoSave, hnot, hlt, hu, Timer.isAutoSave]
  · intro ms hms
    have hdue : w.now + autoSaveDelay ≤ w.now + ms := by omega
    simp only [step, advance, htimers]
    simp [render, autoSave, hdue, hu, fireTimer, issue, puts, respond]

/-- Witness of C14's theorem on the freshly loaded sample form. -/
theorem save_status_over_one_edit_witness :
    sampleWorld.rendered = some sampleDoc ∧ sampleWorld.timers = [] ∧
    sampleWorld.unresolved = [] ∧
    (step sampleWorld (.edit (.field "project_name" (.str "A")))).saving = true ∧
    (step (step (step sampleWorld (.edit (.field "project_name" (.str "A")))) (.wait 1000))
      (.response 0 true)).saving = false :=
  ⟨rfl, rfl, rfl,
    (save_status_over_one_edit sampleWorld sampleDoc (.field "project_name" (.str "A")) _
      rfl rfl rfl rfl).1,
    ((save_status_over_one_edit sampleWorld sampleDoc (.field "project_name" (.str "A")) _
      rfl rfl rfl rfl).2.2.2.2 1000 (by decide)).2.2.2 true |>.1⟩

/-! ## The outcome of completing -/

/-- C15. Let `id` be the unresolved complete request of an invocation of
`handleComplete`.  If it fails, `error` becomes 'Failed to complete
submission', `success` is left as it was, no timer is armed and nothing is
navigated to.  If it succeeds, `success` becomes the completion message,
`error` is left as it was, and the navigation to `/submission` is armed for
3000 ms later.  In both cases `saving` ends `false`.  On a `null`
submission `handleComplete` issues no request and ends at once as a failure
does. -/
theorem complete_outcome_is_surfaced (w : World) (id : Nat) (r : Request) (t : Val)
    (hfind : w.unresolved.find? (fun x => x.id == id) = some r)
    (hcall : r.call = .complete t) :
    ((respond w id false).error = "Failed to complete submission" ∧
      (respond w id false).error ≠ "" ∧
      (respond w id false).success = w.success ∧
      (respond w id false).timers = w.timers ∧
      (respond w id false).navigations = w.navigations ∧
      (respond w id false).saving = false) ∧
    ((respond w id true).success = completedMessage ∧
      (respond w id true).success ≠ "" ∧
      (respond w id true).error = w.error ∧
      (respond w id true).timers =
        w.timers ++ [{ id := w.nextTimer, due := w.now + 3000,
                       action := .navigate "/submission" }] ∧
      (respond w id true).saving = false) ∧
    (∀ w0 : World, w0.rendered = none →
      (handleComplete w0).error = "Failed to complete submission" ∧
      (handleComplete w0).success = w0.success ∧
      (handleComplete w0).timers = w0.timers ∧
      (handleComplete w0).sent = w0.sent ∧
      (handleComplete w0).saving = false) := by
  have hfail : respond w id false = { w with
      unresolved := w.unresolved.filter (fun x => x.id != id)
      error := "Failed to complete submission"
      saving := false } := by
    simp only [respond, hfind, hcall]
    rfl
  have hsucc : respond w id true = { w with
      unresolved := w.unresolved.filter (fun x => x.id != id)
      success := completedMessage
      timers := w.timers ++ [{ id := w.nextTimer, due := w.now + 3000,
                               action := .navigate "/submission" }]
      nextTimer := w.nextTimer + 1
      saving := false } := by
    simp only [respond, hfind, hcall]
    rfl
  have hne1 : "Failed to complete submission" ≠ "" := by decide
  have hne2 : completedMessage ≠ "" := by decide
  rw [hfail, hsucc]
  refine ⟨⟨rfl, hne1, rfl, rfl, rfl, rfl⟩, ⟨rfl, hne2, rfl, rfl, rfl⟩, ?_⟩
  intro w0 h0
  have hnull : handleComplete w0 =
      { w0 with error := "Failed to complete submission", saving := false } := by
    simp only [handleComplete, h0]
  rw [hnull]
  exact ⟨rfl, rfl, rfl, rfl, rfl⟩

/-- Witness of C15's theorem: the complete request of the sample form. -/
theorem complete_outcome_is_surfaced_witness :
    (step sampleWorld .complete).unresolved.find? (fun x => x.id == 0) =
      some { id := 0, call := .complete (.num 7), issuedAt := 0, heapAtIssue := sampleHeap } ∧
    (respond (step sampleWorld .complete) 0 false).error = "Failed to complete submission" ∧
    (respond (step sampleWorld .complete) 0 true).success = completedMessage := by
  have hfind : (step sampleWorld .complete).unresolved.find? (fun x => x.id == 0) =
      some { id := 0, call := .complete (.num 7), issuedAt := 0, heapAtIssue := sampleHeap } := by
    decide
  have hthm := complete_outcome_is_surfaced (step sampleWorld .complete) 0 _ _ hfind rfl
  exact ⟨hfind, hthm.1.1, hthm.2.1.1⟩

/-! ## The architect slots -/

theorem length_setElem (es : List Val) (i : Nat) (v : Val) :
    (setElem es i v).length = max es.length (i + 1) := by
  unfold setElem
  split
  · rename_i h
    simp only [List.length_set]
    omega
  · rename_i h
    simp only [List.length_append, List.length_replicate, List.length_singleton]
    omega

/-- C21, counterexample.  On a document without `architects`, the edit of the
firm name of the first role creates an array of one slot, not three. -/
theorem first_architect_edit_makes_one_slot :
    architectCount draftWorld.heap draftWorld.submission = none ∧
    (applyEdit draftWorld
      (architectEdit { role := "Architect of Record", idx := 0, field := "firm_name" }
        "Atelier")).toOption.map
      (fun w' => architectCount w'.heap w'.submission) = some (some 1) := by
  decide

/-- C21, as the code has it.  The inputs of the architect section are, for
the indices 0, 1, 2 bound in that order to Architect of Record, Associate
Architect and Design Architect, the fields `firm_name`, `email`, `phone`,
`website`, `address`.  For an index `i` in 0..2 and a document whose
`architects` is absent (`n = 0` slots) or an array of `n ≤ 3` slots, the slot
`i` absent or a record, the edit returns and the array then has
`max n (i + 1)` slots: at most three, and as many as before unless the edit
lies past the end. -/
theorem architect_edit_slot_count (w : World) (i : Nat) (f : String) (v : Val) (n : Nat)
    (hi : i < 3)
    (hshape : ((getField w.rendered "architects").truthy = false ∧ n = 0) ∨
      ∃ a es ps, getField w.rendered "architects" = .ref a ∧
        w.heap[a]? = some (.arr es ps) ∧ es.length = n ∧ n ≤ 3 ∧
        ((es.getD i .undefined).truthy = false ∨
          ∃ b qs, es.getD i .undefined = .ref b ∧ w.heap[b]? = some (.obj qs))) :
    (∀ x ∈ architectInputs,
      x.idx < 3 ∧ architectSlotRoles[x.idx]? = some x.role ∧ x.field ∈ architectSlotFields) ∧
    (∀ role ∈ architectSlotRoles, ∀ fld ∈ architectSlotFields,
      ∃ x ∈ architectInputs, x.role = role ∧ x.field = fld) ∧
    ∃ w', handleNestedChange w "architects" i f v = .ok w' ∧
      architectCount w'.heap w'.submission = some (max n (i + 1)) ∧
      max n (i + 1) ≤ 3 := by
  have hi' : i < maxArrayLength := Nat.lt_trans hi (by decide)
  refine ⟨by decide, by decide, ?_⟩
  have hkey : ∀ d : Doc, getProp d "architects" = lookupProp d "architects" :=
    fun d => getProp_eq_lookup d _ (by decide)
  rw [getField_eq_lookup, ← hkey] at hshape
  rcases hshape with ⟨hf, hn⟩ | ⟨a, es, ps, ha, hcell, hlen, hn3, hslot⟩
  · have hres := nestedUpdated_absent w.heap w.rendered "architects" i f v hi' hf
    refine ⟨autoSave { w with
        heap := w.heap ++ [.arr (setElem [] i (.ref (w.heap.length + 1))) [], .obj (assignProp [] f v)]
        submission := some (setProp (spread w.rendered) "architects" (.ref w.heap.length)) }
        (setProp (spread w.rendered) "architects" (.ref w.heap.length)), ?_, ?_, ?_⟩
    · unfold handleNestedChange
      rw [hres]
    · show architectCount (w.heap ++ _) (some (setProp _ _ _)) = _
      simp only [architectCount, getField, lookupProp_setProp_same, getElem?_two_fst,
        length_setElem, hn]
      rfl
    · omega
  · have hlt : a < w.heap.length := lt_length_of_getElem? hcell
    rcases hslot with hsf | ⟨b, qs, hb, hbcell⟩
    · have hres := nestedUpdated_new_slot w.heap w.rendered "architects" i f v a es ps hi' ha
        hcell hsf
      have hlen' : (w.heap.set a (.arr (setElem es i (.ref w.heap.length)) ps)).length
          = w.heap.length := by simp
      have hcella : ((w.heap.set a (.arr (setElem es i (.ref w.heap.length)) ps)) ++
          [Cell.obj (assignProp [] f v)])[a]? = some (.arr (setElem es i (.ref w.heap.length)) ps) := by
        rw [List.getElem?_append_left (by rw [hlen']; exact hlt)]
        simp [hlt]
      refine ⟨autoSave { w with
          heap := (w.heap.set a (.arr (setElem es i (.ref w.heap.length)) ps)) ++
            [.obj (assignProp [] f v)]
          submission := some (spread w.rendered) } (spread w.rendered), ?_, ?_, ?_⟩
      · unfold handleNestedChange
        rw [hres]
      · show architectCount (_ ++ _) (some (spread w.rendered)) = _
        simp only [architectCount, getField, ← hkey, ha, hcella, length_setElem, hlen]
      · omega
    · have hres := nestedUpdated_slot w.heap w.rendered "architects" i f v a es ps b qs hi' ha
        hcell hb hbcell
      have hab : b ≠ a := by
        intro h; rw [h, hcell] at hbcell; cases hbcell
      have hcella : (w.heap.set b (.obj (assignProp qs f v)))[a]? = some (.arr es ps) := by
        rw [List.getElem?_set_ne hab]; exact hcell
      have hin : i < es.length := by
        rcases Nat.lt_or_ge i es.length with h | h
        · exact h
        · rw [List.getD_eq_getElem?_getD, List.getElem?_eq_none h] at hb
          cases hb
      refine ⟨autoSave { w with
          heap := w.heap.set b (.obj (assignProp qs f v))
          submission := some (spread w.rendered) } (spread w.rendered), ?_, ?_, ?_⟩
      · unfold handleNestedChange
        rw [hres]
      · show architectCount (w.heap.set b _) (some (spread w.rendered)) = _
        simp only [architectCount, getField, ← hkey, ha, hcella, hlen]
        congr 1
        omega
      · omega

/-- Witness of C21's theorem: the sample document has one architect slot, and
the edit of slot 1 makes two. -/
theorem architect_edit_slot_count_witness :
    (∃ a es ps, getField sampleWorld.rendered "architects" = .ref a ∧
      sampleWorld.heap[a]? = some (.arr es ps) ∧ es.length = 1 ∧ 1 ≤ 3 ∧
      ((es.getD 1 .undefined).truthy = false ∨
        ∃ b qs, es.getD 1 .undefined = .ref b ∧ sampleWorld.heap[b]? = some (.obj qs))) ∧
    ∃ w', handleNestedChange sampleWorld "architects" 1 "email" (.str "a@b.c") = .ok w' ∧
      architectCount w'.heap w'.submission = some 2 := by
  have hyp : ∃ a es ps, getField sampleWorld.rendered "architects" = .ref a ∧
      sampleWorld.heap[a]? = some (.arr es ps) ∧ es.length = 1 ∧ 1 ≤ 3 ∧
      ((es.getD 1 .undefined).truthy = false ∨
        ∃ b qs, es.getD 1 .undefined = .ref b ∧ sampleWorld.heap[b]? = some (.obj qs)) :=
    ⟨0, _, _, rfl, rfl, rfl, by decide, Or.inl rfl⟩
  refine ⟨hyp, ?_⟩
  obtain ⟨_, _, w', hok, hcount, _⟩ :=
    architect_edit_slot_count sampleWorld 1 "email" (.str "a@b.c") 1 (by decide) (Or.inr hyp)
  exact ⟨w', hok, hcount⟩

end SubmissionForm

namespace Aggregation

/-! ## Cost analysis -/

theorem costTotals_fold (subs : List Completed) (acc : Nat × Nat) :
    subs.foldl
      (fun (acc : Nat × Nat) s =>
        match parseCost s.total_construction_cost with
        | some amount => (acc.1 + 1, acc.2 + amount)
        | none => acc) acc =
      (acc.1 + (subs.filter (fun s => (parseCost s.total_construction_cost).isSome)).length,
       acc.2 + (subs.filterMap (fun s => parseCost s.total_construction_cost)).sum) := by
  induction subs generalizing acc with
  | nil => simp
  | cons s subs ih =>
      rw [List.foldl_cons, ih]
      cases h : parseCost s.total_construction_cost with
      | none => simp [h]
      | some amount =>
          simp [h, List.filterMap_cons]
          constructor <;> omega

/-- C17. For every list of completed submissions, `projectsWithCost` is the
number of submissions whose `total_construction_cost` parses, `totalSpent` is
the sum of the parsed amounts, and `averageCost` is `totalSpent /
projectsWithCost`, zero when `projectsWithCost` is zero.  For the costs
`"1000000"`, `"2000000"`, `"bad"`, `""` the result is 2, 3000000 and
1500000. -/
theorem costAnalysis_counts_sums_and_averages (subs : List Completed) :
    (costAnalysis subs).projectsWithCost =
      (subs.filter (fun s => (parseCost s.total_construction_cost).isSome)).length ∧
    (costAnalysis subs).totalSpent =
      (subs.filterMap (fun s => parseCost s.total_construction_cost)).sum ∧
    (costAnalysis subs).averageCost =
      (if (costAnalysis subs).projectsWithCost = 0 then 0
       else ((costAnalysis subs).totalSpent : ℚ) / ((costAnalysis subs).projectsWithCost : ℚ)) ∧
    ((costAnalysis subs).projectsWithCost = 0 → (costAnalysis subs).averageCost = 0) ∧
    costExample.map (fun s => s.total_construction_cost) = ["1000000", "2000000", "bad", ""] ∧
    costAnalysis costExample =
      { projectsWithCost := 2, totalSpent := 3000000, averageCost := 1500000 } := by
  have hfold := costTotals_fold subs (0, 0)
  have h1 : (costTotals subs).1 =
      (subs.filter (fun s => (parseCost s.total_construction_cost).isSome)).length := by
    unfold costTotals; rw [hfold]; simp
  have h2 : (costTotals subs).2 =
      (subs.filterMap (fun s => parseCost s.total_construction_cost)).sum := by
    unfold costTotals; rw [hfold]; simp
  refine ⟨h1, h2, rfl, ?_, rfl, ?_⟩
  · intro h0
    have h0' : (costTotals subs).1 = 0 := h0
    simp only [costAnalysis, h0', if_true]
  · have h : costTotals costExample = (2, 3000000) := by decide
    simp only [costAnalysis, h]
    norm_num

/-! ## Supplier ranking -/

theorem bump_names (es : List Entry) (v : String) :
    (bump es v).map Entry.name =
      if v ∈ es.map Entry.name then es.map Entry.name else es.map Entry.name ++ [v] := by
  induction es with
  | nil => simp [bump]
  | cons e es ih =>
      by_cases h : e.name = v
      · simp [bump, h]
      · have h' : ¬ v = e.name := fun hv => h hv.symm
        simp only [bump, h, if_false, List.map_cons, List.mem_cons, h', false_or, ih]
        split <;> simp

theorem tally_names_fold (values : List String) (acc : List Entry) :
    (values.foldl bump acc).map Entry.name =
      values.foldl (fun acc v => if v ∈ acc then acc else acc ++ [v]) (acc.map Entry.name) := by
  induction values generalizing acc with
  | nil => rfl
  | cons v values ih => rw [List.foldl_cons, ih, bump_names, List.foldl_cons]

theorem tally_names (values : List String) :
    (tally values).map Entry.name = firstSeen values :=
  tally_names_fold values []

theorem firstSeen_fold_spec (values acc : List String) (hacc : acc.Nodup) :
    (values.foldl (fun acc v => if v ∈ acc then acc else acc ++ [v]) acc).Nodup ∧
    ∀ n, n ∈ values.foldl (fun acc v => if v ∈ acc then acc else acc ++ [v]) acc ↔
      n ∈ acc ∨ n ∈ values := by
  induction values generalizing acc with
  | nil => simp [hacc]
  | cons v values ih =>
      rw [List.foldl_cons]
      by_cases hv : v ∈ acc
      · simp only [hv, if_true]
        obtain ⟨h1, h2⟩ := ih acc hacc
        refine ⟨h1, fun n => ?_⟩
        rw [h2 n]
        constructor
        · rintro (h | h)
          · exact Or.inl h
          · exact Or.inr (List.mem_cons_of_mem _ h)
        · rintro (h | h)
          · exact Or.inl h
          · rcases List.mem_cons.mp h with rfl | h
            · exact Or.inl hv
            · exact Or.inr h
      · simp only [hv, if_false]
        have hnd : (acc ++ [v]).Nodup := by
          rw [List.nodup_append]
          refine ⟨hacc, List.nodup_singleton v, ?_⟩
          intro a ha hb
          rw [List.mem_singleton] at hb
          exact hv (hb ▸ ha)
        obtain ⟨h1, h2⟩ := ih (acc ++ [v]) hnd
        refine ⟨h1, fun n => ?_⟩
        rw [h2 n]
        simp only [List.mem_append, List.mem_singleton, List.mem_cons]
        tauto

theorem countOf_bump (es : List Entry) (v n : String) :
    countOf (bump es v) n = countOf es n + (if v = n then 1 else 0) := by
  induction es with
  | nil =>
      by_cases h : v = n <;> simp [bump, countOf, h]
  | cons e es ih =>
      by_cases he : e.name = v
      · by_cases hn : e.name = n
        · have hvn : v = n := he ▸ hn
          simp [bump, countOf, he, hn, hvn]
        · have hvn : ¬ v = n := fun h => hn (he.trans h)
          simp [bump, countOf, he, hn, hvn]
      · by_cases hn : e.name = n
        · have hvn : ¬ v = n := fun h => he (hn.trans h.symm)
          have hnv : ¬ n = v := fun h => hvn h.symm
          simp [bump, countOf, hn, hvn, hnv]
        · simp [bump, countOf, he, hn, ih]

theorem countOf_fold (values : List String) (acc : List Entry) (n : String) :
    countOf (values.foldl bump acc) n = countOf acc n + values.count n := by
  induction values generalizing acc with
  | nil => simp
  | cons v values ih =>
      rw [List.foldl_cons, ih, countOf_bump, List.count_cons]
      by_cases h : v = n
      · simp [h]; omega
      · simp [h]

theorem countOf_tally (values : List String) (n : String) :
    countOf (tally values) n = values.count n := by
  unfold tally
  rw [countOf_fold]
  simp [countOf]

theorem countOf_of_mem (es : List Entry) (hnd : (es.map Entry.name).Nodup) (e : Entry)
    (he : e ∈ es) : countOf es e.name = e.count := by
  induction es with
  | nil => cases he
  | cons x es ih =>
      rw [List.map_cons, List.nodup_cons] at hnd
      rcases List.mem_cons.mp he with rfl | hmem
      · simp [countOf]
      · have hne : ¬ x.name = e.name := by
          intro h
          exact hnd.1 (h ▸ List.mem_map_of_mem Entry.name hmem)
        simp only [countOf, hne, if_false]
        exact ih hnd.2 hmem

theorem mem_supplierValues (subs : List Completed) (n : String) :
    n ∈ supplierValues subs ↔
      n ≠ "" ∧ ∃ s ∈ subs, ∃ kv ∈ s.manufacturers_suppliers, kv.2 = n := by
  unfold supplierValues
  simp only [List.mem_filter, List.mem_flatten, List.mem_map, decide_eq_true_eq]
  constructor
  · rintro ⟨⟨l, ⟨s, hs, rfl⟩, hn⟩, hne⟩
    obtain ⟨kv, hkv, rfl⟩ := List.mem_map.mp hn
    exact ⟨hne, s, hs, kv, hkv, rfl⟩
  · rintro ⟨hne, s, hs, kv, hkv, rfl⟩
    exact ⟨⟨_, ⟨s, hs, rfl⟩, List.mem_map_of_mem Prod.snd hkv⟩, hne⟩

/-- C18. For every list of completed submissions the ranking names exactly
the non-empty supplier names found among the values of the
`manufacturers_suppliers` maps, each once, each with the number of its
occurrences across all submissions and categories; it is sorted by count,
descending; and two entries that stand in first-seen order in the tally keep
that order in the ranking unless the later one has the larger count, so ties
stay in first-seen order.  For the three submissions of the example the
ranking is Acme with 3, then Zeta with 1. -/
theorem supplierRanking_counts_and_orders (subs : List Completed) :
    (∀ n, n ∈ (supplierRanking subs).map Entry.name ↔
      n ≠ "" ∧ ∃ s ∈ subs, ∃ kv ∈ s.manufacturers_suppliers, kv.2 = n) ∧
    ((supplierRanking subs).map Entry.name).Nodup ∧
    (∀ e ∈ supplierRanking subs, e.count = (supplierValues subs).count e.name) ∧
    (supplierRanking subs).Sorted (fun a b => a.count ≥ b.count) ∧
    (tally (supplierValues subs)).map Entry.name = firstSeen (supplierValues subs) ∧
    (∀ a b, List.Sublist [a, b] (tally (supplierValues subs)) → b.count ≤ a.count →
      List.Sublist [a, b] (supplierRanking subs)) ∧
    supplierExample.map (fun s => s.manufacturers_suppliers) =
      [[("Pools - Heaters", "Acme")], [("Pools - Heaters", "Acme")],
       [("Pools - Heaters", "Acme"), ("Pools - Covers", "Zeta")]] ∧
    supplierRanking supplierExample =
      [{ name := "Acme", count := 3 }, { name := "Zeta", count := 1 }] := by
  have hperm : List.Perm (supplierRanking subs) (tally (supplierValues subs)) :=
    List.perm_insertionSort _ _
  have hnames := tally_names (supplierValues subs)
  have hspec := firstSeen_fold_spec (supplierValues subs) [] List.nodup_nil
  have hnd : ((tally (supplierValues subs)).map Entry.name).Nodup := by
    rw [hnames]; exact hspec.1
  refine ⟨?_, ?_, ?_, ?_, hnames, ?_, rfl, by decide⟩
  · intro n
    rw [(hperm.map Entry.name).mem_iff, hnames, ← mem_supplierValues]
    have := hspec.2 n
    simpa [firstSeen] using this
  · exact (hperm.map Entry.name).nodup_iff.mpr hnd
  · intro e he
    have he' : e ∈ tally (supplierValues subs) := hperm.mem_iff.mp he
    rw [← countOf_of_mem _ hnd e he', countOf_tally]
  · haveI : IsTotal Entry (fun a b => a.count ≥ b.count) :=
      ⟨fun a b => Nat.le_total b.count a.count⟩
    haveI : IsTrans Entry (fun a b => a.count ≥ b.count) :=
      ⟨fun _ _ _ hab hbc => Nat.le_trans hbc hab⟩
    exact List.sorted_insertionSort _ _
  · intro a b hab hle
    exact List.pair_sublist_insertionSort hle hab

end Aggregation

namespace AdminDashboard

/-! ## The cumulative report view -/

/-- C16, counterexample.  The report `bareReport` has `total = 1 > 0` and
empty `byCategory`, `byType` and `topSuppliers`: the view is the report, with
its cost cards and summary, and none of the category, type and supplier
sections is rendered. -/
theorem empty_histograms_render_no_section :
    bareReport.total = some 1 ∧
    hasData (some bareReport) = true ∧
    ((cumulativeView (some bareReport)).toOption.bind CumulativeView.sections).map
      (fun s => (s.byCategory, s.byType, s.topSuppliers, s.summaryTotal)) =
      some (none, none, none, 1) := by
  decide

/-- C16, as the code has it.  A report that is absent, or whose `total` is
absent, zero or negative, yields the 'No completed submissions yet' panel
whatever its other fields hold, missing ones included: none of them is read.
A report whose `total` is positive and that has its four parts yields the
cost cards and the summary from that report, and each of the category, type
and supplier sections exactly when its list is not empty. -/
theorem cumulativeView_panel_or_sections (n : Nat)
    (c : Option Aggregation.CostAnalysis) (cats tys sups : Option (List Aggregation.Entry)) :
    cumulativeView none = .ok .noData ∧
    cumulativeView (some { total := none, costAnalysis := c, byCategory := cats,
                           byType := tys, topSuppliers := sups }) = .ok .noData ∧
    cumulativeView (some { total := some (-(n : Int)), costAnalysis := c, byCategory := cats,
                           byType := tys, topSuppliers := sups }) = .ok .noData ∧
    (∀ (c' : Aggregation.CostAnalysis) (cats' tys' sups' : List Aggregation.Entry),
      ∃ s : Sections,
        cumulativeView (some { total := some ((n : Int) + 1), costAnalysis := some c',
                               byCategory := some cats', byType := some tys',
                               topSuppliers := some sups' }) = .ok (.report s) ∧
        s.totalSpentMillions = (c'.totalSpent : ℚ) / 1000000 ∧
        s.averageCostMillions = c'.averageCost / 1000000 ∧
        s.projectsWithCost = c'.projectsWithCost ∧
        s.summaryTotal = (n : Int) + 1 ∧
        s.byCategory = (if cats' = [] then none else some cats') ∧
        s.byType = (if tys' = [] then none else some tys') ∧
        s.topSuppliers = (if sups' = [] then none else some sups')) := by
  have hsec : ∀ l : List Aggregation.Entry, sectionOf l = if l = [] then none else some l := by
    intro l
    cases l <;> simp [sectionOf]
  refine ⟨rfl, rfl, ?_, ?_⟩
  · have hneg : ¬ (-(n : Int) > 0) := by omega
    simp [cumulativeView, hasData, hneg]
  · intro c' cats' tys' sups'
    have hpos : (n : Int) + 1 > 0 := by omega
    have hview : cumulativeView (some
        { total := some ((n : Int) + 1), costAnalysis := some c', byCategory := some cats',
          byType := some tys', topSuppliers := some sups' }) =
        .ok (.report
          { totalSpentMillions := (c'.totalSpent : ℚ) / 1000000
            averageCostMillions := c'.averageCost / 1000000
            projectsWithCost := c'.projectsWithCost
            byCategory := sectionOf cats'
            byType := sectionOf tys'
            topSuppliers := sectionOf sups'
            summaryTotal := (n : Int) + 1
            summaryCategories := cats'.length
            summaryTopCount := match sups'.head? with
              | some e => e.count
              | none => 0
            summaryTopName := match sups'.head? with
              | some e => if e.name = "" then "N/A" else e.name
              | none => "N/A" }) := by
      simp [cumulativeView, hasData, hpos]
    exact ⟨_, hview, rfl, rfl, rfl, rfl, hsec cats', hsec tys', hsec sups'⟩

/-! ## Export -/

theorem digit_ne_T (n : Nat) : (digit n != 'T') = true := by
  unfold digit
  have h : n % 10 < 10 := Nat.mod_lt _ (by decide)
  interval_cases n % 10 <;> decide

theorem takeWhile_append_of_all {p : Char → Bool} (l r : List Char)
    (h : ∀ c ∈ l, p c = true) : (l ++ r).takeWhile p = l ++ r.takeWhile p := by
  induction l with
  | nil => rfl
  | cons a l ih =>
      have ha : p a = true := h a (List.mem_cons_self _ _)
      simp only [List.cons_append, List.takeWhile_cons, ha, if_true]
      rw [ih (fun c hc => h c (List.mem_cons_of_mem _ hc))]

theorem pad2_no_T (n : Nat) : ∀ c ∈ pad2 n, (c != 'T') = true := by
  intro c hc
  simp only [pad2, List.mem_cons, List.mem_singleton, List.not_mem_nil, or_false] at hc
  rcases hc with rfl | rfl <;> exact digit_ne_T _

theorem yearChars_no_T (y : Nat) : ∀ c ∈ yearChars y, (c != 'T') = true := by
  intro c hc
  unfold yearChars at hc
  split at hc
  · simp only [pad4, List.mem_cons, List.mem_singleton, List.not_mem_nil, or_false] at hc
    rcases hc with rfl | rfl | rfl | rfl <;> exact digit_ne_T _
  · simp only [pad6, List.mem_cons, List.mem_singleton, List.not_mem_nil, or_false] at hc
    rcases hc with rfl | rfl | rfl | rfl | rfl | rfl | rfl
    · decide
    all_goals exact digit_ne_T _

theorem dateChars_no_T (d : UtcTime) : ∀ c ∈ dateChars d, (c != 'T') = true := by
  intro c hc
  simp only [dateChars, List.mem_append, List.mem_cons] at hc
  rcases hc with (hc | rfl | hc) | rfl | hc
  · exact yearChars_no_T _ c hc
  · decide
  · exact pad2_no_T _ c hc
  · decide
  · exact pad2_no_T _ c hc

/-- The day `isoDay` extracts is the date part of the instant. -/
theorem isoDay_eq (d : UtcTime) : isoDay d = String.mk (dateChars d) := by
  unfold isoDay toISOString
  simp only [List.append_assoc]
  rw [takeWhile_append_of_all _ _ (dateChars_no_T d)]
  simp

/-- C19. `handleExport(t)` requests `/admin/export-cumulative-report` when `t`
is `'cumulative'` and `/admin/export-excel` for every other `t`, the default
`'all'` included.  When the response to the export `x` arrives at the
instant `d`, the download is named `cumulative-report-<date of d>.xlsx` when
`x.type` is `'cumulative'` and `submissions-<date of d>.xlsx` otherwise, the
date being `YYYY-MM-DD` for a year up to 9999: endpoint and name are chosen
by the same test of the type.  `exporting` is `true` from the request on and
`false` after the response, on success and on failure; a failure sets
`error` and triggers no download. -/
theorem handleExport_endpoint_and_filename (w0 w : Dash) (type : Option String) (d : UtcTime)
    (id : Nat) (x : Export) (hm : w.mounted = true)
    (hx : w.exportsPending.find? (fun y => y.id == id) = some x) :
    (handleExport w0 type).exportsSent =
      w0.exportsSent ++ [{ id := w0.nextId, type := type.getD "all",
                           endpoint := exportEndpoint (type.getD "all") }] ∧
    (handleExport w0 type).exporting = true ∧
    exportEndpoint "cumulative" = "/admin/export-cumulative-report" ∧
    exportFilename "cumulative" d = "cumulative-report-" ++ String.mk (dateChars d) ++ ".xlsx" ∧
    (∀ t, t ≠ "cumulative" →
      exportEndpoint t = "/admin/export-excel" ∧
      exportFilename t d = "submissions-" ++ String.mk (dateChars d) ++ ".xlsx") ∧
    exportEndpoint ((none : Option String).getD "all") = "/admin/export-excel" ∧
    (d.year ≤ 9999 → dateChars d = pad4 d.year ++ '-' :: pad2 d.month ++ '-' :: pad2 d.day) ∧
    (exportDone w id (some d)).downloads = w.downloads ++ [exportFilename x.type d] ∧
    (exportDone w id (some d)).exporting = false ∧
    (exportDone w id (some d)).error = w.error ∧
    (exportDone w id none).downloads = w.downloads ∧
    (exportDone w id none).exporting = false ∧
    (exportDone w id none).error = "Failed to export Excel file" := by
  have hok : exportDone w id (some d) = { w with
      exportsPending := w.exportsPending.filter (fun y => y.id != id)
      downloads := w.downloads ++ [exportFilename x.type d]
      exporting := false } := by
    simp only [exportDone, hx, hm, if_true]
  have hfail : exportDone w id none = { w with
      exportsPending := w.exportsPending.filter (fun y => y.id != id)
      error := "Failed to export Excel file"
      exporting := false } := by
    simp only [exportDone, hx, hm, if_true]
  rw [hok, hfail]
  refine ⟨rfl, rfl, rfl, ?_, ?_, rfl, ?_, rfl, rfl, rfl, rfl, rfl, rfl⟩
  · simp only [exportFilename, if_true, isoDay_eq]
  · intro t ht
    simp only [exportEndpoint, exportFilename, ht, if_false, isoDay_eq, and_self]
  · intro hy
    simp only [dateChars, yearChars, hy, if_true]

/-- Witness of C19's theorem: the cumulative export of a mounted dashboard,
answered at 2026-03-07. -/
theorem handleExport_endpoint_and_filename_witness :
    (handleExport { initial 0 with mounted := true, loading := false }
      (some "cumulative")).mounted = true ∧
    (handleExport { initial 0 with mounted := true, loading := false }
      (some "cumulative")).exportsPending.find? (fun y => y.id == 0) =
      some { id := 0, type := "cumulative", endpoint := "/admin/export-cumulative-report" } ∧
    (exportDone (handleExport { initial 0 with mounted := true, loading := false }
      (some "cumulative")) 0 (some sampleInstant)).downloads =
      ["cumulative-report-2026-03-07.xlsx"] := by
  have hx : (handleExport { initial 0 with mounted := true, loading := false }
      (some "cumulative")).exportsPending.find? (fun y => y.id == 0) =
      some { id := 0, type := "cumulative", endpoint := "/admin/export-cumulative-report" } := by
    decide
  have hthm := handleExport_endpoint_and_filename (initial 0)
    (handleExport { initial 0 with mounted := true, loading := false } (some "cumulative"))
    none sampleInstant 0 _ rfl hx
  exact ⟨rfl, hx, hthm.2.2.2.2.2.2.2.1.trans (by decide)⟩

/-! ## Polling -/

theorem ticks_fold (w : Dash) (next m : Nat) :
    (List.range m).foldl (fun acc k => loadData acc (next + pollInterval * k) .tick) w =
      { w with
        started := w.started ++ (List.range m).map
          (fun k => { id := w.nextId + k, startedAt := next + pollInterval * k, origin := .tick })
        pending := w.pending ++ (List.range m).map
          (fun k => { id := w.nextId + k, startedAt := next + pollInterval * k, origin := .tick })
        nextId := w.nextId + m } := by
  induction m with
  | zero => simp
  | succ m ih =>
      rw [List.range_succ, List.foldl_append, ih]
      simp [loadData, List.map_append, Nat.add_assoc]

theorem tickStarts_append_ticks (l : List Load) (next m b : Nat) :
    ((l ++ (List.range m).map
        (fun k => ({ id := b + k, startedAt := next + pollInterval * k, origin := .tick } : Load))
      ).filter (fun l => l.origin == .tick)).map Load.startedAt =
      (l.filter (fun l => l.origin == .tick)).map Load.startedAt ++
        (List.range m).map (fun k => next + pollInterval * k) := by
  rw [List.filter_append, List.map_append]
  congr 1
  induction m with
  | zero => rfl
  | succ m ih =>
      rw [List.range_succ, List.map_append, List.filter_append, List.map_append, ih,
        List.map_append]
      rfl

theorem tickCount_bounds (next t : Nat) (h : next ≤ t + pollInterval) :
    next + pollInterval * tickCount next t ≤ t + pollInterval ∧
    t < next + pollInterval * tickCount next t := by
  unfold tickCount
  have hp : 0 < pollInterval := by decide
  split
  · rename_i hle
    have h1 := Nat.div_mul_le_self (t - next) pollInterval
    have h2 := Nat.lt_div_mul_add (a := t - next) hp
    rw [Nat.mul_add, Nat.mul_one, Nat.mul_comm]
    constructor <;> omega
  · constructor <;> omega

theorem range_map_ticks (t0 n m : Nat) :
    (List.range (n + m)).map (fun k => t0 + pollInterval * (k + 1)) =
      (List.range n).map (fun k => t0 + pollInterval * (k + 1)) ++
        (List.range m).map (fun k => t0 + pollInterval * (n + 1) + pollInterval * k) := by
  induction m with
  | zero => simp
  | succ m ih =>
      have e : t0 + pollInterval * (n + m + 1) =
          t0 + pollInterval * (n + 1) + pollInterval * m := by
        ring
      rw [← Nat.add_assoc, List.range_succ, List.map_append, ih, List.range_succ,
        List.map_append, List.append_assoc, List.map_singleton, List.map_singleton, e]

/-- What holds of a dashboard `n` ticks after a mount at `t0`, after `ms` more
milliseconds. -/
theorem advance_polling (t0 : Nat) (base : List Nat) (n : Nat) (w : Dash) (ms : Nat)
    (hi : w.interval = some (t0 + pollInterval * (n + 1)))
    (hlo : t0 + pollInterval * n ≤ w.now)
    (hts : tickStarts w = base ++ (List.range n).map (fun k => t0 + pollInterval * (k + 1))) :
    ∃ n', (advance w ms).interval = some (t0 + pollInterval * (n' + 1)) ∧
      t0 + pollInterval * n' ≤ (advance w ms).now ∧
      (advance w ms).now < t0 + pollInterval * (n' + 1) ∧
      tickStarts (advance w ms) =
        base ++ (List.range n').map (fun k => t0 + pollInterval * (k + 1)) ∧
      (advance w ms).mounted = w.mounted ∧ (advance w ms).now = w.now + ms := by
  have hadv : advance w ms = { w with
      started := w.started ++ (List.range (tickCount (t0 + pollInterval * (n + 1)) (w.now + ms))).map
        (fun k => { id := w.nextId + k, startedAt := t0 + pollInterval * (n + 1) + pollInterval * k, origin := .tick })
      pending := w.pending ++ (List.range (tickCount (t0 + pollInterval * (n + 1)) (w.now + ms))).map
        (fun k => { id := w.nextId + k, startedAt := t0 + pollInterval * (n + 1) + pollInterval * k, origin := .tick })
      nextId := w.nextId + tickCount (t0 + pollInterval * (n + 1)) (w.now + ms)
      now := w.now + ms
      interval := some (t0 + pollInterval * (n + 1) +
        pollInterval * tickCount (t0 + pollInterval * (n + 1)) (w.now + ms)) } := by
    simp only [advance, hi, ticks_fold]
  have hb := tickCount_bounds (t0 + pollInterval * (n + 1)) (w.now + ms)
    (by rw [Nat.mul_add, Nat.mul_one]; omega)
  generalize tickCount (t0 + pollInterval * (n + 1)) (w.now + ms) = m at hadv hb
  rw [hadv]
  refine ⟨n + m, ?_, ?_, ?_, ?_, rfl, rfl⟩
  · show some _ = some _
    congr 1
    ring
  · show t0 + pollInterval * (n + m) ≤ w.now + ms
    have e : t0 + pollInterval * (n + 1) + pollInterval * m =
        t0 + pollInterval * (n + m) + pollInterval := by ring
    omega
  · show w.now + ms < t0 + pollInterval * (n + m + 1)
    have e : t0 + pollInterval * (n + 1) + pollInterval * m =
        t0 + pollInterval * (n + m + 1) := by ring
    omega
  · show ((w.started ++ _).filter _).map _ = _
    rw [tickStarts_append_ticks]
    have hts' : (w.started.filter (fun l => l.origin == .tick)).map Load.startedAt =
        base ++ (List.range n).map (fun k => t0 + pollInterval * (k + 1)) := hts
    rw [hts', range_map_ticks, List.append_assoc]

theorem loadDone_frame (w : Dash) (id : Nat) (o : LoadOutcome) :
    (loadDone w id o).interval = w.interval ∧ (loadDone w id o).now = w.now ∧
    (loadDone w id o).mounted = w.mounted ∧ (loadDone w id o).started = w.started := by
  unfold loadDone
  cases w.pending.find? (fun l => l.id == id) with
  | none => exact ⟨rfl, rfl, rfl, rfl⟩
  | some l =>
      cases hm : w.mounted with
      | false => simp [hm]
      | true =>
          cases hs : o.submissions with
          | none => simp [hm, hs]
          | some ss =>
              cases hst : o.stats with
              | none => simp [hm, hs, hst]
              | some st => simp [hm, hs, hst]

theorem exportDone_frame (w : Dash) (id : Nat) (result : Option UtcTime) :
    (exportDone w id result).interval = w.interval ∧ (exportDone w id result).now = w.now ∧
    (exportDone w id result).mounted = w.mounted ∧
    (exportDone w id result).started = w.started := by
  unfold exportDone
  cases w.exportsPending.find? (fun x => x.id == id) with
  | none => exact ⟨rfl, rfl, rfl, rfl⟩
  | some x =>
      cases result with
      | none => cases hm : w.mounted <;> simp [hm]
      | some d => exact ⟨rfl, rfl, rfl, rfl⟩

/-- An event that is neither a wait nor a mount or unmount leaves the clock,
the interval and the loads the interval started as they are. -/
theorem step_frame (w : Dash) (ev : Event) (hl : ev.isLifecycle = false)
    (hw : ∀ ms, ev ≠ .wait ms) :
    (step w ev).interval = w.interval ∧ (step w ev).now = w.now ∧
    (step w ev).mounted = w.mounted ∧ tickStarts (step w ev) = tickStarts w := by
  cases ev with
  | mount => cases hl
  | unmount => cases hl
  | wait ms => exact absurd rfl (hw ms)
  | refresh =>
      simp only [step]
      split
      · refine ⟨rfl, rfl, rfl, ?_⟩
        simp [tickStarts, loadData, List.filter_append]
      · exact ⟨rfl, rfl, rfl, rfl⟩
  | loadDone id o =>
      obtain ⟨h1, h2, h3, h4⟩ := loadDone_frame w id o
      refine ⟨h1, h2, h3, ?_⟩
      show ((loadDone w id o).started.filter _).map _ = _
      rw [h4]
      rfl
  | exportClick type =>
      simp only [step]
      split
      · exact ⟨rfl, rfl, rfl, rfl⟩
      · exact ⟨rfl, rfl, rfl, rfl⟩
  | exportDone id result =>
      obtain ⟨h1, h2, h3, h4⟩ := exportDone_frame w id result
      refine ⟨h1, h2, h3, ?_⟩
      show ((exportDone w id result).started.filter _).map _ = _
      rw [h4]
      rfl
  | selectTab tab =>
      simp only [step]
      split
      · exact ⟨rfl, rfl, rfl, rfl⟩
      · exact ⟨rfl, rfl, rfl, rfl⟩

theorem run_polling (t0 : Nat) (base : List Nat) (es : List Event) (w : Dash) (n : Nat)
    (hes : ∀ ev ∈ es, ev ≠ .unmount)
    (hm : w.mounted = true)
    (hi : w.interval = some (t0 + pollInterval * (n + 1)))
    (hlo : t0 + pollInterval * n ≤ w.now) (hhi : w.now < t0 + pollInterval * (n + 1))
    (hts : tickStarts w = base ++ (List.range n).map (fun k => t0 + pollInterval * (k + 1))) :
    ∃ n', t0 + pollInterval * n' ≤ (run w es).now ∧
      (run w es).now < t0 + pollInterval * (n' + 1) ∧
      tickStarts (run w es) =
        base ++ (List.range n').map (fun k => t0 + pollInterval * (k + 1)) ∧
      (run w es).now = w.now + elapsed es := by
  induction es generalizing w n with
  | nil => exact ⟨n, hlo, hhi, hts, rfl⟩
  | cons ev es ih =>
      have hrest : ∀ x ∈ es, x ≠ .unmount := fun x hx => hes x (List.mem_cons_of_mem _ hx)
      have hev : ev ≠ .unmount := hes ev (List.mem_cons_self _ _)
      cases ev with
      | unmount => exact absurd rfl hev
      | wait ms =>
          obtain ⟨n1, h1, h2, h3, h4, h5, h6⟩ := advance_polling t0 base n w ms hi hlo hts
          obtain ⟨n2, g1, g2, g3, g4⟩ :=
            ih (advance w ms) n1 hrest (h5.trans hm) h1 h2 h3 h4
          refine ⟨n2, g1, g2, g3, ?_⟩
          show (run (advance w ms) es).now = w.now + (ms + elapsed es)
          rw [g4, h6, Nat.add_assoc]
      | mount =>
          have hstep : step w .mount = w := by simp [step, hm]
          have hrun : run w (.mount :: es) = run w es := by
            show run (step w .mount) es = _
            rw [hstep]
          rw [hrun]
          exact ih w n hrest hm hi hlo hhi hts
      | refresh =>
          obtain ⟨f1, f2, f3, f4⟩ := step_frame w .refresh rfl (fun _ h => by cases h)
          obtain ⟨n2, g1, g2, g3, g4⟩ := ih (step w .refresh) n hrest (f3.trans hm)
            (f1.trans hi) (f2 ▸ hlo) (f2 ▸ hhi) (f4.trans hts)
          exact ⟨n2, g1, g2, g3, g4.trans (by rw [f2]; rfl)⟩
      | loadDone id o =>
          obtain ⟨f1, f2, f3, f4⟩ := step_frame w (.loadDone id o) rfl (fun _ h => by cases h)
          obtain ⟨n2, g1, g2, g3, g4⟩ := ih (step w (.loadDone id o)) n hrest (f3.trans hm)
            (f1.trans hi) (f2 ▸ hlo) (f2 ▸ hhi) (f4.trans hts)
          exact ⟨n2, g1, g2, g3, g4.trans (by rw [f2]; rfl)⟩
      | exportClick type =>
          obtain ⟨f1, f2, f3, f4⟩ := step_frame w (.exportClick type) rfl (fun _ h => by cases h)
          obtain ⟨n2, g1, g2, g3, g4⟩ := ih (step w (.exportClick type)) n hrest (f3.trans hm)
            (f1.trans hi) (f2 ▸ hlo) (f2 ▸ hhi) (f4.trans hts)
          exact ⟨n2, g1, g2, g3, g4.trans (by rw [f2]; rfl)⟩
      | exportDone id result =>
          obtain ⟨f1, f2, f3, f4⟩ :=
            step_frame w (.exportDone id result) rfl (fun _ h => by cases h)
          obtain ⟨n2, g1, g2, g3, g4⟩ := ih (step w (.exportDone id result)) n hrest
            (f3.trans hm) (f1.trans hi) (f2 ▸ hlo) (f2 ▸ hhi) (f4.trans hts)
          exact ⟨n2, g1, g2, g3, g4.trans (by rw [f2]; rfl)⟩
      | selectTab tab =>
          obtain ⟨f1, f2, f3, f4⟩ := step_frame w (.selectTab tab) rfl (fun _ h => by cases h)
          obtain ⟨n2, g1, g2, g3, g4⟩ := ih (step w (.selectTab tab)) n hrest (f3.trans hm)
            (f1.trans hi) (f2 ▸ hlo) (f2 ▸ hhi) (f4.trans hts)
          exact ⟨n2, g1, g2, g3, g4.trans (by rw [f2]; rfl)⟩

theorem run_unmounted (es : List Event) (w : Dash) (hes : ∀ ev ∈ es, ev ≠ .mount)
    (hm : w.mounted = false) (hi : w.interval = none) :
    tickStarts (run w es) = tickStarts w := by
  induction es generalizing w with
  | nil => rfl
  | cons ev es ih =>
      have hrest : ∀ x ∈ es, x ≠ .mount := fun x hx => hes x (List.mem_cons_of_mem _ hx)
      have hev : ev ≠ .mount := hes ev (List.mem_cons_self _ _)
      show tickStarts (run (step w ev) es) = _
      cases ev with
      | mount => exact absurd rfl hev
      | unmount =>
          have hstep : step w .unmount = w := by simp [step, hm]
          rw [hstep]
          exact ih w hrest hm hi
      | wait ms =>
          have hstep : step w (.wait ms) = { w with now := w.now + ms } := by
            simp only [step, advance, hi]
          rw [hstep]
          exact ih _ hrest hm hi
      | refresh =>
          obtain ⟨f1, _, f3, f4⟩ := step_frame w .refresh rfl (fun _ h => by cases h)
          rw [ih _ hrest (f3.trans hm) (f1.trans hi), f4]
      | loadDone id o =>
          obtain ⟨f1, _, f3, f4⟩ := step_frame w (.loadDone id o) rfl (fun _ h => by cases h)
          rw [ih _ hrest (f3.trans hm) (f1.trans hi), f4]
      | exportClick type =>
          obtain ⟨f1, _, f3, f4⟩ := step_frame w (.exportClick type) rfl (fun _ h => by cases h)
          rw [ih _ hrest (f3.trans hm) (f1.trans hi), f4]
      | exportDone id result =>
          obtain ⟨f1, _, f3, f4⟩ :=
            step_frame w (.exportDone id result) rfl (fun _ h => by cases h)
          rw [ih _ hrest (f3.trans hm) (f1.trans hi), f4]
      | selectTab tab =>
          obtain ⟨f1, _, f3, f4⟩ := step_frame w (.selectTab tab) rfl (fun _ h => by cases h)
          rw [ih _ hrest (f3.trans hm) (f1.trans hi), f4]

/-- C20, counterexample.  The dashboard mounts at 0 ms and no fetch is
answered for 60 s.  The tick at 30000 ms starts a `loadData`, and the tick at
60000 ms starts another while that one, and the one of the mount, are still
unresolved. -/
theorem ticks_overlap_unresolved_loads :
    (run (initial 0) [.mount, .wait 60000]).pending.map
      (fun l => (l.id, l.startedAt, l.origin)) =
      [(0, 0, .mount), (1, 30000, .tick), (2, 60000, .tick)] := by
  decide

/-- C20, as the code has it.  Mounting starts one `loadData` at once and sets
an interval of 30 s.  In every run of events after the mount in which the
dashboard is not unmounted, the loads the interval has started are those at
30 s, 60 s, ... after the mount, one for each whole period elapsed.
Unmounting clears the interval: in every run after it in which the dashboard
does not mount again, the interval starts no load.  A tick starts its
`loadData` whatever loads are unresolved: the new load joins them. -/
theorem polling_every_period_until_unmount (w0 : Dash) (es : List Event)
    (hes : ∀ ev ∈ es, ev ≠ .unmount) :
    (mount w0).started =
      w0.started ++ [{ id := w0.nextId, startedAt := w0.now, origin := .mount }] ∧
    (mount w0).interval = some (w0.now + pollInterval) ∧
    tickStarts (run (mount w0) es) =
      tickStarts w0 ++ (List.range (elapsed es / pollInterval)).map
        (fun k => w0.now + pollInterval * (k + 1)) ∧
    (∀ (w : Dash) (es' : List Event), (∀ ev ∈ es', ev ≠ .mount) →
      tickStarts (run (unmount w) es') = tickStarts w) ∧
    (∀ (w : Dash) (t : Nat),
      (loadData w t .tick).pending =
        w.pending ++ [{ id := w.nextId, startedAt := t, origin := .tick }]) := by
  refine ⟨rfl, rfl, ?_, ?_, fun _ _ => rfl⟩
  · have hts : tickStarts (mount w0) =
        tickStarts w0 ++ (List.range 0).map (fun k => w0.now + pollInterval * (k + 1)) := by
      simp [tickStarts, mount, loadData, List.filter_append]
    have hlo : w0.now + pollInterval * 0 ≤ (mount w0).now := Nat.le_of_eq (Nat.add_zero _)
    have hhi : (mount w0).now < w0.now + pollInterval * (0 + 1) := by
      show w0.now < w0.now + pollInterval * (0 + 1)
      have hp : 0 < pollInterval := by unfold pollInterval; omega
      rw [Nat.zero_add, Nat.mul_one]
      omega
    obtain ⟨n, h1, h2, h3, h4⟩ := run_polling w0.now (tickStarts w0) es (mount w0) 0 hes rfl
      (by rw [Nat.zero_add, Nat.mul_one]; rfl) hlo hhi hts
    have hnow : (run (mount w0) es).now = w0.now + elapsed es := h4
    rw [hnow] at h1 h2
    have hn : elapsed es / pollInterval = n := by
      apply Nat.div_eq_of_lt_le
      · rw [Nat.mul_comm]; omega
      · rw [Nat.mul_comm]; omega
    rw [hn]
    exact h3
  · intro w es' hes'
    exact run_unmounted es' (unmount w) hes' rfl rfl

/-- Witness of C20's theorem: a mount at 0 ms, then 90 s with a click on
Refresh in between. -/
theorem polling_every_period_until_unmount_witness :
    (∀ ev ∈ [Event.wait 45000, Event.refresh, Event.wait 45000], ev ≠ Event.unmount) ∧
    tickStarts (run (mount (initial 0)) [.wait 45000, .refresh, .wait 45000]) =
      [30000, 60000, 90000] :=
  ⟨by decide,
    (polling_every_period_until_unmount (initial 0) [.wait 45000, .refresh, .wait 45000]
      (by decide)).2.2.1.trans (by decide)⟩

/-! ## The outcome of a load -/

/-- C22. Let `id` be an unresolved `loadData` of a mounted dashboard.  If its
submissions fetch or its stats fetch fails, `submissions`, `stats` and
`reportData` are left as they were and `error` becomes 'Failed to load
submissions'.  If both succeed, `submissions` and `stats` take the fetched
values and `error` is left as it was; `reportData` takes the fetched report
when the report fetch succeeded and keeps its value when it failed.  In every
case `loading` ends `false`. -/
theorem loadData_required_data_all_or_nothing (w : Dash) (id : Nat) (l : Load)
    (o : LoadOutcome) (hm : w.mounted = true)
    (hp : w.pending.find? (fun x => x.id == id) = some l) :
    (loadDone w id o).loading = false ∧
    ((o.submissions = none ∨ o.stats = none) →
      (loadDone w id o).submissions = w.submissions ∧
      (loadDone w id o).stats = w.stats ∧
      (loadDone w id o).reportData = w.reportData ∧
      (loadDone w id o).error = "Failed to load submissions") ∧
    (∀ ss st, o.submissions = some ss → o.stats = some st →
      (loadDone w id o).submissions = ss ∧
      (loadDone w id o).stats = some st ∧
      (loadDone w id o).error = w.error ∧
      (o.report = none → (loadDone w id o).reportData = w.reportData) ∧
      (∀ r, o.report = some r → (loadDone w id o).reportData = some r)) := by
  cases hs : o.submissions with
  | none =>
      have hd : loadDone w id o = { w with
          pending := w.pending.filter (fun x => x.id != id)
          error := "Failed to load submissions"
          loading := false } := by
        simp only [loadDone, hp, hm, hs, if_true]
      rw [hd]
      refine ⟨rfl, fun _ => ⟨rfl, rfl, rfl, rfl⟩, ?_⟩
      intro ss st h
      cases h
  | some ss =>
      cases hst : o.stats with
      | none =>
          have hd : loadDone w id o = { w with
              pending := w.pending.filter (fun x => x.id != id)
              error := "Failed to load submissions"
              loading := false } := by
            simp only [loadDone, hp, hm, hs, hst, if_true]
          rw [hd]
          refine ⟨rfl, fun _ => ⟨rfl, rfl, rfl, rfl⟩, ?_⟩
          intro ss' st _ h
          cases h
      | some st =>
          have hd : loadDone w id o = { w with
              pending := w.pending.filter (fun x => x.id != id)
              submissions := ss
              stats := some st
              reportData := match o.report with
                | some r => some r
                | none => w.reportData
              loading := false } := by
            simp only [loadDone, hp, hm, hs, hst, if_true]
          rw [hd]
          refine ⟨rfl, ?_, ?_⟩
          · rintro (h | h) <;> cases h
          · intro ss' st' h1 h2
            cases h1
            cases h2
            refine ⟨rfl, rfl, rfl, ?_, ?_⟩
            · intro hr
              simp only [hr]
            · intro r hr
              simp only [hr]

/-- Witness of C22's theorem: the load of the mount, whose report fetch
fails. -/
theorem loadData_required_data_all_or_nothing_witness :
    (mount (initial 0)).mounted = true ∧
    (mount (initial 0)).pending.find? (fun x => x.id == 0) =
      some { id := 0, startedAt := 0, origin := .mount } ∧
    (loadDone (mount (initial 0)) 0
      { submissions := some [[("project_name", "Arena")]],
        stats := some { total := 1, completed := 0, inProgress := 1 },
        report := none }).loading = false ∧
    (loadDone (mount (initial 0)) 0
      { submissions := some [[("project_name", "Arena")]],
        stats := some { total := 1, completed := 0, inProgress := 1 },
        report := none }).submissions = [[("project_name", "Arena")]] := by
  have hp : (mount (initial 0)).pending.find? (fun x => x.id == 0) =
      some { id := 0, startedAt := 0, origin := .mount } := by decide
  have hthm := loadData_required_data_all_or_nothing (mount (initial 0)) 0 _
    { submissions := some [[("project_name", "Arena")]],
      stats := some { total := 1, completed := 0, inProgress := 1 },
      report := none } rfl hp
  exact ⟨rfl, hp, hthm.1, (hthm.2.2 _ _ rfl rfl).1⟩

end AdminDashboard

namespace App

/-! ## The route guard -/

theorem tokenPresent_iff (st : State) :
    tokenPresent st = true ↔ ∃ t, st.token = some t ∧ t ≠ "" := by
  unfold tokenPresent
  cases h : st.token with
  | none => simp
  | some t => simp

theorem adminUser_iff (st : State) :
    adminUser st = true ↔
      ∃ ps, st.user = .object ps ∧ (SubmissionForm.lookupProp ps "is_admin").truthy = true := by
  unfold adminUser
  cases h : st.user with
  | null => simp [isAdmin, SubmissionForm.Val.truthy]
  | undefined => simp [isAdmin, SubmissionForm.Val.truthy]
  | primitive => simp [isAdmin, SubmissionForm.Val.truthy]
  | object ps => simp [isAdmin]

theorem route_of_parse (st : State) (u : UserVal) (h : parseStored st.storedUser = .ok u)
    (p : Path) : route st p = .ok (routeElement st p) := by
  simp only [route, h]

/-- C23, counterexample.  `handleLogin('t0ken', undefined)`, which RegisterPage
issues when the response carries no `user`, stores the text `undefined`.  The
token is then present and `user?.is_admin` is `undefined`, yet the render that
follows throws: `/submission` yields no SubmissionForm, and `/admin` and `/`
yield no redirect.  A page opened with such a text in storage throws at
once. -/
theorem login_without_user_breaks_the_routes :
    (handleLogin signedOut "t0ken" .undefined).token = some "t0ken" ∧
    isAdmin (handleLogin signedOut "t0ken" .undefined).user = .undefined ∧
    (handleLogin signedOut "t0ken" .undefined).storedUser = some .malformed ∧
    route (handleLogin signedOut "t0ken" .undefined) .submission = .error .syntaxError ∧
    route (handleLogin signedOut "t0ken" .undefined) .admin = .error .syntaxError ∧
    route (handleLogin signedOut "t0ken" .undefined) .root = .error .syntaxError ∧
    start (some "t0ken") (some .malformed) = .error .syntaxError :=
  ⟨rfl, rfl, rfl, rfl, rfl, rfl, rfl⟩

/-- C23, as the code has it.  Let the stored user text be absent, empty or
JSON, so that the render returns.  Then `/admin` yields the AdminDashboard
exactly when the state `token` is a non-empty string and the state `user` is
an object whose `is_admin` is truthy, and a redirect to `/login` exactly
otherwise; `/submission` yields the SubmissionForm exactly when `token` is a
non-empty string, and a redirect to `/login` exactly otherwise; `/` redirects
to `/admin` for a token with an admin user, to `/submission` for a token with
any other user and to `/login` without a token, and following the redirects
ends at the matching page.  When the stored user text is not JSON, every
route throws.  After `handleLogout`, whatever the state was, the three guarded
routes redirect to `/login`.  After `handleLogin` with an administrator the
dashboard is reached, with a member it is not. -/
theorem route_guard (st : State) :
    ((∃ u, parseStored st.storedUser = .ok u) →
      (route st .admin = .ok .adminDashboard ↔
        (∃ t, st.token = some t ∧ t ≠ "") ∧
        ∃ ps, st.user = .object ps ∧
          (SubmissionForm.lookupProp ps "is_admin").truthy = true) ∧
      (route st .admin = .ok (.navigate .login) ↔
        ¬ ((∃ t, st.token = some t ∧ t ≠ "") ∧
          ∃ ps, st.user = .object ps ∧
            (SubmissionForm.lookupProp ps "is_admin").truthy = true)) ∧
      (route st .submission = .ok .submissionForm ↔ ∃ t, st.token = some t ∧ t ≠ "") ∧
      (route st .submission = .ok (.navigate .login) ↔ ¬ ∃ t, st.token = some t ∧ t ≠ "") ∧
      ((∃ t, st.token = some t ∧ t ≠ "") →
        (∃ ps, st.user = .object ps ∧
          (SubmissionForm.lookupProp ps "is_admin").truthy = true) →
        route st .root = .ok (.navigate .admin) ∧ settle st 2 .root = some .adminDashboard) ∧
      ((∃ t, st.token = some t ∧ t ≠ "") →
        (¬ ∃ ps, st.user = .object ps ∧
          (SubmissionForm.lookupProp ps "is_admin").truthy = true) →
        route st .root = .ok (.navigate .submission) ∧
        settle st 2 .root = some .submissionForm) ∧
      ((¬ ∃ t, st.token = some t ∧ t ≠ "") →
        route st .root = .ok (.navigate .login) ∧ settle st 2 .root = some .loginPage)) ∧
    (∀ e, parseStored st.storedUser = .error e → ∀ p, route st p = .error e) ∧
    route (handleLogout st) .admin = .ok (.navigate .login) ∧
    route (handleLogout st) .submission = .ok (.navigate .login) ∧
    route (handleLogout st) .root = .ok (.navigate .login) ∧
    route (handleLogin st "t0ken" adminVal) .admin = .ok .adminDashboard ∧
    route (handleLogin st "t0ken" adminVal) .root = .ok (.navigate .admin) ∧
    route (handleLogin st "t0ken" memberVal) .admin = .ok (.navigate .login) ∧
    route (handleLogin st "t0ken" memberVal) .submission = .ok .submissionForm ∧
    route (handleLogin st "t0ken" memberVal) .root = .ok (.navigate .submission) ∧
    route (handleLogin st "t0ken" .null) .root = .ok (.navigate .submission) ∧
    route (handleLogin st "" adminVal) .admin = .ok (.navigate .login) := by
  refine ⟨?_, ?_, rfl, rfl, rfl, rfl, rfl, rfl, rfl, rfl, rfl, rfl⟩
  · rintro ⟨u, hu⟩
    have hr := route_of_parse st u hu
    rw [← tokenPresent_iff, ← adminUser_iff]
    simp only [hr, Except.ok.injEq]
    cases ht : tokenPresent st <;> cases ha : adminUser st <;>
      simp [routeElement, settle, ht, ha]
  · intro e he p
    simp only [route, he]

/-- Witness of C23's theorem: after `handleLogin` with a token and an
administrator the stored text is JSON, and `/admin` renders the dashboard. -/
theorem route_guard_witness :
    parseStored (handleLogin signedOut "t0ken" adminVal).storedUser = .ok adminVal ∧
    route (handleLogin signedOut "t0ken" adminVal) .admin = .ok .adminDashboard :=
  ⟨rfl,
    ((route_guard (handleLogin signedOut "t0ken" adminVal)).1 ⟨adminVal, rfl⟩).1.2
      ⟨⟨"t0ken", rfl, by decide⟩, ⟨_, rfl, by decide⟩⟩⟩

end App
